import Mathlib

/-! EndTransaction evaluation (`pkg/storage/batcheval/cmd_end_transaction.go`)

A shallow embedding of the transaction finalization command of the range
store: the evaluation function `evalEndTransaction`, the retry and deadline
predicates, local intent resolution, the transaction-record writer and the
commit triggers.

Conventions of the embedding.

* Go packages become namespaces (`roachpb`, `hlc`, `enginepb`, `result`,
  `storagebase`, `batcheval`), so that the Go names can be kept.
* The write batch is an arbitrary type `β`. Every primitive of the storage
  engine and every helper that lives outside the embedded file is a field of
  `batcheval.Engine β`; a primitive that writes takes the batch and returns
  the new batch. "No write to the batch" is therefore "the batch returned is
  the batch given", for every engine.
* State reached through pointers (`batch`, `cArgs.Stats`, `reply.Txn`, the
  evaluation-knob counter) is passed and returned explicitly.
* A Go `panic`, a `log.Fatalf` and a nil dereference end the evaluation with
  `Except.error` carrying a `batcheval.Crash`; an `error` value returned by Go
  code is data (`Option roachpb.Error`) next to the result.
-/

set_option autoImplicit false

/-! ## Data model -/

namespace hlc

/-- Modelled from the spec: the declaration of `hlc.Timestamp` is outside the
embedded file. A hybrid logical clock timestamp; `WallTime` is an int64 and
`Logical` an int32, and only comparisons are made on them, so both are
integers. -/
structure Timestamp where
  WallTime : Int
  Logical : Int
deriving DecidableEq, Repr

/-- Modelled from the spec: `hlc.Timestamp.Less` is outside the embedded file.
The spec compares timestamps with "strictly less"; the order is the one of a
hybrid logical clock, wall time first and the logical counter second. -/
def Timestamp.Less (t s : Timestamp) : Bool :=
  decide (t.WallTime < s.WallTime) ||
    (decide (t.WallTime = s.WallTime) && decide (t.Logical < s.Logical))

/-- Modelled from the spec: `hlc.Timestamp.Forward` is outside the embedded
file. It replaces the receiver by `s` when the receiver is less than `s`
(the spec's `max(orig_timestamp, refreshed_timestamp)`); the value returned
here is the receiver after the call. -/
def Timestamp.Forward (t s : Timestamp) : Timestamp :=
  if t.Less s then s else t

/-- The timestamp order as a linear order: wall time first, then the logical
counter. Used to state the specification's `max`. -/
instance : LinearOrder Timestamp :=
  LinearOrder.lift' (fun t : Timestamp => toLex (t.WallTime, t.Logical))
    (fun a b h => by
      cases a
      cases b
      simpa using h)

end hlc

namespace roachpb

/-- Modelled from the spec: the declarations of `roachpb.Key` and `roachpb.RKey`
are outside the embedded file; a key is a byte string. -/
abbrev Key := List Nat

/-- Modelled from the spec: `RKey.Less` is outside the embedded file; it is
the bytewise lexicographic comparison of two keys ("strictly less"). -/
def Key.Less : Key → Key → Bool
  | [], [] => false
  | [], _ :: _ => true
  | _ :: _, [] => false
  | a :: as, b :: bs => decide (a < b) || (decide (a = b) && Key.Less as bs)

/-- Modelled from the spec: the declaration of `roachpb.Span` is outside the
embedded file. "A pair (start_key, end_key?) designating either a single key
(no end) or a half-open key range." -/
structure Span where
  Key : roachpb.Key
  EndKey : roachpb.Key
deriving DecidableEq, Repr

/-- Modelled from the spec: the declaration of `roachpb.TransactionStatus` is
outside the embedded file; "status ∈ {PENDING, COMMITTED, ABORTED}". It is a
Go int32 enumeration, so values outside the three named ones exist in the
type (the `default` case of the status switch). -/
structure TransactionStatus where
  code : Int
deriving DecidableEq, Repr

/-- Pending status. -/
def PENDING : TransactionStatus := ⟨0⟩
/-- Committed status. -/
def COMMITTED : TransactionStatus := ⟨1⟩
/-- Aborted status. -/
def ABORTED : TransactionStatus := ⟨2⟩

/-- Modelled from the spec: the declaration of `roachpb.TransactionRetryReason`
is outside the embedded file; "reason ∈ {WRITE_TOO_OLD, SERIALIZABLE,
DELETE_RANGE}", with `RETRY_REASON_UNKNOWN` as the zero value. -/
inductive TransactionRetryReason
  | RETRY_REASON_UNKNOWN
  | RETRY_WRITE_TOO_OLD
  | RETRY_DELETE_RANGE
  | RETRY_SERIALIZABLE
deriving DecidableEq, Repr

/-- Modelled from the spec: the declaration of `roachpb.TransactionAbortedReason`
is outside the embedded file; the reason the embedded file uses and the zero
value. -/
inductive TransactionAbortedReason
  | ABORT_REASON_UNKNOWN
  | ABORT_REASON_ABORTED_RECORD_FOUND
deriving DecidableEq, Repr

end roachpb

namespace enginepb

/-- Modelled from the spec: the declaration of `enginepb.IsolationType` is
outside the embedded file; "isolation level ∈ {SERIALIZABLE,
SNAPSHOT-like}", a Go int32 enumeration. -/
structure IsolationType where
  code : Int
deriving DecidableEq, Repr

/-- Serializable isolation. -/
def SERIALIZABLE : IsolationType := ⟨0⟩
/-- Snapshot isolation. -/
def SNAPSHOT : IsolationType := ⟨1⟩

/-- Modelled from the spec: the declaration of `enginepb.TxnMeta` is outside the
embedded file; the transaction metadata carried by every intent. -/
structure TxnMeta where
  ID : Nat
  Isolation : IsolationType
  Key : roachpb.Key
  Epoch : Nat
  Timestamp : hlc.Timestamp
  Priority : Int
  Sequence : Int
deriving DecidableEq, Repr

/-- Modelled from the spec: the declaration of `enginepb.MVCCStats` is outside
the embedded file. The spec describes "a bundle of counters (live/key/value
bytes, key counts, intent counts, system bytes, etc.) carrying a
contains_estimates flag". -/
structure MVCCStats where
  ContainsEstimates : Bool
  LiveBytes : Int
  LiveCount : Int
  KeyBytes : Int
  KeyCount : Int
  ValBytes : Int
  ValCount : Int
  IntentBytes : Int
  IntentCount : Int
  SysBytes : Int
  SysCount : Int
deriving DecidableEq, Repr

/-- Zero value `enginepb.MVCCStats{}`. -/
def MVCCStats.zero : MVCCStats :=
  ⟨false, 0, 0, 0, 0, 0, 0, 0, 0, 0, 0⟩

/-- Modelled from the spec: `MVCCStats.Add` is outside the embedded file; the
spec says the stats are "additive and subtractable". Counters are added one
by one and the estimates flag is kept when either side has it. -/
def MVCCStats.Add (ms oms : MVCCStats) : MVCCStats :=
  { ContainsEstimates := ms.ContainsEstimates || oms.ContainsEstimates
    LiveBytes := ms.LiveBytes + oms.LiveBytes
    LiveCount := ms.LiveCount + oms.LiveCount
    KeyBytes := ms.KeyBytes + oms.KeyBytes
    KeyCount := ms.KeyCount + oms.KeyCount
    ValBytes := ms.ValBytes + oms.ValBytes
    ValCount := ms.ValCount + oms.ValCount
    IntentBytes := ms.IntentBytes + oms.IntentBytes
    IntentCount := ms.IntentCount + oms.IntentCount
    SysBytes := ms.SysBytes + oms.SysBytes
    SysCount := ms.SysCount + oms.SysCount }

/-- Modelled from the spec: `MVCCStats.Subtract` is outside the embedded file;
the spec says the stats are "additive and subtractable". Counters are
subtracted one by one and the estimates flag is kept when either side has
it. -/
def MVCCStats.Subtract (ms oms : MVCCStats) : MVCCStats :=
  { ContainsEstimates := ms.ContainsEstimates || oms.ContainsEstimates
    LiveBytes := ms.LiveBytes - oms.LiveBytes
    LiveCount := ms.LiveCount - oms.LiveCount
    KeyBytes := ms.KeyBytes - oms.KeyBytes
    KeyCount := ms.KeyCount - oms.KeyCount
    ValBytes := ms.ValBytes - oms.ValBytes
    ValCount := ms.ValCount - oms.ValCount
    IntentBytes := ms.IntentBytes - oms.IntentBytes
    IntentCount := ms.IntentCount - oms.IntentCount
    SysBytes := ms.SysBytes - oms.SysBytes
    SysCount := ms.SysCount - oms.SysCount }

end enginepb

namespace roachpb

/-- Modelled from the spec: the declaration of `roachpb.Transaction` is outside
the embedded file. The transaction record of the spec's data model, with the
fields the embedded file reads or writes and `enginepb.TxnMeta` embedded as
in Go. -/
structure Transaction extends enginepb.TxnMeta where
  Name : String
  Status : roachpb.TransactionStatus
  OrigTimestamp : hlc.Timestamp
  RefreshedTimestamp : hlc.Timestamp
  WriteTooOld : Bool
  RetryOnPush : Bool
  OrigTimestampWasObserved : Bool
  Intents : List roachpb.Span
deriving DecidableEq, Repr

/-- Modelled from the spec: `Transaction.Clone` is outside the embedded file;
"a clone of the client-supplied transaction". Values are immutable here, so
the copy is the value. -/
def Transaction.Clone (t : Transaction) : Transaction := t

/-- Modelled from the spec: `Transaction.IsSerializable` is outside the
embedded file; "the isolation is SERIALIZABLE". -/
def Transaction.IsSerializable (t : Transaction) : Bool :=
  t.Isolation == enginepb.SERIALIZABLE

/-- Modelled from the spec: the declaration of `roachpb.Intent` is outside the
embedded file; a span that "carries the owning transaction's metadata and
final status". -/
structure Intent where
  Span : roachpb.Span
  Txn : enginepb.TxnMeta
  Status : roachpb.TransactionStatus
deriving DecidableEq, Repr

/-- Modelled from the spec: the declaration of `roachpb.ReplicaDescriptor` is
outside the embedded file; a replica of a range on a store. -/
structure ReplicaDescriptor where
  NodeID : Nat
  StoreID : Nat
  ReplicaID : Nat
deriving DecidableEq, Repr

/-- Modelled from the spec: the declaration of `roachpb.RangeDescriptor` is
outside the embedded file. "Identifies a range by integer ID, start key, end
key, and the ordered set of replicas." -/
structure RangeDescriptor where
  RangeID : Nat
  StartKey : roachpb.Key
  EndKey : roachpb.Key
  Replicas : List roachpb.ReplicaDescriptor
  NextReplicaID : Nat
deriving DecidableEq, Repr

/-- Modelled from the spec: `RangeDescriptor.GetReplicaDescriptor` is outside
the embedded file; it finds the replica on the given store ("fail if the
lease holder's store is absent in the RHS descriptor"). -/
def RangeDescriptor.GetReplicaDescriptor (d : roachpb.RangeDescriptor) (storeID : Nat) :
    Option roachpb.ReplicaDescriptor :=
  d.Replicas.find? (fun r => r.StoreID == storeID)

/-- Modelled from the spec: the declaration of `roachpb.Lease` is outside the
embedded file; the lease with its `Replica` field, which the split
translates. -/
structure Lease where
  Start : hlc.Timestamp
  Replica : roachpb.ReplicaDescriptor
  Sequence : Int
deriving DecidableEq, Repr

/-- Zero value `roachpb.Lease{}`. -/
def Lease.zero : Lease := ⟨⟨0, 0⟩, ⟨0, 0, 0⟩, 0⟩

/-- Modelled from the spec: the declaration of `roachpb.SplitTrigger` is outside
the embedded file; "the split payload (LHS descriptor, RHS descriptor)". -/
structure SplitTrigger where
  LeftDesc : roachpb.RangeDescriptor
  RightDesc : roachpb.RangeDescriptor
deriving DecidableEq, Repr

/-- Modelled from the spec: the declaration of `roachpb.MergeTrigger` is outside
the embedded file; "the merge payload (LHS descriptor post-merge, RHS
descriptor, RHS's pre-merge stats)". -/
structure MergeTrigger where
  LeftDesc : roachpb.RangeDescriptor
  RightDesc : roachpb.RangeDescriptor
  RightMVCCStats : enginepb.MVCCStats
deriving DecidableEq, Repr

/-- Modelled from the spec: the declaration of `roachpb.ChangeReplicasTrigger`
is outside the embedded file; "the updated replica set and the next replica
ID". -/
structure ChangeReplicasTrigger where
  ChangeType : Int
  Replica : roachpb.ReplicaDescriptor
  UpdatedReplicas : List roachpb.ReplicaDescriptor
  NextReplicaID : Nat
deriving DecidableEq, Repr

/-- Modelled from the spec: the declaration of `roachpb.ModifiedSpanTrigger` is
outside the embedded file; whether the system-config span was touched and
the affected node-liveness span. -/
structure ModifiedSpanTrigger where
  SystemConfigSpan : Bool
  NodeLivenessSpan : Option roachpb.Span
deriving DecidableEq, Repr

/-- Modelled from the spec: the declaration of `roachpb.InternalCommitTrigger`
is outside the embedded file; the "optional internal_commit_trigger" with
its four payloads, each a pointer that may be nil. -/
structure InternalCommitTrigger where
  SplitTrigger : Option roachpb.SplitTrigger
  MergeTrigger : Option roachpb.MergeTrigger
  ChangeReplicasTrigger : Option roachpb.ChangeReplicasTrigger
  ModifiedSpanTrigger : Option roachpb.ModifiedSpanTrigger
deriving DecidableEq, Repr

/-- Modelled from the spec: the generated getter `GetMergeTrigger` is outside
the embedded file; it returns the merge payload, nil when the trigger itself
is nil. -/
def InternalCommitTrigger.GetMergeTrigger (ct : Option roachpb.InternalCommitTrigger) :
    Option roachpb.MergeTrigger :=
  match ct with
  | none => none
  | some c => c.MergeTrigger

/-- Modelled from the spec: the generated getter `GetSplitTrigger` is outside
the embedded file; it returns the split payload, nil when the trigger itself
is nil. -/
def InternalCommitTrigger.GetSplitTrigger (ct : Option roachpb.InternalCommitTrigger) :
    Option roachpb.SplitTrigger :=
  match ct with
  | none => none
  | some c => c.SplitTrigger

/-- Modelled from the spec: the generated getter `GetChangeReplicasTrigger` is
outside the embedded file; it returns the replica-change payload, nil when
the trigger itself is nil. -/
def InternalCommitTrigger.GetChangeReplicasTrigger (ct : Option roachpb.InternalCommitTrigger) :
    Option roachpb.ChangeReplicasTrigger :=
  match ct with
  | none => none
  | some c => c.ChangeReplicasTrigger

/-- Modelled from the spec: the generated getter `GetModifiedSpanTrigger` is
outside the embedded file; it returns the modified-span payload, nil when
the trigger itself is nil. -/
def InternalCommitTrigger.GetModifiedSpanTrigger (ct : Option roachpb.InternalCommitTrigger) :
    Option roachpb.ModifiedSpanTrigger :=
  match ct with
  | none => none
  | some c => c.ModifiedSpanTrigger

/-- Modelled from the spec: the declaration of `roachpb.EndTransactionRequest`
is outside the embedded file; the inbound command with `commit`, `poison`,
`require_1pc`, `no_refresh_spans`, optional `deadline`, `intent_spans` and
optional `internal_commit_trigger`. -/
structure EndTransactionRequest where
  Key : roachpb.Key
  Commit : Bool
  Deadline : Option hlc.Timestamp
  InternalCommitTrigger : Option roachpb.InternalCommitTrigger
  IntentSpans : List roachpb.Span
  Require1PC : Bool
  NoRefreshSpans : Bool
  Poison : Bool
deriving DecidableEq, Repr

/-- Modelled from the spec: the declaration of `roachpb.Header` is outside the
embedded file; the range id and the transaction, a pointer that may be
nil. -/
structure Header where
  RangeID : Nat
  Txn : Option roachpb.Transaction
deriving DecidableEq, Repr

/-- Modelled from the spec: the declaration of `roachpb.EndTransactionResponse`
is outside the embedded file; it carries "the updated transaction
record". -/
structure EndTransactionResponse where
  Txn : Option roachpb.Transaction
deriving DecidableEq, Repr

/-- Text of a transaction status error, kept structured: each constructor but
the last is one of the messages the embedded file builds; `other` is a
message built elsewhere. -/
inductive StatusMessage
  | couldNotCommitInOnePhase
  | epochRegression (epoch : Nat)
  | timestampRegression (orig : hlc.Timestamp)
  | badTxnStatus (txn : Transaction)
  | deadlineExceeded
  | other (msg : String)
deriving DecidableEq, Repr

/-- Modelled from the spec: the error types are declared outside the embedded
file; these are the error kinds of the spec's taxonomy, built by the
constructors the embedded file calls. `external` stands for an error value
produced by a collaborator outside the embedded file; `Errorf` and `Wrap` are
the errors the embedded file builds with `errors.Errorf` and `errors.Wrap`. -/
inductive Error
  | TransactionStatusError (msg : StatusMessage)
  | TransactionNotFoundStatusError
  | TransactionCommittedStatusError
  | TransactionAbortedError (reason : TransactionAbortedReason)
  | TransactionRetryError (reason : TransactionRetryReason)
  | ReplicaCorruptionError (cause : Error)
  | Errorf (msg : String)
  | Wrap (cause : Error) (msg : String)
  | external (code : Nat)
deriving DecidableEq, Repr

end roachpb

namespace storagebase

/-- Modelled from the spec: the declaration of `storagebase.Split` is outside
the embedded file; `replicated.split: {trigger, rhs_delta_stats}`. -/
structure Split where
  SplitTrigger : roachpb.SplitTrigger
  RHSDelta : enginepb.MVCCStats
deriving DecidableEq, Repr

/-- Modelled from the spec: the declaration of `storagebase.Merge` is outside
the embedded file; `replicated.merge: {trigger}`. -/
structure Merge where
  MergeTrigger : roachpb.MergeTrigger
deriving DecidableEq, Repr

/-- Modelled from the spec: the declaration of `storagebase.ChangeReplicas` is
outside the embedded file; `replicated.change_replicas: {trigger}`. -/
structure ChangeReplicas where
  ChangeReplicasTrigger : roachpb.ChangeReplicasTrigger
deriving DecidableEq, Repr

/-- Modelled from the spec: the declaration of `storagebase.ReplicaState` is
outside the embedded file; `replicated.state.desc`, the only field the
embedded file sets. -/
structure ReplicaState where
  Desc : Option roachpb.RangeDescriptor
deriving DecidableEq, Repr

/-- Modelled from the spec: the declaration of
`storagebase.ReplicatedEvalResult` is outside the embedded file; the
replicated compartment of an evaluation result. -/
structure ReplicatedEvalResult where
  BlockReads : Bool
  State : Option storagebase.ReplicaState
  Split : Option storagebase.Split
  Merge : Option storagebase.Merge
  ChangeReplicas : Option storagebase.ChangeReplicas
deriving DecidableEq, Repr

end storagebase

namespace result

/-- Modelled from the spec: the declaration of `result.EndTxnIntents` is outside
the embedded file; a finalized transaction whose intents are handed to the
asynchronous resolver, with the always-return and poison flags. -/
structure EndTxnIntents where
  Txn : roachpb.Transaction
  Always : Bool
  Poison : Bool
deriving DecidableEq, Repr

/-- Modelled from the spec: the declaration of `result.LocalResult` is outside
the embedded file; the local compartment of an evaluation result. -/
structure LocalResult where
  EndTxns : Option (List result.EndTxnIntents)
  UpdatedTxns : Option (List roachpb.Transaction)
  GossipFirstRange : Bool
  MaybeGossipSystemConfig : Bool
  MaybeAddToSplitQueue : Bool
  MaybeGossipNodeLiveness : Option roachpb.Span
deriving DecidableEq, Repr

/-- Modelled from the spec: the declaration of `result.Result` is outside the
embedded file; "a structured value with two compartments". -/
structure Result where
  Local : result.LocalResult
  Replicated : storagebase.ReplicatedEvalResult
deriving DecidableEq, Repr

/-- Zero value `result.Result{}`, the empty result. -/
def Result.empty : Result :=
  { Local :=
      { EndTxns := none
        UpdatedTxns := none
        GossipFirstRange := false
        MaybeGossipSystemConfig := false
        MaybeAddToSplitQueue := false
        MaybeGossipNodeLiveness := none }
    Replicated :=
      { BlockReads := false
        State := none
        Split := none
        Merge := none
        ChangeReplicas := none } }

end result

namespace abortspan

/-- Modelled from the spec: the declaration of `abortspan.AbortSpan` is outside
the embedded file; the abort span of a range, identified by the range id. -/
structure AbortSpan where
  rangeID : Nat
deriving DecidableEq, Repr

/-- Modelled from the spec: `abortspan.New` is outside the embedded file; the
abort span of the given range. -/
def New (rangeID : Nat) : AbortSpan := ⟨rangeID⟩

end abortspan

namespace engine

/-- Modelled from the spec: the declaration of `engine.IterOptions` is outside
the embedded file; the time bounds and the upper bound of an iterator. -/
structure IterOptions where
  MinTimestampHint : hlc.Timestamp
  MaxTimestampHint : hlc.Timestamp
  UpperBound : roachpb.Key
deriving DecidableEq, Repr

/-- Protocol message written with `MVCCPutProto` by the embedded file: a
transaction record or a timestamp. -/
inductive ProtoMessage
  | transaction (txn : roachpb.Transaction)
  | timestamp (ts : hlc.Timestamp)
deriving DecidableEq, Repr

end engine

namespace spanset

/-- Modelled from the spec: the declaration of `spanset.SpanAccess` is outside
the embedded file; a declared span is read-only or read-write. -/
inductive SpanAccess
  | SpanReadOnly
  | SpanReadWrite
deriving DecidableEq, Repr

/-- Modelled from the spec: the declaration of `spanset.SpanSet` is outside the
embedded file; "a span set partitioned into read-only and read-write spans".
The declarations are kept in the order in which they were added, each with
its access. -/
structure SpanSet where
  spans : List (spanset.SpanAccess × roachpb.Span)
deriving DecidableEq, Repr

/-- Modelled from the spec: `SpanSet.Add` is outside the embedded file; it adds
one span with the given access to the set. -/
def SpanSet.Add (s : SpanSet) (access : SpanAccess) (span : roachpb.Span) : SpanSet :=
  ⟨s.spans ++ [(access, span)]⟩

end spanset

namespace batcheval

/-- Ways in which the Go code stops without returning. -/
inductive Crash
  | nilTransaction
  | resolveIntentPanic (span : roachpb.Span) (status : roachpb.TransactionStatus)
      (err : roachpb.Error)
  | resolveAllowanceFatal (span : roachpb.Span) (resolveAllowance : Int)
  | unknownCommitTrigger (ct : roachpb.InternalCommitTrigger)
  | noLeaseFatal
  | uninitializedTxn (txn : roachpb.Transaction)
deriving DecidableEq, Repr

/-- Outcome of an engine primitive that writes to the batch and updates the
stats it is given. -/
structure WriteResult (β : Type) where
  batch : β
  ms : enginepb.MVCCStats
  err : Option roachpb.Error

/-- Outcome of `MVCCPutProto`, whose stats argument may be nil. -/
structure PutResult (β : Type) where
  batch : β
  ms : Option enginepb.MVCCStats
  err : Option roachpb.Error

/-- Outcome of the range-resolution primitive: the number of keys processed
and the optional resume span. -/
structure RangeResolveResult (β : Type) where
  batch : β
  ms : enginepb.MVCCStats
  num : Int
  resumeSpan : Option roachpb.Span
  err : Option roachpb.Error

/-- Outcome of a primitive that writes to the batch and has no stats. -/
structure BatchResult (β : Type) where
  batch : β
  err : Option roachpb.Error

/-- Evaluation context of the replica (`EvalContext`): what the embedded file
reads from it. The loaders read the replica's engine, not the batch. -/
structure EvalContext where
  Desc : roachpb.RangeDescriptor
  GetMVCCStats : enginepb.MVCCStats
  GetLastReplicaGCTimestamp : Except roachpb.Error hlc.Timestamp
  AbortSpan : abortspan.AbortSpan
  ContainsKey : roachpb.Key → Bool
  IsFirstRange : Bool
  LoadLease : Except roachpb.Error roachpb.Lease
  LoadGCThreshold : Except roachpb.Error hlc.Timestamp
  LoadTxnSpanGCThreshold : Except roachpb.Error hlc.Timestamp
  VersionSplitHardStateBelowRaftIsActive : Bool

/-- Collaborators outside the embedded file, over a batch type `β`: the MVCC
engine primitives, key constructors, helpers of other packages, and the
process-wide `TxnAutoGC` variable. Nothing is assumed about them. -/
structure Env (β : Type) where
  TxnAutoGC : Bool
  VerifyTransaction : roachpb.Header → roachpb.EndTransactionRequest → Option roachpb.Error
  TransactionKey : roachpb.Key → Nat → roachpb.Key
  RangeLastReplicaGCTimestampKey : Nat → roachpb.Key
  MakeRangeIDReplicatedPrefix : Nat → roachpb.Key
  PrefixEnd : roachpb.Key → roachpb.Key
  SystemConfigSpanKey : roachpb.Key
  Update : roachpb.Transaction → roachpb.Transaction → roachpb.Transaction
  InclusiveTimeBounds : roachpb.Transaction → hlc.Timestamp × hlc.Timestamp
  ContainsKey : roachpb.RangeDescriptor → roachpb.Key → Bool
  IntersectSpan : roachpb.Span → roachpb.RangeDescriptor →
    Option roachpb.Span × List roachpb.Span
  FromEndTxn : roachpb.Transaction → Bool → Bool → result.Result
  MergeAndDestroy : result.Result → result.Result → Except roachpb.Error result.Result
  MVCCGetProto : β → roachpb.Key → Except roachpb.Error (Option roachpb.Transaction)
  MVCCDelete : β → enginepb.MVCCStats → roachpb.Key → WriteResult β
  MVCCPutProto : β → Option enginepb.MVCCStats → roachpb.Key → engine.ProtoMessage →
    PutResult β
  MVCCResolveWriteIntentUsingIter : β → engine.IterOptions → enginepb.MVCCStats →
    roachpb.Intent → WriteResult β
  MVCCResolveWriteIntentRangeUsingIter : β → engine.IterOptions → enginepb.MVCCStats →
    roachpb.Intent → Int → RangeResolveResult β
  SetAbortSpan : EvalContext → β → enginepb.MVCCStats → enginepb.TxnMeta → Bool →
    WriteResult β
  CopyTo : abortspan.AbortSpan → β → enginepb.MVCCStats → hlc.Timestamp → Nat →
    WriteResult β
  ComputeStatsForRange : roachpb.RangeDescriptor → β → Int →
    Except roachpb.Error enginepb.MVCCStats
  ComputeStats : β → engine.IterOptions → roachpb.Key → roachpb.Key → Int →
    Except roachpb.Error enginepb.MVCCStats
  WriteInitialReplicaState : β → enginepb.MVCCStats → roachpb.RangeDescriptor →
    roachpb.Lease → hlc.Timestamp → hlc.Timestamp → WriteResult β
  SynthesizeRaftState : Nat → β → BatchResult β
  AbortSpanKey : Nat → Nat → roachpb.Key
  RangeDescriptorKey : roachpb.Key → roachpb.Key
  MakeRangeKeyPrefix : roachpb.Key → roachpb.Key
  MakeRangeIDUnreplicatedPrefix : Nat → roachpb.Key
  AbortSpanMinKey : Nat → roachpb.Key
  AbortSpanMaxKey : Nat → roachpb.Key
  AssertInitialized : roachpb.Transaction → Bool
  declareKeysWriteTransaction : roachpb.RangeDescriptor → roachpb.Header →
    roachpb.EndTransactionRequest → spanset.SpanSet → spanset.SpanSet

/-- Mutable state an evaluation works on: the write batch, the stats
accumulator `cArgs.Stats`, and the counter behind the evaluation knob
`NumKeysEvaluatedForRangeIntentResolution` (`none` when the knob is nil). -/
structure State (β : Type) where
  batch : β
  ms : enginepb.MVCCStats
  numKeysEvaluated : Option Int

/-- Arguments of a command: evaluation context, header and request. The
stats pointer `cArgs.Stats` is `State.ms`. -/
structure CommandArgs where
  EvalCtx : EvalContext
  Header : roachpb.Header
  Args : roachpb.EndTransactionRequest

/-- What `evalEndTransaction` leaves behind when it returns: the state, the
response, and the returned pair of result and error. -/
structure EvalOut (β : Type) where
  st : State β
  reply : roachpb.EndTransactionResponse
  res : result.Result
  err : Option roachpb.Error

/-! ## Key declaration -/

/-- Source lines 77-122 of `declareKeysEndTransaction`: the declarations added
for a split trigger. -/
def declareKeysEndTransaction.split {β : Type} (env : Env β) (header : roachpb.Header)
    (st : roachpb.SplitTrigger) (spans : spanset.SpanSet) : spanset.SpanSet :=
  let spans := spans.Add spanset.SpanAccess.SpanReadWrite
    { Key := st.LeftDesc.StartKey, EndKey := st.RightDesc.EndKey }
  let spans := spans.Add spanset.SpanAccess.SpanReadWrite
    { Key := env.MakeRangeKeyPrefix st.LeftDesc.StartKey
      EndKey := env.PrefixEnd (env.MakeRangeKeyPrefix st.RightDesc.EndKey) }
  let leftRangeIDPrefix := env.MakeRangeIDReplicatedPrefix header.RangeID
  let spans := spans.Add spanset.SpanAccess.SpanReadOnly
    { Key := leftRangeIDPrefix, EndKey := env.PrefixEnd leftRangeIDPrefix }
  let rightRangeIDPrefix := env.MakeRangeIDReplicatedPrefix st.RightDesc.RangeID
  let spans := spans.Add spanset.SpanAccess.SpanReadWrite
    { Key := rightRangeIDPrefix, EndKey := env.PrefixEnd rightRangeIDPrefix }
  let rightRangeIDUnreplicatedPrefix :=
    env.MakeRangeIDUnreplicatedPrefix st.RightDesc.RangeID
  let spans := spans.Add spanset.SpanAccess.SpanReadWrite
    { Key := rightRangeIDUnreplicatedPrefix
      EndKey := env.PrefixEnd rightRangeIDUnreplicatedPrefix }
  let spans := spans.Add spanset.SpanAccess.SpanReadOnly
    { Key := env.RangeLastReplicaGCTimestampKey st.LeftDesc.RangeID, EndKey := [] }
  let spans := spans.Add spanset.SpanAccess.SpanReadWrite
    { Key := env.RangeLastReplicaGCTimestampKey st.RightDesc.RangeID, EndKey := [] }
  spans.Add spanset.SpanAccess.SpanReadOnly
    { Key := env.AbortSpanMinKey header.RangeID, EndKey := env.AbortSpanMaxKey header.RangeID }

/-- Source lines 123-144 of `declareKeysEndTransaction`: the declarations added
for a merge trigger. -/
def declareKeysEndTransaction.merge {β : Type} (env : Env β) (header : roachpb.Header)
    (mt : roachpb.MergeTrigger) (spans : spanset.SpanSet) : spanset.SpanSet :=
  let leftRangeIDPrefix := env.MakeRangeIDReplicatedPrefix header.RangeID
  let spans := spans.Add spanset.SpanAccess.SpanReadWrite
    { Key := leftRangeIDPrefix, EndKey := env.PrefixEnd leftRangeIDPrefix }
  let spans := spans.Add spanset.SpanAccess.SpanReadWrite
    { Key := mt.RightDesc.StartKey, EndKey := mt.RightDesc.EndKey }
  let spans := spans.Add spanset.SpanAccess.SpanReadWrite
    { Key := env.MakeRangeKeyPrefix mt.RightDesc.StartKey
      EndKey := env.MakeRangeKeyPrefix mt.RightDesc.EndKey }
  spans.Add spanset.SpanAccess.SpanReadOnly
    { Key := env.MakeRangeIDReplicatedPrefix mt.RightDesc.RangeID
      EndKey := env.PrefixEnd (env.MakeRangeIDReplicatedPrefix mt.RightDesc.RangeID) }

/-- Source lines 72-145 of `declareKeysEndTransaction`: the range descriptor
key and the declarations of the commit trigger. -/
def declareKeysEndTransaction.descriptorAndTrigger {β : Type} (env : Env β)
    (desc : roachpb.RangeDescriptor) (header : roachpb.Header)
    (et : roachpb.EndTransactionRequest) (spans : spanset.SpanSet) : spanset.SpanSet :=
  let spans := spans.Add spanset.SpanAccess.SpanReadOnly
    { Key := env.RangeDescriptorKey desc.StartKey, EndKey := [] }
  match et.InternalCommitTrigger with
  | none => spans
  | some ict =>
    let spans :=
      match ict.SplitTrigger with
      | some st => declareKeysEndTransaction.split env header st spans
      | none => spans
    match ict.MergeTrigger with
    | some mt => declareKeysEndTransaction.merge env header mt spans
    | none => spans

/-- Source lines 50-146. The span set behind the pointer `spans` is passed and
returned; `AssertInitialized` stops the process on an uninitialized
transaction. -/
def declareKeysEndTransaction {β : Type} (env : Env β) (desc : roachpb.RangeDescriptor)
    (header : roachpb.Header) (req : roachpb.EndTransactionRequest)
    (spans : spanset.SpanSet) : Except Crash spanset.SpanSet :=
  let spans := env.declareKeysWriteTransaction desc header req spans
  let et := req
  let spans := et.IntentSpans.foldl
    (fun acc span => acc.Add spanset.SpanAccess.SpanReadWrite span) spans
  match header.Txn with
  | some txn =>
    if env.AssertInitialized txn then
      let abortSpanAccess :=
        if !et.Commit && et.Poison then spanset.SpanAccess.SpanReadWrite
        else spanset.SpanAccess.SpanReadOnly
      let spans := spans.Add abortSpanAccess
        { Key := env.AbortSpanKey header.RangeID txn.ID, EndKey := [] }
      .ok (declareKeysEndTransaction.descriptorAndTrigger env desc header et spans)
    else
      .error (Crash.uninitializedTxn txn)
  | none =>
    .ok (declareKeysEndTransaction.descriptorAndTrigger env desc header et spans)

/-! ## Retry and deadline predicates -/

/-- Source lines 364-366. -/
def IsEndTransactionExceedingDeadline (t : hlc.Timestamp)
    (args : roachpb.EndTransactionRequest) : Bool :=
  match args.Deadline with
  | none => false
  | some deadline => deadline.Less t

/-- Source lines 410-412. -/
def canForwardSerializableTimestamp (txn : roachpb.Transaction) (noRefreshSpans : Bool) :
    Bool :=
  !txn.OrigTimestampWasObserved && noRefreshSpans

/-- Source lines 371-402. The named results `retry, reason` start at their
zero values `false, RETRY_REASON_UNKNOWN`. -/
def IsEndTransactionTriggeringRetryError (txn : roachpb.Transaction)
    (args : roachpb.EndTransactionRequest) : Bool × roachpb.TransactionRetryReason :=
  let r : Bool × roachpb.TransactionRetryReason :=
    if txn.WriteTooOld then
      (true, roachpb.TransactionRetryReason.RETRY_WRITE_TOO_OLD)
    else
      let origTimestamp := txn.OrigTimestamp.Forward txn.RefreshedTimestamp
      let isTxnPushed := txn.Timestamp != origTimestamp
      if isTxnPushed then
        if txn.Isolation == enginepb.SERIALIZABLE then
          (true, roachpb.TransactionRetryReason.RETRY_SERIALIZABLE)
        else if txn.RetryOnPush then
          (true, roachpb.TransactionRetryReason.RETRY_DELETE_RANGE)
        else
          (false, roachpb.TransactionRetryReason.RETRY_REASON_UNKNOWN)
      else
        (false, roachpb.TransactionRetryReason.RETRY_REASON_UNKNOWN)
  if r.1 && txn.IsSerializable && canForwardSerializableTimestamp txn args.NoRefreshSpans then
    (false, roachpb.TransactionRetryReason.RETRY_REASON_UNKNOWN)
  else
    r

/-! ## Local intent resolution and the transaction-record writer -/

/-- Source line 414. -/
def intentResolutionBatchSize : Int := 500

/-- Local variables of the loop of `resolveLocalIntents` together with the
state the loop writes to. -/
structure ResolveLoop (β : Type) where
  st : State β
  externalIntents : List roachpb.Span
  resolveAllowance : Int

/-- One iteration of the loop of `resolveLocalIntents` (source lines 452-498):
the closure called for one span, and the panic when it returns an error. -/
def resolveLocalIntents.step {β : Type} (env : Env β) (desc : roachpb.RangeDescriptor)
    (iterAndBuf : engine.IterOptions) (txn : roachpb.Transaction)
    (l : ResolveLoop β) (span : roachpb.Span) : Except Crash (ResolveLoop β) :=
  if l.resolveAllowance == 0 then
    .ok { l with externalIntents := l.externalIntents ++ [span] }
  else
    let intent : roachpb.Intent :=
      { Span := span, Txn := txn.toTxnMeta, Status := txn.Status }
    if span.EndKey.length == 0 then
      if !env.ContainsKey desc span.Key then
        .ok { l with externalIntents := l.externalIntents ++ [span] }
      else
        let resolveAllowance := l.resolveAllowance - 1
        let r := env.MVCCResolveWriteIntentUsingIter l.st.batch iterAndBuf l.st.ms intent
        match r.err with
        | some err => .error (Crash.resolveIntentPanic span txn.Status err)
        | none =>
          .ok { st := { l.st with batch := r.batch, ms := r.ms }
                externalIntents := l.externalIntents
                resolveAllowance := resolveAllowance }
    else
      let inOut := env.IntersectSpan span desc
      let externalIntents := l.externalIntents ++ inOut.2
      match inOut.1 with
      | some inSpan =>
        let intent : roachpb.Intent := { intent with Span := inSpan }
        let r := env.MVCCResolveWriteIntentRangeUsingIter l.st.batch iterAndBuf l.st.ms
          intent l.resolveAllowance
        match r.err with
        | some err => .error (Crash.resolveIntentPanic span txn.Status err)
        | none =>
          let numKeysEvaluated := l.st.numKeysEvaluated.map (fun n => n + r.num)
          let resolveAllowance := l.resolveAllowance - r.num
          let st : State β :=
            { batch := r.batch, ms := r.ms, numKeysEvaluated := numKeysEvaluated }
          match r.resumeSpan with
          | some resumeSpan =>
            if resolveAllowance != 0 then
              .error (Crash.resolveAllowanceFatal intent.Span resolveAllowance)
            else
              .ok { st := st
                    externalIntents := externalIntents ++ [resumeSpan]
                    resolveAllowance := resolveAllowance }
          | none =>
            .ok { st := st
                  externalIntents := externalIntents
                  resolveAllowance := resolveAllowance }
      | none =>
        .ok { l with externalIntents := externalIntents }

/-- Source lines 424-508. Returns the state after the call and the pair
`(externalIntents, err)` of the Go function. -/
def resolveLocalIntents {β : Type} (env : Env β) (desc : roachpb.RangeDescriptor)
    (st : State β) (args : roachpb.EndTransactionRequest) (txn : roachpb.Transaction)
    (evalCtx : EvalContext) :
    Except Crash (State β × List roachpb.Span × Option roachpb.Error) :=
  let desc :=
    match roachpb.InternalCommitTrigger.GetMergeTrigger args.InternalCommitTrigger with
    | some mergeTrigger => mergeTrigger.LeftDesc
    | none => desc
  let bounds := env.InclusiveTimeBounds txn
  let iterAndBuf : engine.IterOptions :=
    { MinTimestampHint := bounds.1
      MaxTimestampHint := bounds.2
      UpperBound := desc.EndKey }
  match args.IntentSpans.foldlM (resolveLocalIntents.step env desc iterAndBuf txn)
      { st := st, externalIntents := [], resolveAllowance := intentResolutionBatchSize } with
  | .error crash => .error crash
  | .ok l =>
    if args.Poison && txn.Status == roachpb.ABORTED then
      let r := env.SetAbortSpan evalCtx l.st.batch l.st.ms txn.toTxnMeta true
      match r.err with
      | some err => .ok ({ l.st with batch := r.batch, ms := r.ms }, [], some err)
      | none => .ok ({ l.st with batch := r.batch, ms := r.ms }, l.externalIntents, none)
    else
      .ok (l.st, l.externalIntents, none)

/-- Number of intent keys that the iteration of the loop of
`resolveLocalIntents` for `span`, started in the loop state `l`, resolves in
the batch: one for a single key that is resolved locally (source lines
465-467), the count `num` reported by the range primitive for a range with a
local part (source line 476), and none where the span is handed off. -/
def resolveLocalIntents.numResolved {β : Type} (env : Env β) (desc : roachpb.RangeDescriptor)
    (iterAndBuf : engine.IterOptions) (txn : roachpb.Transaction)
    (l : ResolveLoop β) (span : roachpb.Span) : Int :=
  if l.resolveAllowance == 0 then
    0
  else if span.EndKey.length == 0 then
    if !env.ContainsKey desc span.Key then 0 else 1
  else
    match (env.IntersectSpan span desc).1 with
    | some inSpan =>
      (env.MVCCResolveWriteIntentRangeUsingIter l.st.batch iterAndBuf l.st.ms
        { Span := inSpan, Txn := txn.toTxnMeta, Status := txn.Status }
        l.resolveAllowance).num
    | none => 0

/-- The loop of `resolveLocalIntents` over `spans` from the loop state `l`,
returning with the final loop state the number of intent keys resolved in
the batch on the way. -/
def resolveLocalIntents.loopCount {β : Type} (env : Env β) (desc : roachpb.RangeDescriptor)
    (iterAndBuf : engine.IterOptions) (txn : roachpb.Transaction) :
    ResolveLoop β → List roachpb.Span → Except Crash (ResolveLoop β × Int)
  | l, [] => .ok (l, 0)
  | l, span :: rest =>
    match resolveLocalIntents.step env desc iterAndBuf txn l span with
    | .error crash => .error crash
    | .ok l' =>
      match resolveLocalIntents.loopCount env desc iterAndBuf txn l' rest with
      | .error crash => .error crash
      | .ok (l'', n) =>
        .ok (l'', resolveLocalIntents.numResolved env desc iterAndBuf txn l span + n)

/-- Range descriptor against which `resolveLocalIntents` decides locality
(source lines 433-438): the left descriptor of the merge trigger when the
request carries one, else the descriptor passed in. -/
def resolveLocalIntents.desc (desc : roachpb.RangeDescriptor)
    (args : roachpb.EndTransactionRequest) : roachpb.RangeDescriptor :=
  match roachpb.InternalCommitTrigger.GetMergeTrigger args.InternalCommitTrigger with
  | some mergeTrigger => mergeTrigger.LeftDesc
  | none => desc

/-- Iterator options with which `resolveLocalIntents` opens its iterator
(source lines 440-445). -/
def resolveLocalIntents.iterOptions {β : Type} (env : Env β) (desc : roachpb.RangeDescriptor)
    (args : roachpb.EndTransactionRequest) (txn : roachpb.Transaction) : engine.IterOptions :=
  { MinTimestampHint := (env.InclusiveTimeBounds txn).1
    MaxTimestampHint := (env.InclusiveTimeBounds txn).2
    UpperBound := (resolveLocalIntents.desc desc args).EndKey }

/-- The loop of `resolveLocalIntents` over the intent spans of the request
(source lines 449-499), from the full allowance. -/
def resolveLocalIntents.loop {β : Type} (env : Env β) (desc : roachpb.RangeDescriptor)
    (st : State β) (args : roachpb.EndTransactionRequest) (txn : roachpb.Transaction) :
    Except Crash (ResolveLoop β) :=
  args.IntentSpans.foldlM
    (resolveLocalIntents.step env (resolveLocalIntents.desc desc args)
      (resolveLocalIntents.iterOptions env desc args txn) txn)
    { st := st, externalIntents := [], resolveAllowance := intentResolutionBatchSize }

/-- The abort-span write of `resolveLocalIntents` (source line 502), made with
`poison = true` on the state in which the loop ended. -/
def resolveLocalIntents.poison {β : Type} (env : Env β) (evalCtx : EvalContext)
    (txn : roachpb.Transaction) (l : ResolveLoop β) : WriteResult β :=
  env.SetAbortSpan evalCtx l.st.batch l.st.ms txn.toTxnMeta true

/-- State after the abort-span write of `resolveLocalIntents`. -/
def resolveLocalIntents.poisonedState {β : Type} (env : Env β) (evalCtx : EvalContext)
    (txn : roachpb.Transaction) (l : ResolveLoop β) : State β :=
  { l.st with
    batch := (resolveLocalIntents.poison env evalCtx txn l).batch
    ms := (resolveLocalIntents.poison env evalCtx txn l).ms }

/-- The environment `env` with another abort-span writer in the place of
`SetAbortSpan`. Code whose outcome is the same for every such replacement
never calls `SetAbortSpan`. -/
def Env.withSetAbortSpan {β : Type} (env : Env β)
    (f : EvalContext → β → enginepb.MVCCStats → enginepb.TxnMeta → Bool → WriteResult β) :
    Env β :=
  { env with SetAbortSpan := f }

/-- The environment with `f` in place of the engine primitive `MVCCDelete`.
Code whose outcome is the same for every such replacement never calls
`MVCCDelete`. -/
def Env.withMVCCDelete {β : Type} (env : Env β)
    (f : β → enginepb.MVCCStats → roachpb.Key → WriteResult β) : Env β :=
  { env with MVCCDelete := f }

/-- The environment with `f` in place of the engine primitive `MVCCPutProto`.
Code whose outcome is the same for every such replacement never calls
`MVCCPutProto`. -/
def Env.withMVCCPutProto {β : Type} (env : Env β)
    (f : β → Option enginepb.MVCCStats → roachpb.Key → engine.ProtoMessage → PutResult β) :
    Env β :=
  { env with MVCCPutProto := f }

/-- What `updateTxnWithExternalIntents` leaves behind: the state, the
transaction behind the pointer `txn`, and the returned error. -/
structure UpdateResult (β : Type) where
  st : State β
  txn : roachpb.Transaction
  err : Option roachpb.Error

/-- Source lines 514-531. -/
def updateTxnWithExternalIntents {β : Type} (env : Env β) (st : State β)
    (_args : roachpb.EndTransactionRequest) (txn : roachpb.Transaction)
    (externalIntents : List roachpb.Span) : UpdateResult β :=
  let key := env.TransactionKey txn.Key txn.ID
  if env.TxnAutoGC && externalIntents.length == 0 then
    let r := env.MVCCDelete st.batch st.ms key
    { st := { st with batch := r.batch, ms := r.ms }, txn := txn, err := r.err }
  else
    let txn := { txn with Intents := externalIntents }
    let r := env.MVCCPutProto st.batch (some st.ms) key (engine.ProtoMessage.transaction txn)
    { st := { st with batch := r.batch, ms := r.ms.getD st.ms }, txn := txn, err := r.err }

/-! ## Commit triggers -/

/-- What `splitTrigger` leaves behind: the batch and the returned triple of
stats, result and error. -/
structure SplitResult (β : Type) where
  batch : β
  ms : enginepb.MVCCStats
  res : result.Result
  err : Option roachpb.Error

/-- Return of `splitTrigger` on an error path: zero stats and empty result. -/
def SplitResult.fail {β : Type} (batch : β) (err : roachpb.Error) : SplitResult β :=
  { batch := batch, ms := enginepb.MVCCStats.zero, res := result.Result.empty,
    err := some err }

/-- Source lines 758-984. `bothDeltaMS` is passed by value. -/
def splitTrigger {β : Type} (env : Env β) (rec : EvalContext) (batch : β)
    (bothDeltaMS : enginepb.MVCCStats) (split : roachpb.SplitTrigger) (ts : hlc.Timestamp) :
    Except Crash (SplitResult β) :=
  let desc := rec.Desc
  if !(desc.StartKey == split.LeftDesc.StartKey) ||
      !(desc.EndKey == split.RightDesc.EndKey) then
    .ok (SplitResult.fail batch (roachpb.Error.Errorf "range does not match splits"))
  else
    let origBothMS := rec.GetMVCCStats
    match env.ComputeStatsForRange split.LeftDesc batch ts.WallTime with
    | .error err =>
      .ok (SplitResult.fail batch
        (roachpb.Error.Wrap err "unable to compute stats for LHS range after split"))
    | .ok leftMS =>
      match rec.GetLastReplicaGCTimestamp with
      | .error err =>
        .ok (SplitResult.fail batch
          (roachpb.Error.Wrap err "unable to fetch last replica GC timestamp"))
      | .ok replicaGCTS =>
        let put := env.MVCCPutProto batch none
          (env.RangeLastReplicaGCTimestampKey split.RightDesc.RangeID)
          (engine.ProtoMessage.timestamp replicaGCTS)
        match put.err with
        | some err =>
          .ok (SplitResult.fail put.batch
            (roachpb.Error.Wrap err "unable to copy last replica GC timestamp"))
        | none =>
          let copy := env.CopyTo rec.AbortSpan put.batch bothDeltaMS ts split.RightDesc.RangeID
          match copy.err with
          | some err => .ok (SplitResult.fail copy.batch err)
          | none =>
            let bothDeltaMS := copy.ms
            let rightComputed : Except roachpb.Error enginepb.MVCCStats :=
              if origBothMS.ContainsEstimates || bothDeltaMS.ContainsEstimates then
                match env.ComputeStatsForRange split.RightDesc copy.batch ts.WallTime with
                | .error err =>
                  .error (roachpb.Error.Wrap err
                    "unable to compute stats for RHS range after split")
                | .ok rightMS => .ok rightMS
              else
                .ok ((origBothMS.Subtract leftMS).Add bothDeltaMS)
            match rightComputed with
            | .error err => .ok (SplitResult.fail copy.batch err)
            | .ok rightMS =>
              let preRightMS := rightMS
              match rec.LoadLease with
              | .error err =>
                .ok (SplitResult.fail copy.batch (roachpb.Error.Wrap err "unable to load lease"))
              | .ok leftLease =>
                if leftLease == roachpb.Lease.zero then
                  .error Crash.noLeaseFatal
                else
                  match split.RightDesc.GetReplicaDescriptor leftLease.Replica.StoreID with
                  | none =>
                    .ok (SplitResult.fail copy.batch (roachpb.Error.Errorf
                      "pre-split lease holder not found in post-split descriptor"))
                  | some replica =>
                    let rightLease : roachpb.Lease := { leftLease with Replica := replica }
                    match rec.LoadGCThreshold with
                    | .error err =>
                      .ok (SplitResult.fail copy.batch
                        (roachpb.Error.Wrap err "unable to load GCThreshold"))
                    | .ok gcThreshold =>
                      match rec.LoadTxnSpanGCThreshold with
                      | .error err =>
                        .ok (SplitResult.fail copy.batch
                          (roachpb.Error.Wrap err "unable to load TxnSpanGCThreshold"))
                      | .ok txnSpanGCThreshold =>
                        let init := env.WriteInitialReplicaState copy.batch rightMS
                          split.RightDesc rightLease gcThreshold txnSpanGCThreshold
                        match init.err with
                        | some err =>
                          .ok (SplitResult.fail init.batch
                            (roachpb.Error.Wrap err "unable to write initial Replica state"))
                        | none =>
                          let rightMS := init.ms
                          let synth : BatchResult β :=
                            if !rec.VersionSplitHardStateBelowRaftIsActive then
                              env.SynthesizeRaftState split.RightDesc.RangeID init.batch
                            else
                              { batch := init.batch, err := none }
                          match synth.err with
                          | some err =>
                            .ok (SplitResult.fail synth.batch
                              (roachpb.Error.Wrap err "unable to synthesize initial Raft state"))
                          | none =>
                            let bothDeltaMS := (bothDeltaMS.Subtract preRightMS).Add rightMS
                            let recStats := rec.GetMVCCStats
                            let leftDeltaMS : enginepb.MVCCStats :=
                              { leftMS.Subtract recStats with ContainsEstimates := false }
                            let rightDeltaMS := bothDeltaMS.Subtract leftDeltaMS
                            let pd : result.Result :=
                              { result.Result.empty with
                                Replicated :=
                                  { result.Result.empty.Replicated with
                                    BlockReads := true
                                    Split := some
                                      { SplitTrigger := split, RHSDelta := rightDeltaMS } } }
                            .ok { batch := synth.batch, ms := leftDeltaMS, res := pd,
                                  err := none }

/-- Source lines 793-795 of `splitTrigger`: the last replica GC timestamp is
copied to the RHS, with nil stats. -/
def splitTrigger.put {β : Type} (env : Env β) (batch : β) (split : roachpb.SplitTrigger)
    (replicaGCTS : hlc.Timestamp) : PutResult β :=
  env.MVCCPutProto batch none (env.RangeLastReplicaGCTimestampKey split.RightDesc.RangeID)
    (engine.ProtoMessage.timestamp replicaGCTS)

/-- Source lines 798-802 of `splitTrigger`: the abort span of the range is
copied to the RHS; the stats it returns are `bothDeltaMS` from then on. -/
def splitTrigger.copy {β : Type} (env : Env β) (rec : EvalContext) (batch : β)
    (bothDeltaMS : enginepb.MVCCStats) (split : roachpb.SplitTrigger) (ts : hlc.Timestamp)
    (replicaGCTS : hlc.Timestamp) : WriteResult β :=
  env.CopyTo rec.AbortSpan (splitTrigger.put env batch split replicaGCTS).batch bothDeltaMS ts
    split.RightDesc.RangeID

/-- Source lines 804-843 of `splitTrigger`: the absolute stats of the RHS,
computed over the RHS when the stats of the range or the delta hold
estimates and by arithmetic otherwise. -/
def splitTrigger.rightMS {β : Type} (env : Env β) (origBothMS leftMS bothDeltaMS :
    enginepb.MVCCStats) (split : roachpb.SplitTrigger) (batch : β) (ts : hlc.Timestamp) :
    Except roachpb.Error enginepb.MVCCStats :=
  if origBothMS.ContainsEstimates || bothDeltaMS.ContainsEstimates then
    match env.ComputeStatsForRange split.RightDesc batch ts.WallTime with
    | .error err =>
      .error (roachpb.Error.Wrap err "unable to compute stats for RHS range after split")
    | .ok rightMS => .ok rightMS
  else
    .ok ((origBothMS.Subtract leftMS).Add bothDeltaMS)

/-- Source lines 932-935 of `splitTrigger`: the initial replica state of the
RHS is written with the stats `rightMS`. -/
def splitTrigger.init {β : Type} (env : Env β) (batch : β) (rightMS : enginepb.MVCCStats)
    (split : roachpb.SplitTrigger) (leftLease : roachpb.Lease)
    (replica : roachpb.ReplicaDescriptor) (gcThreshold txnSpanGCThreshold : hlc.Timestamp) :
    WriteResult β :=
  env.WriteInitialReplicaState batch rightMS split.RightDesc
    { leftLease with Replica := replica } gcThreshold txnSpanGCThreshold

/-- Source lines 962-965 of `splitTrigger`: the delta of the LHS. -/
def splitTrigger.leftDeltaMS (rec : EvalContext) (leftMS : enginepb.MVCCStats) :
    enginepb.MVCCStats :=
  { leftMS.Subtract rec.GetMVCCStats with ContainsEstimates := false }

/-- Source lines 951-952 and 971-972 of `splitTrigger`: the delta of the RHS,
from the delta of both sides with the effects of the initial state write
folded in. -/
def splitTrigger.rightDeltaMS (rec : EvalContext) (leftMS bothDeltaMS preRightMS rightMS :
    enginepb.MVCCStats) : enginepb.MVCCStats :=
  ((bothDeltaMS.Subtract preRightMS).Add rightMS).Subtract
    (splitTrigger.leftDeltaMS rec leftMS)

/-- Source lines 936-983 of `splitTrigger`, from the return of the initial
state write `init` on: the Raft state is synthesized below the version gate,
the effects of the write are folded into the delta of both sides, and the
LHS delta is returned with the split payload. -/
def splitTrigger.finish {β : Type} (env : Env β) (rec : EvalContext)
    (split : roachpb.SplitTrigger) (leftMS bothDeltaMS preRightMS : enginepb.MVCCStats)
    (init : WriteResult β) : Except Crash (SplitResult β) :=
  match init.err with
  | some err =>
    .ok (SplitResult.fail init.batch
      (roachpb.Error.Wrap err "unable to write initial Replica state"))
  | none =>
    let rightMS := init.ms
    let synth : BatchResult β :=
      if !rec.VersionSplitHardStateBelowRaftIsActive then
        env.SynthesizeRaftState split.RightDesc.RangeID init.batch
      else
        { batch := init.batch, err := none }
    match synth.err with
    | some err =>
      .ok (SplitResult.fail synth.batch
        (roachpb.Error.Wrap err "unable to synthesize initial Raft state"))
    | none =>
      let bothDeltaMS := (bothDeltaMS.Subtract preRightMS).Add rightMS
      let recStats := rec.GetMVCCStats
      let leftDeltaMS : enginepb.MVCCStats :=
        { leftMS.Subtract recStats with ContainsEstimates := false }
      let rightDeltaMS := bothDeltaMS.Subtract leftDeltaMS
      let pd : result.Result :=
        { result.Result.empty with
          Replicated :=
            { result.Result.empty.Replicated with
              BlockReads := true
              Split := some { SplitTrigger := split, RHSDelta := rightDeltaMS } } }
      .ok { batch := synth.batch, ms := leftDeltaMS, res := pd, err := none }

/-- The environment with `f` in place of `rditer.ComputeStatsForRange`. Code
whose outcome is the same for every replacement that agrees with the
original on one descriptor computes the stats of no other descriptor. -/
def Env.withComputeStatsForRange {β : Type} (env : Env β)
    (f : roachpb.RangeDescriptor → β → Int → Except roachpb.Error enginepb.MVCCStats) :
    Env β :=
  { env with ComputeStatsForRange := f }

/-- Source lines 989-1039. The stats accumulator `ms` is `State.ms`. -/
def mergeTrigger {β : Type} (env : Env β) (rec : EvalContext) (st : State β)
    (merge : roachpb.MergeTrigger) (ts : hlc.Timestamp) :
    State β × result.Result × Option roachpb.Error :=
  let desc := rec.Desc
  if !(desc.StartKey == merge.LeftDesc.StartKey) then
    (st, result.Result.empty,
      some (roachpb.Error.Errorf "LHS range start keys do not match"))
  else if !(roachpb.Key.Less desc.EndKey merge.LeftDesc.EndKey) then
    (st, result.Result.empty, some (roachpb.Error.Errorf
      "original LHS end key is not less than the post merge end key"))
  else
    let copy := env.CopyTo (abortspan.New merge.RightDesc.RangeID) st.batch st.ms ts
      merge.LeftDesc.RangeID
    match copy.err with
    | some err => ({ st with batch := copy.batch, ms := copy.ms }, result.Result.empty, some err)
    | none =>
      let ms := copy.ms.Add merge.RightMVCCStats
      let ridPrefix := env.MakeRangeIDReplicatedPrefix merge.RightDesc.RangeID
      let iterOptions : engine.IterOptions :=
        { MinTimestampHint := ⟨0, 0⟩, MaxTimestampHint := ⟨0, 0⟩,
          UpperBound := env.PrefixEnd ridPrefix }
      match env.ComputeStats copy.batch iterOptions ridPrefix (env.PrefixEnd ridPrefix) 0 with
      | .error err => ({ st with batch := copy.batch, ms := ms }, result.Result.empty, some err)
      | .ok sysMS =>
        let ms := ms.Subtract sysMS
        let pd : result.Result :=
          { result.Result.empty with
            Replicated :=
              { result.Result.empty.Replicated with
                BlockReads := true
                Merge := some { MergeTrigger := merge } } }
        ({ st with batch := copy.batch, ms := ms }, pd, none)

/-- Source lines 1008-1012 of `mergeTrigger`: the abort span of the RHS is
copied to the LHS, into the stats accumulator. -/
def mergeTrigger.copy {β : Type} (env : Env β) (st : State β) (merge : roachpb.MergeTrigger)
    (ts : hlc.Timestamp) : WriteResult β :=
  env.CopyTo (abortspan.New merge.RightDesc.RangeID) st.batch st.ms ts merge.LeftDesc.RangeID

/-- Source lines 1020-1026 of `mergeTrigger`: the stats of the keys under the
range-ID-replicated prefix of the RHS. -/
def mergeTrigger.sysMS {β : Type} (env : Env β) (batch : β) (merge : roachpb.MergeTrigger) :
    Except roachpb.Error enginepb.MVCCStats :=
  env.ComputeStats batch
    { MinTimestampHint := ⟨0, 0⟩, MaxTimestampHint := ⟨0, 0⟩,
      UpperBound := env.PrefixEnd (env.MakeRangeIDReplicatedPrefix merge.RightDesc.RangeID) }
    (env.MakeRangeIDReplicatedPrefix merge.RightDesc.RangeID)
    (env.PrefixEnd (env.MakeRangeIDReplicatedPrefix merge.RightDesc.RangeID)) 0

/-- Source lines 1008-1038 of `mergeTrigger`, after the validation: the abort
span is copied, the stats are adjusted and the merge payload is returned. -/
def mergeTrigger.absorb {β : Type} (env : Env β) (st : State β)
    (merge : roachpb.MergeTrigger) (ts : hlc.Timestamp) :
    State β × result.Result × Option roachpb.Error :=
  let copy := mergeTrigger.copy env st merge ts
  match copy.err with
  | some err => ({ st with batch := copy.batch, ms := copy.ms }, result.Result.empty, some err)
  | none =>
    let ms := copy.ms.Add merge.RightMVCCStats
    match mergeTrigger.sysMS env copy.batch merge with
    | .error err => ({ st with batch := copy.batch, ms := ms }, result.Result.empty, some err)
    | .ok sysMS =>
      let ms := ms.Subtract sysMS
      let pd : result.Result :=
        { result.Result.empty with
          Replicated :=
            { result.Result.empty.Replicated with
              BlockReads := true
              Merge := some { MergeTrigger := merge } } }
      ({ st with batch := copy.batch, ms := ms }, pd, none)

/-- Source lines 1041-1078. -/
def changeReplicasTrigger {β : Type} (rec : EvalContext) (_batch : β)
    (change : roachpb.ChangeReplicasTrigger) : result.Result :=
  let cpy : roachpb.RangeDescriptor :=
    { rec.Desc with Replicas := change.UpdatedReplicas, NextReplicaID := change.NextReplicaID }
  { Local :=
      { result.Result.empty.Local with
        MaybeAddToSplitQueue := true
        GossipFirstRange := rec.IsFirstRange }
    Replicated :=
      { result.Result.empty.Replicated with
        State := some { Desc := some cpy }
        ChangeReplicas := some { ChangeReplicasTrigger := change } } }

/-- Source lines 534-604. -/
def RunCommitTrigger {β : Type} (env : Env β) (rec : EvalContext) (st : State β)
    (args : roachpb.EndTransactionRequest) (txn : roachpb.Transaction) :
    Except Crash (State β × result.Result × Option roachpb.Error) :=
  match args.InternalCommitTrigger with
  | none => .ok (st, result.Result.empty, none)
  | some ct =>
    match roachpb.InternalCommitTrigger.GetSplitTrigger (some ct) with
    | some split =>
      match splitTrigger env rec st.batch st.ms split txn.Timestamp with
      | .error crash => .error crash
      | .ok r => .ok ({ st with batch := r.batch, ms := r.ms }, r.res, r.err)
    | none =>
      match roachpb.InternalCommitTrigger.GetChangeReplicasTrigger (some ct) with
      | some crt => .ok (st, changeReplicasTrigger rec st.batch crt, none)
      | none =>
        match roachpb.InternalCommitTrigger.GetModifiedSpanTrigger (some ct) with
        | some mst =>
          let pd := result.Result.empty
          let gossiped : Except roachpb.Error result.Result :=
            if mst.SystemConfigSpan then
              if rec.ContainsKey env.SystemConfigSpanKey then
                env.MergeAndDestroy pd
                  { result.Result.empty with
                    Local :=
                      { result.Result.empty.Local with MaybeGossipSystemConfig := true } }
              else
                .ok pd
            else
              .ok pd
          match gossiped with
          | .error err => .ok (st, result.Result.empty, some err)
          | .ok pd =>
            match mst.NodeLivenessSpan with
            | some nlSpan =>
              match env.MergeAndDestroy pd
                  { result.Result.empty with
                    Local :=
                      { result.Result.empty.Local with
                        MaybeGossipNodeLiveness := some nlSpan } } with
              | .error err => .ok (st, result.Result.empty, some err)
              | .ok pd => .ok (st, pd, none)
            | none => .ok (st, pd, none)
        | none =>
          match roachpb.InternalCommitTrigger.GetMergeTrigger (some ct) with
          | some _ => .ok (st, result.Result.empty, none)
          | none => .error (Crash.unknownCommitTrigger ct)

/-! ## The evaluation function -/

/-- Source lines 354-359 of `evalEndTransaction`: the end-transaction result
is built with `alwaysReturn == false` and merged into `pd`. `txn` is the
transaction behind `reply.Txn`. -/
def evalEndTransaction.assemble {β : Type} (env : Env β) (st : State β)
    (args : roachpb.EndTransactionRequest) (txn : roachpb.Transaction) (pd : result.Result) :
    Except Crash (EvalOut β) :=
  let fromEndTxn := env.FromEndTxn txn false args.Poison
  let intentsResult : result.Result :=
    { fromEndTxn with Local := { fromEndTxn.Local with UpdatedTxns := some [txn] } }
  match env.MergeAndDestroy pd intentsResult with
  | .error err =>
    .ok { st := st, reply := ⟨some txn⟩, res := result.Result.empty, err := some err }
  | .ok pd =>
    .ok { st := st, reply := ⟨some txn⟩, res := pd, err := none }

/-- Source lines 313-360 of `evalEndTransaction`: intents are resolved, the
record is persisted or deleted, and the commit trigger runs when the status
is COMMITTED. `txn` is the transaction behind `reply.Txn`. -/
def evalEndTransaction.resolveAndFinish {β : Type} (env : Env β) (st : State β)
    (cArgs : CommandArgs) (txn : roachpb.Transaction) (pd : result.Result) :
    Except Crash (EvalOut β) :=
  let args := cArgs.Args
  let desc := cArgs.EvalCtx.Desc
  match resolveLocalIntents env desc st args txn cArgs.EvalCtx with
  | .error crash => .error crash
  | .ok (st, _, some err) =>
    .ok { st := st, reply := ⟨some txn⟩, res := result.Result.empty, err := some err }
  | .ok (st, externalIntents, none) =>
    let u := updateTxnWithExternalIntents env st args txn externalIntents
    match u.err with
    | some err =>
      .ok { st := u.st, reply := ⟨some u.txn⟩, res := result.Result.empty, err := some err }
    | none =>
      if u.txn.Status == roachpb.COMMITTED then
        match RunCommitTrigger env cArgs.EvalCtx u.st args u.txn with
        | .error crash => .error crash
        | .ok (st, _, some err) =>
          .ok { st := st, reply := ⟨some u.txn⟩, res := result.Result.empty,
                err := some (roachpb.Error.ReplicaCorruptionError err) }
        | .ok (st, triggerResult, none) =>
          match env.MergeAndDestroy pd triggerResult with
          | .error err =>
            .ok { st := st, reply := ⟨some u.txn⟩, res := result.Result.empty,
                  err := some err }
          | .ok pd => evalEndTransaction.assemble env st args u.txn pd
      else
        evalEndTransaction.assemble env u.st args u.txn pd

/-- Source lines 259-360 of `evalEndTransaction`, reached when the persisted
record `existingTxn` is PENDING and passed the regression checks: the record
is updated with the request's transaction `hTxn`, then committed or
aborted. -/
def evalEndTransaction.updateAndFinish {β : Type} (env : Env β) (st : State β)
    (cArgs : CommandArgs) (hTxn existingTxn : roachpb.Transaction) :
    Except Crash (EvalOut β) :=
  let args := cArgs.Args
  let txn := env.Update existingTxn hTxn
  let pd := result.Result.empty
  if args.Commit then
    let retryReason := IsEndTransactionTriggeringRetryError txn args
    if retryReason.1 then
      .ok { st := st, reply := ⟨some txn⟩, res := result.Result.empty,
            err := some (roachpb.Error.TransactionRetryError retryReason.2) }
    else if IsEndTransactionExceedingDeadline txn.Timestamp args then
      .ok { st := st, reply := ⟨some txn⟩, res := result.Result.empty,
            err := some (roachpb.Error.TransactionStatusError
              roachpb.StatusMessage.deadlineExceeded) }
    else
      let txn := { txn with Status := roachpb.COMMITTED }
      match roachpb.InternalCommitTrigger.GetMergeTrigger args.InternalCommitTrigger with
      | some mt =>
        match mergeTrigger env cArgs.EvalCtx st mt txn.Timestamp with
        | (st, _, some err) =>
          .ok { st := st, reply := ⟨some txn⟩, res := result.Result.empty, err := some err }
        | (st, mergeResult, none) =>
          match env.MergeAndDestroy pd mergeResult with
          | .error err =>
            .ok { st := st, reply := ⟨some txn⟩, res := result.Result.empty,
                  err := some err }
          | .ok pd => evalEndTransaction.resolveAndFinish env st cArgs txn pd
      | none => evalEndTransaction.resolveAndFinish env st cArgs txn pd
  else
    let txn := { txn with Status := roachpb.ABORTED }
    evalEndTransaction.resolveAndFinish env st cArgs txn pd

/-- Source lines 151-360. `st` holds the batch and the stats `cArgs.Stats`,
`reply` is the response as it is on entry. The batch is taken to be an
`engine.Batch`, so that the type assertions `batch.(engine.Batch)` hold. -/
def evalEndTransaction {β : Type} (env : Env β) (st : State β) (cArgs : CommandArgs)
    (reply : roachpb.EndTransactionResponse) : Except Crash (EvalOut β) :=
  let args := cArgs.Args
  let h := cArgs.Header
  match env.VerifyTransaction h args with
  | some err => .ok { st := st, reply := reply, res := result.Result.empty, err := some err }
  | none =>
    if args.Require1PC then
      .ok { st := st, reply := reply, res := result.Result.empty,
            err := some (roachpb.Error.TransactionStatusError
              roachpb.StatusMessage.couldNotCommitInOnePhase) }
    else
      match h.Txn with
      | none => .error Crash.nilTransaction
      | some hTxn =>
        let key := env.TransactionKey hTxn.Key hTxn.ID
        match env.MVCCGetProto st.batch key with
        | .error err =>
          .ok { st := st, reply := reply, res := result.Result.empty, err := some err }
        | .ok none =>
          if args.Commit then
            .ok { st := st, reply := reply, res := result.Result.empty,
                  err := some roachpb.Error.TransactionNotFoundStatusError }
          else
            .ok { st := st, reply := ⟨some hTxn.Clone⟩, res := result.Result.empty,
                  err := none }
        | .ok (some existingTxn) =>
          if existingTxn.Status == roachpb.COMMITTED then
            .ok { st := st, reply := ⟨some existingTxn⟩, res := result.Result.empty,
                  err := some roachpb.Error.TransactionCommittedStatusError }
          else if existingTxn.Status == roachpb.ABORTED then
            if !args.Commit then
              let desc := cArgs.EvalCtx.Desc
              match resolveLocalIntents env desc st args existingTxn cArgs.EvalCtx with
              | .error crash => .error crash
              | .ok (st, _, some err) =>
                .ok { st := st, reply := ⟨some existingTxn⟩, res := result.Result.empty,
                      err := some err }
              | .ok (st, externalIntents, none) =>
                let u := updateTxnWithExternalIntents env st args existingTxn externalIntents
                match u.err with
                | some err =>
                  .ok { st := u.st, reply := ⟨some u.txn⟩, res := result.Result.empty,
                        err := some err }
                | none =>
                  .ok { st := u.st, reply := ⟨some u.txn⟩,
                        res := env.FromEndTxn u.txn true args.Poison, err := none }
            else
              let txn := { existingTxn with Intents := args.IntentSpans }
              .ok { st := st, reply := ⟨some txn⟩,
                    res := env.FromEndTxn txn true args.Poison,
                    err := some (roachpb.Error.TransactionAbortedError
                      roachpb.TransactionAbortedReason.ABORT_REASON_ABORTED_RECORD_FOUND) }
          else if existingTxn.Status == roachpb.PENDING then
            if hTxn.Epoch < existingTxn.Epoch then
              .ok { st := st, reply := ⟨some existingTxn⟩, res := result.Result.empty,
                    err := some (roachpb.Error.TransactionStatusError
                      (roachpb.StatusMessage.epochRegression hTxn.Epoch)) }
            else if hTxn.Epoch == existingTxn.Epoch &&
                existingTxn.Timestamp.Less hTxn.OrigTimestamp then
              .ok { st := st, reply := ⟨some existingTxn⟩, res := result.Result.empty,
                    err := some (roachpb.Error.TransactionStatusError
                      (roachpb.StatusMessage.timestampRegression hTxn.OrigTimestamp)) }
            else
              evalEndTransaction.updateAndFinish env st cArgs hTxn existingTxn
          else
            .ok { st := st, reply := ⟨some existingTxn⟩, res := result.Result.empty,
                  err := some (roachpb.Error.TransactionStatusError
                    (roachpb.StatusMessage.badTxnStatus existingTxn)) }

/-- Transaction behind `reply.Txn` once a commit has moved the status to
COMMITTED (source lines 260 and 287): the record `existingTxn` updated with
the request's transaction `hTxn`, with status COMMITTED. -/
def evalEndTransaction.committedTxn {β : Type} (env : Env β)
    (hTxn existingTxn : roachpb.Transaction) : roachpb.Transaction :=
  { env.Update existingTxn hTxn with Status := roachpb.COMMITTED }

/-- Transaction behind `reply.Txn` once a rollback has moved the status to
ABORTED (source lines 260 and 310): the record `existingTxn` updated with the
request's transaction `hTxn`, with status ABORTED. -/
def evalEndTransaction.abortedTxn {β : Type} (env : Env β)
    (hTxn existingTxn : roachpb.Transaction) : roachpb.Transaction :=
  { env.Update existingTxn hTxn with Status := roachpb.ABORTED }

/-- The evaluation of `cArgs` on the state `st` gets past header verification
and the 1PC check (source lines 159-166) with the transaction `hTxn` in its
header, and the read at the transaction key (source lines 172-187) finds the
record `existingTxn`. -/
def FindsRecord {β : Type} (env : Env β) (st : State β) (cArgs : CommandArgs)
    (hTxn existingTxn : roachpb.Transaction) : Prop :=
  env.VerifyTransaction cArgs.Header cArgs.Args = none ∧
  cArgs.Args.Require1PC = false ∧
  cArgs.Header.Txn = some hTxn ∧
  env.MVCCGetProto st.batch (env.TransactionKey hTxn.Key hTxn.ID) = .ok (some existingTxn)

/-- The evaluation finds the record `existingTxn`, the record is PENDING, and
neither regression check of the status switch fires (source lines 233-251):
the request's epoch is not below the record's, and the record's timestamp is
not below the request's original timestamp within the same epoch. -/
def PassesValidation {β : Type} (env : Env β) (st : State β) (cArgs : CommandArgs)
    (hTxn existingTxn : roachpb.Transaction) : Prop :=
  FindsRecord env st cArgs hTxn existingTxn ∧
  existingTxn.Status = roachpb.PENDING ∧
  ¬ hTxn.Epoch < existingTxn.Epoch ∧
  ¬ (hTxn.Epoch = existingTxn.Epoch ∧ existingTxn.Timestamp < hTxn.OrigTimestamp)

end batcheval

/-! ## Statements of the specification

Definitions that follow the words of the specification, to be compared with
the embedded code. -/

namespace spec

/-- Length of the shortest prefix of `spans` that holds `n` spans satisfying
`isLocal`, or the length of `spans` when it holds fewer: the position just
after the `n`-th local span. -/
def cutAfter (isLocal : roachpb.Span → Bool) : Nat → List roachpb.Span → Nat
  | 0, _ => 0
  | _ + 1, [] => 0
  | n + 1, span :: rest =>
    (if isLocal span then cutAfter isLocal n rest else cutAfter isLocal (n + 1) rest) + 1

/-- Spans resolved in the batch by a budget of `n` resolutions: "the first `n`
spans that are contained in the range (all of them if fewer)", in input
order. -/
def resolvedSpans (isLocal : roachpb.Span → Bool) (n : Nat) (spans : List roachpb.Span) :
    List roachpb.Span :=
  (spans.filter isLocal).take n

/-- External intents left by a budget of `n` resolutions: "the non-contained
spans that precede the `n`-th local resolution followed verbatim by every
span after it", in input order. -/
def externalSpans (isLocal : roachpb.Span → Bool) (n : Nat) (spans : List roachpb.Span) :
    List roachpb.Span :=
  (spans.take (cutAfter isLocal n spans)).filter (fun span => !isLocal span) ++
    spans.drop (cutAfter isLocal n spans)

/-- State after the single-key spans `spans` were resolved one after the other
with the single-key resolution primitive for the transaction `txn`. -/
def resolveEach {β : Type} (env : batcheval.Env β) (iterAndBuf : engine.IterOptions)
    (txn : roachpb.Transaction) (st : batcheval.State β) (spans : List roachpb.Span) :
    batcheval.State β :=
  spans.foldl
    (fun st span =>
      let r := env.MVCCResolveWriteIntentUsingIter st.batch iterAndBuf st.ms
        { Span := span, Txn := txn.toTxnMeta, Status := txn.Status }
      { st with batch := r.batch, ms := r.ms })
    st

/-- Whether `resolveLocalIntents` takes the single key of `span` to be
"contained in the range", the range being the one it decides locality
against. -/
def isLocal {β : Type} (env : batcheval.Env β) (desc : roachpb.RangeDescriptor)
    (args : roachpb.EndTransactionRequest) (span : roachpb.Span) : Bool :=
  env.ContainsKey (batcheval.resolveLocalIntents.desc desc args) span.Key

/-- State after "the first 500 spans that are contained in the range (all of
them if fewer)" were resolved in the batch, in input order, from `st`. -/
def resolvedState {β : Type} (env : batcheval.Env β) (desc : roachpb.RangeDescriptor)
    (args : roachpb.EndTransactionRequest) (txn : roachpb.Transaction)
    (st : batcheval.State β) : batcheval.State β :=
  resolveEach env (batcheval.resolveLocalIntents.iterOptions env desc args txn) txn st
    (resolvedSpans (isLocal env desc args) 500 args.IntentSpans)

/-- The ten counters of the stats, without the estimates flag. -/
def counters (ms : enginepb.MVCCStats) : List Int :=
  [ms.LiveBytes, ms.LiveCount, ms.KeyBytes, ms.KeyCount, ms.ValBytes, ms.ValCount,
   ms.IntentBytes, ms.IntentCount, ms.SysBytes, ms.SysCount]

/-- Sum of two lists of counters, counter by counter. -/
def plus (a b : List Int) : List Int :=
  List.zipWith (fun x y => x + y) a b

/-- Difference of two lists of counters, counter by counter. -/
def minus (a b : List Int) : List Int :=
  List.zipWith (fun x y => x - y) a b

end spec

/-! ## A reference environment

A small executable instance of `batcheval.Env`, used to run the evaluation on
concrete requests. The batch keeps the transaction records and the intent
keys visible through it, and the list of writes made so far. -/

namespace sim

/-- One write to the batch. -/
inductive Write
  | Delete (key : roachpb.Key)
  | PutProto (key : roachpb.Key) (msg : engine.ProtoMessage)
  | ResolveWriteIntent (intent : roachpb.Intent)
  | ResolveWriteIntentRange (intent : roachpb.Intent) (maxKeys : Int)
  | SetAbortSpan (rangeID : Nat) (txn : enginepb.TxnMeta) (poison : Bool)
  | CopyAbortSpan (fromRangeID toRangeID : Nat)
  | WriteInitialReplicaState (desc : roachpb.RangeDescriptor) (lease : roachpb.Lease)
  | SynthesizeRaftState (rangeID : Nat)
deriving DecidableEq, Repr

/-- Write batch over a store: the transaction records and the keys holding an
intent as they are seen through the batch, and the writes made. -/
structure Batch where
  records : List (roachpb.Key × roachpb.Transaction)
  intents : List roachpb.Key
  writes : List Write
deriving DecidableEq, Repr

/-- Whether `key` lies in the half-open key range from `start` to `stop`. -/
def inRange (start stop key : roachpb.Key) : Bool :=
  !roachpb.Key.Less key start && roachpb.Key.Less key stop

/-- Modelled from the spec: `VerifyTransaction` is outside the embedded file.
"The request's transaction must be initialized and consistent with the
request type. Fails with a transaction-status-error otherwise." -/
def VerifyTransaction (h : roachpb.Header) (args : roachpb.EndTransactionRequest) :
    Option roachpb.Error :=
  match h.Txn with
  | none =>
    some (roachpb.Error.TransactionStatusError
      (roachpb.StatusMessage.other "no transaction specified"))
  | some txn =>
    if args.Key == txn.Key then none
    else
      some (roachpb.Error.TransactionStatusError
        (roachpb.StatusMessage.other "request key should match txn key"))

/-- Modelled from the spec: `Transaction.Update` is outside the embedded file.
"Apply the request's newer fields (sequence, refreshed timestamps,
write-too-old flag) onto the persisted record." -/
def Update (t o : roachpb.Transaction) : roachpb.Transaction :=
  { t with
    Epoch := Nat.max t.Epoch o.Epoch
    Sequence := if t.Sequence < o.Sequence then o.Sequence else t.Sequence
    Timestamp := t.Timestamp.Forward o.Timestamp
    OrigTimestamp := t.OrigTimestamp.Forward o.OrigTimestamp
    RefreshedTimestamp := t.RefreshedTimestamp.Forward o.RefreshedTimestamp
    WriteTooOld := t.WriteTooOld || o.WriteTooOld
    RetryOnPush := t.RetryOnPush || o.RetryOnPush
    OrigTimestampWasObserved := t.OrigTimestampWasObserved || o.OrigTimestampWasObserved }

/-- Modelled from the spec: `storagebase.ContainsKey` is outside the embedded
file; "whether it is contained in the current range". The key-addressing
rules for range-local keys are left out. -/
def ContainsKey (desc : roachpb.RangeDescriptor) (key : roachpb.Key) : Bool :=
  inRange desc.StartKey desc.EndKey key

/-- Modelled from the spec: `storagebase.IntersectSpan` is outside the embedded
file; "split it into the portion inside the range (possibly empty) and the
portions outside (zero, one, or two)". -/
def IntersectSpan (span : roachpb.Span) (desc : roachpb.RangeDescriptor) :
    Option roachpb.Span × List roachpb.Span :=
  let start := desc.StartKey
  let stop := desc.EndKey
  let before : List roachpb.Span :=
    if roachpb.Key.Less span.Key start then
      [{ Key := span.Key
         EndKey := if roachpb.Key.Less start span.EndKey then start else span.EndKey }]
    else []
  let lo := if roachpb.Key.Less span.Key start then
      (if roachpb.Key.Less start span.EndKey then start else span.EndKey)
    else span.Key
  let after : List roachpb.Span :=
    if roachpb.Key.Less lo span.EndKey && roachpb.Key.Less stop span.EndKey then
      [{ Key := if roachpb.Key.Less lo stop then stop else lo, EndKey := span.EndKey }]
    else []
  let hi := if roachpb.Key.Less lo span.EndKey && roachpb.Key.Less stop span.EndKey then
      (if roachpb.Key.Less lo stop then stop else lo)
    else span.EndKey
  let middle : Option roachpb.Span :=
    if roachpb.Key.Less lo hi then some { Key := lo, EndKey := hi } else none
  (middle, before ++ after)

/-- Modelled from the spec: `result.FromEndTxn` is outside the embedded file;
"build a finalization result carrying the updated transaction", with the
always-return and poison flags. -/
def FromEndTxn (txn : roachpb.Transaction) (alwaysReturn poison : Bool) : result.Result :=
  { result.Result.empty with
    Local :=
      { result.Result.empty.Local with
        EndTxns := some [{ Txn := txn, Always := alwaysReturn, Poison := poison }] } }

/-- Merge of two optional payloads; two payloads collide. -/
def mergeOption {α : Type} (name : String) (a b : Option α) : Except roachpb.Error (Option α) :=
  match a, b with
  | some _, some _ => .error (roachpb.Error.Errorf name)
  | some x, none => .ok (some x)
  | none, y => .ok y

/-- Merge of two optional lists by concatenation. -/
def appendOption {α : Type} (a b : Option (List α)) : Option (List α) :=
  match a, b with
  | some x, some y => some (x ++ y)
  | some x, none => some x
  | none, y => y

/-- Modelled from the spec: `Result.MergeAndDestroy` is outside the embedded
file; "results compose via a merge operation that fails if two incompatible
payloads collide". Flags are or-ed and lists are concatenated. -/
def MergeAndDestroy (p q : result.Result) : Except roachpb.Error result.Result :=
  match mergeOption "conflicting State" p.Replicated.State q.Replicated.State,
      mergeOption "conflicting Split" p.Replicated.Split q.Replicated.Split,
      mergeOption "conflicting Merge" p.Replicated.Merge q.Replicated.Merge,
      mergeOption "conflicting ChangeReplicas" p.Replicated.ChangeReplicas
        q.Replicated.ChangeReplicas,
      mergeOption "conflicting MaybeGossipNodeLiveness" p.Local.MaybeGossipNodeLiveness
        q.Local.MaybeGossipNodeLiveness with
  | .ok state, .ok split, .ok merge, .ok change, .ok liveness =>
    .ok
      { Local :=
          { EndTxns := appendOption p.Local.EndTxns q.Local.EndTxns
            UpdatedTxns := appendOption p.Local.UpdatedTxns q.Local.UpdatedTxns
            GossipFirstRange := p.Local.GossipFirstRange || q.Local.GossipFirstRange
            MaybeGossipSystemConfig :=
              p.Local.MaybeGossipSystemConfig || q.Local.MaybeGossipSystemConfig
            MaybeAddToSplitQueue := p.Local.MaybeAddToSplitQueue || q.Local.MaybeAddToSplitQueue
            MaybeGossipNodeLiveness := liveness }
        Replicated :=
          { BlockReads := p.Replicated.BlockReads || q.Replicated.BlockReads
            State := state
            Split := split
            Merge := merge
            ChangeReplicas := change } }
  | .error err, _, _, _, _ => .error err
  | _, .error err, _, _, _ => .error err
  | _, _, .error err, _, _ => .error err
  | _, _, _, .error err, _ => .error err
  | _, _, _, _, .error err => .error err

/-- Record stored at `key`, if any. -/
def lookup (records : List (roachpb.Key × roachpb.Transaction)) (key : roachpb.Key) :
    Option roachpb.Transaction :=
  (records.find? (fun kv => kv.1 == key)).map (fun kv => kv.2)

/-- Records without the one stored at `key`. -/
def erase (records : List (roachpb.Key × roachpb.Transaction)) (key : roachpb.Key) :
    List (roachpb.Key × roachpb.Transaction) :=
  records.filter (fun kv => !(kv.1 == key))

/-- Stats after `n` intents were resolved. -/
def resolved (ms : enginepb.MVCCStats) (n : Int) : enginepb.MVCCStats :=
  { ms with IntentCount := ms.IntentCount - n }

/-- Modelled from the spec: the MVCC engine primitives (`Get`, `Put`, `Delete`,
`ResolveIntent`, range iteration), the abort-span subsystem and the key
constructors are external collaborators of the embedded file. Here a read
finds the record last put at the key, a delete removes it, resolving removes
the intent of a key, and the range resolution processes at most the number
of keys it is allowed and reports a resume span when keys are left. -/
def env (autoGC : Bool) : batcheval.Env Batch where
  TxnAutoGC := autoGC
  VerifyTransaction := VerifyTransaction
  TransactionKey := fun key id => 1 :: id :: key
  RangeLastReplicaGCTimestampKey := fun rangeID => [2, rangeID]
  MakeRangeIDReplicatedPrefix := fun rangeID => [3, rangeID]
  PrefixEnd := fun key => key ++ [256]
  SystemConfigSpanKey := [4]
  Update := Update
  InclusiveTimeBounds := fun txn => (txn.OrigTimestamp, txn.Timestamp)
  ContainsKey := ContainsKey
  IntersectSpan := IntersectSpan
  FromEndTxn := FromEndTxn
  MergeAndDestroy := MergeAndDestroy
  MVCCGetProto := fun b key => .ok (lookup b.records key)
  MVCCDelete := fun b ms key =>
    { batch := { b with records := erase b.records key, writes := b.writes ++ [Write.Delete key] }
      ms := ms
      err := none }
  MVCCPutProto := fun b ms key msg =>
    { batch :=
        { b with
          records :=
            match msg with
            | engine.ProtoMessage.transaction txn => (key, txn) :: erase b.records key
            | engine.ProtoMessage.timestamp _ => b.records
          writes := b.writes ++ [Write.PutProto key msg] }
      ms := ms
      err := none }
  MVCCResolveWriteIntentUsingIter := fun b _ ms intent =>
    { batch :=
        { b with
          intents := b.intents.filter (fun k => !(k == intent.Span.Key))
          writes := b.writes ++ [Write.ResolveWriteIntent intent] }
      ms := resolved ms ((b.intents.filter (fun k => k == intent.Span.Key)).length)
      err := none }
  MVCCResolveWriteIntentRangeUsingIter := fun b _ ms intent maxKeys =>
    let hit := b.intents.filter (fun k => inRange intent.Span.Key intent.Span.EndKey k)
    let done := hit.take maxKeys.toNat
    let left := hit.drop maxKeys.toNat
    { batch :=
        { b with
          intents := b.intents.filter (fun k => !(done.contains k))
          writes := b.writes ++ [Write.ResolveWriteIntentRange intent maxKeys] }
      ms := resolved ms done.length
      num := done.length
      resumeSpan :=
        match left with
        | [] => none
        | k :: _ => some { Key := k, EndKey := intent.Span.EndKey }
      err := none }
  SetAbortSpan := fun rec b ms txn poison =>
    { batch := { b with writes := b.writes ++ [Write.SetAbortSpan rec.Desc.RangeID txn poison] }
      ms := ms
      err := none }
  CopyTo := fun a b ms _ newRangeID =>
    { batch := { b with writes := b.writes ++ [Write.CopyAbortSpan a.rangeID newRangeID] }
      ms := ms
      err := none }
  ComputeStatsForRange := fun desc b _ =>
    .ok { enginepb.MVCCStats.zero with
          IntentCount := (b.intents.filter (inRange desc.StartKey desc.EndKey)).length }
  ComputeStats := fun _ _ _ _ _ => .ok enginepb.MVCCStats.zero
  WriteInitialReplicaState := fun b ms desc lease _ _ =>
    { batch := { b with writes := b.writes ++ [Write.WriteInitialReplicaState desc lease] }
      ms := { ms with SysCount := ms.SysCount + 1 }
      err := none }
  SynthesizeRaftState := fun rangeID b =>
    { batch := { b with writes := b.writes ++ [Write.SynthesizeRaftState rangeID] }
      err := none }
  AbortSpanKey := fun rangeID txnID => [3, rangeID, 0, txnID]
  RangeDescriptorKey := fun key => 5 :: key
  MakeRangeKeyPrefix := fun key => 6 :: key
  MakeRangeIDUnreplicatedPrefix := fun rangeID => [7, rangeID]
  AbortSpanMinKey := fun rangeID => [3, rangeID, 0]
  AbortSpanMaxKey := fun rangeID => [3, rangeID, 1]
  AssertInitialized := fun txn => !(txn.ID == 0)
  declareKeysWriteTransaction := fun _ header _ spans =>
    match header.Txn with
    | some txn => spans.Add spanset.SpanAccess.SpanReadWrite ⟨1 :: txn.ID :: txn.Key, []⟩
    | none => spans

/-- Modelled from the spec: the consensus layer that "proposes and applies the
batch" is an external collaborator. Applying the batch makes its writes the
state of the store; a batch opened on that store sees the records and
intents the applied batch left and has no write of its own. -/
def apply (b : Batch) : Batch :=
  { b with writes := [] }

/-- An encoding of keys that keeps their order and in which no encoded key is
a prefix of another: every byte is raised by one and a zero byte ends the
key. -/
def encodeKey (key : roachpb.Key) : roachpb.Key :=
  key.map (fun b => b + 1) ++ [0]

/-- Range-key prefix built on `encodeKey`, in the way the range-local keys of
a key are the keys that start with the prefix of the key. -/
def rangeKeyPrefix (key : roachpb.Key) : roachpb.Key :=
  6 :: encodeKey key

/-- The reference environment with the range-key prefix built on `encodeKey`
in place of the plain one. -/
def encodedEnv (autoGC : Bool) : batcheval.Env Batch :=
  { env autoGC with MakeRangeKeyPrefix := rangeKeyPrefix }

end sim

/-! ## Sample inputs -/

namespace sample

/-- Transaction sent with the request: anchored at key `[10]`, epoch 1,
timestamp 5. -/
def hTxn : roachpb.Transaction :=
  { ID := 7, Isolation := enginepb.SERIALIZABLE, Key := [10], Epoch := 1,
    Timestamp := ⟨5, 0⟩, Priority := 0, Sequence := 3, Name := "sample",
    Status := roachpb.PENDING, OrigTimestamp := ⟨5, 0⟩, RefreshedTimestamp := ⟨0, 0⟩,
    WriteTooOld := false, RetryOnPush := false, OrigTimestampWasObserved := false,
    Intents := [] }

/-- Persisted record of the transaction with the given status, epoch and
timestamp. -/
def record (status : roachpb.TransactionStatus) (epoch : Nat) (ts : hlc.Timestamp) :
    roachpb.Transaction :=
  { hTxn with Status := status, Epoch := epoch, Timestamp := ts, Sequence := 1 }

/-- Range `[10]` to `[20]` with id 1. -/
def desc : roachpb.RangeDescriptor :=
  { RangeID := 1, StartKey := [10], EndKey := [20], Replicas := [⟨1, 1, 1⟩],
    NextReplicaID := 2 }

/-- Evaluation context of the replica of range 1. -/
def evalCtx : batcheval.EvalContext :=
  { Desc := desc
    GetMVCCStats := enginepb.MVCCStats.zero
    GetLastReplicaGCTimestamp := .ok ⟨1, 0⟩
    AbortSpan := abortspan.New 1
    ContainsKey := sim.ContainsKey desc
    IsFirstRange := false
    LoadLease := .ok { Start := ⟨1, 0⟩, Replica := ⟨1, 1, 1⟩, Sequence := 1 }
    LoadGCThreshold := .ok ⟨0, 0⟩
    LoadTxnSpanGCThreshold := .ok ⟨0, 0⟩
    VersionSplitHardStateBelowRaftIsActive := true }

/-- Request for the sample transaction with three intent spans: a local key,
a range reaching beyond the range's end, and a key of another range. -/
def request (commit poison : Bool) : roachpb.EndTransactionRequest :=
  { Key := [10], Commit := commit, Deadline := none, InternalCommitTrigger := none,
    IntentSpans := [⟨[11], []⟩, ⟨[12], [30]⟩, ⟨[25], []⟩],
    Require1PC := false, NoRefreshSpans := false, Poison := poison }

/-- Command arguments for the sample request. -/
def cArgs (commit poison : Bool) : batcheval.CommandArgs :=
  { EvalCtx := evalCtx, Header := { RangeID := 1, Txn := some hTxn },
    Args := request commit poison }

/-- Batch over a store that holds the given records and four intent keys. -/
def batch (records : List (roachpb.Key × roachpb.Transaction)) : sim.Batch :=
  { records := records, intents := [[11], [12], [13], [25]], writes := [] }

/-- Key of the sample transaction's record in the reference environment. -/
def txnKey : roachpb.Key := [1, 7, 10]

/-- Evaluation state over the given batch, with zero stats and no knob. -/
def state (b : sim.Batch) : batcheval.State sim.Batch :=
  { batch := b, ms := enginepb.MVCCStats.zero, numKeysEvaluated := none }

/-- Commit trigger carrying a split of the sample range at key `[15]`. -/
def splitCommitTrigger : roachpb.InternalCommitTrigger :=
  { SplitTrigger := some
      { LeftDesc := { desc with EndKey := [15] }
        RightDesc := { desc with RangeID := 2, StartKey := [15] } }
    MergeTrigger := none
    ChangeReplicasTrigger := none
    ModifiedSpanTrigger := none }

/-- Command arguments for the sample request with the split trigger attached. -/
def cArgsSplit (commit poison : Bool) : batcheval.CommandArgs :=
  { EvalCtx := evalCtx, Header := { RangeID := 1, Txn := some hTxn },
    Args := { request commit poison with InternalCommitTrigger := some splitCommitTrigger } }

/-- The ABORTED record of the sample transaction. -/
def abortedRecord : roachpb.Transaction := record roachpb.ABORTED 1 ⟨5, 0⟩

/-- Intent of the ABORTED record on the given span. -/
def abortedIntent (span : roachpb.Span) : roachpb.Intent :=
  { Span := span, Txn := abortedRecord.toTxnMeta, Status := roachpb.ABORTED }

/-- State after local intent resolution of the poisoning rollback on the
ABORTED record: key `[11]` and the local part of the range were resolved
(three intent keys), then the abort span was poisoned. -/
def resolvedState : batcheval.State sim.Batch :=
  { batch :=
      { records := [(txnKey, abortedRecord)]
        intents := [[25]]
        writes :=
          [sim.Write.ResolveWriteIntent (abortedIntent ⟨[11], []⟩),
           sim.Write.ResolveWriteIntentRange (abortedIntent ⟨[12], [20]⟩) 499,
           sim.Write.SetAbortSpan 1 abortedRecord.toTxnMeta true] }
    ms := { enginepb.MVCCStats.zero with IntentCount := -3 }
    numKeysEvaluated := none }

/-- External intents of the sample request: the part of the range beyond the
range's end and the key of another range. -/
def externalIntents : List roachpb.Span := [⟨[20], [30]⟩, ⟨[25], []⟩]

/-- State after the record was rewritten with the external intents. -/
def finalState : batcheval.State sim.Batch :=
  { resolvedState with
    batch :=
      { resolvedState.batch with
        records := [(txnKey, { abortedRecord with Intents := externalIntents })]
        writes := resolvedState.batch.writes ++
          [sim.Write.PutProto txnKey
            (engine.ProtoMessage.transaction
              { abortedRecord with Intents := externalIntents })] } }

/-- Record of the sample transaction after the rollback of its PENDING record:
ABORTED, with the two external intents. -/
def rolledBackTxn : roachpb.Transaction :=
  { hTxn with Status := roachpb.ABORTED, Intents := externalIntents }

/-- Intent of the rolled back sample transaction on the given span. -/
def rolledBackIntent (span : roachpb.Span) : roachpb.Intent :=
  { Span := span, Txn := hTxn.toTxnMeta, Status := roachpb.ABORTED }

/-- What the rollback without poison of the PENDING sample record returns in
the reference environment: two spans resolved locally, the record rewritten
as ABORTED with the two external intents, and a result whose end-transaction
entry has `Always = false`. -/
def pendingRollbackOut : batcheval.EvalOut sim.Batch :=
  { st :=
      { batch :=
          { records := [(txnKey, rolledBackTxn)]
            intents := [[25]]
            writes :=
              [sim.Write.ResolveWriteIntent (rolledBackIntent ⟨[11], []⟩),
               sim.Write.ResolveWriteIntentRange (rolledBackIntent ⟨[12], [20]⟩) 499,
               sim.Write.PutProto txnKey (engine.ProtoMessage.transaction rolledBackTxn)] }
        ms := { enginepb.MVCCStats.zero with IntentCount := -3 }
        numKeysEvaluated := none }
    reply := ⟨some rolledBackTxn⟩
    res :=
      { result.Result.empty with
        Local :=
          { result.Result.empty.Local with
            EndTxns := some [{ Txn := rolledBackTxn, Always := false, Poison := false }]
            UpdatedTxns := some [rolledBackTxn] } }
    err := none }

/-- Command arguments for the sample commit with the deadline 4. -/
def cArgsDeadline : batcheval.CommandArgs :=
  { EvalCtx := evalCtx, Header := { RangeID := 1, Txn := some hTxn },
    Args := { request true false with Deadline := some ⟨4, 0⟩ } }

/-- What the commit on the ABORTED sample record returns in the reference
environment: the aborted error together with a result that carries the
record with the three request spans. -/
def abortedCommitOut : batcheval.EvalOut sim.Batch :=
  { st := state (batch [(txnKey, abortedRecord)])
    reply := ⟨some { abortedRecord with Intents := (request true false).IntentSpans }⟩
    res := sim.FromEndTxn
      { abortedRecord with Intents := (request true false).IntentSpans } true false
    err := some (roachpb.Error.TransactionAbortedError
      roachpb.TransactionAbortedReason.ABORT_REASON_ABORTED_RECORD_FOUND) }

/-- Commit trigger carrying a merge whose left descriptor starts at key `[9]`,
not at the start key `[10]` of the sample range. -/
def badMergeCommitTrigger : roachpb.InternalCommitTrigger :=
  { SplitTrigger := none
    MergeTrigger := some
      { LeftDesc := { desc with StartKey := [9], EndKey := [30] }
        RightDesc := { desc with RangeID := 2, StartKey := [20], EndKey := [30] }
        RightMVCCStats := enginepb.MVCCStats.zero }
    ChangeReplicasTrigger := none
    ModifiedSpanTrigger := none }

/-- Commit trigger carrying a split whose right descriptor ends at key `[25]`,
not at the end key `[20]` of the sample range. -/
def badSplitCommitTrigger : roachpb.InternalCommitTrigger :=
  { SplitTrigger := some
      { LeftDesc := { desc with EndKey := [15] }
        RightDesc := { desc with RangeID := 2, StartKey := [15], EndKey := [25] } }
    MergeTrigger := none
    ChangeReplicasTrigger := none
    ModifiedSpanTrigger := none }

/-- Command arguments for the sample commit with the given commit trigger. -/
def cArgsTrigger (trigger : roachpb.InternalCommitTrigger) : batcheval.CommandArgs :=
  { EvalCtx := evalCtx, Header := { RangeID := 1, Txn := some hTxn },
    Args := { request true false with InternalCommitTrigger := some trigger } }

/-- Record of the sample transaction after its commit: COMMITTED, with the two
external intents. -/
def committedTxn : roachpb.Transaction :=
  { hTxn with Status := roachpb.COMMITTED, Intents := externalIntents }

/-- Intent of the committed sample transaction on the given span. -/
def committedIntent (span : roachpb.Span) : roachpb.Intent :=
  { Span := span, Txn := hTxn.toTxnMeta, Status := roachpb.COMMITTED }

/-- State after local intent resolution of the sample commit over the PENDING
record. -/
def commitResolvedState : batcheval.State sim.Batch :=
  { batch :=
      { records := [(txnKey, record roachpb.PENDING 1 ⟨5, 0⟩)]
        intents := [[25]]
        writes :=
          [sim.Write.ResolveWriteIntent (committedIntent ⟨[11], []⟩),
           sim.Write.ResolveWriteIntentRange (committedIntent ⟨[12], [20]⟩) 499] }
    ms := { enginepb.MVCCStats.zero with IntentCount := -3 }
    numKeysEvaluated := none }

/-- State after the sample commit rewrote the record as COMMITTED with the two
external intents. -/
def commitWrittenState : batcheval.State sim.Batch :=
  { commitResolvedState with
    batch :=
      { commitResolvedState.batch with
        records := [(txnKey, committedTxn)]
        writes := commitResolvedState.batch.writes ++
          [sim.Write.PutProto txnKey (engine.ProtoMessage.transaction committedTxn)] } }

/-- Command arguments for the sample request with the one local intent span
`[11]` only. -/
def cArgsLocal (commit : Bool) : batcheval.CommandArgs :=
  { EvalCtx := evalCtx, Header := { RangeID := 1, Txn := some hTxn },
    Args := { request commit false with IntentSpans := [⟨[11], []⟩] } }

/-- What the sample commit with external intents returns over the PENDING
record: the record is rewritten as COMMITTED. -/
def commitOut : batcheval.EvalOut sim.Batch :=
  { st := commitWrittenState
    reply := ⟨some committedTxn⟩
    res :=
      { result.Result.empty with
        Local :=
          { result.Result.empty.Local with
            EndTxns := some [{ Txn := committedTxn, Always := false, Poison := false }]
            UpdatedTxns := some [committedTxn] } }
    err := none }

/-- What the sample commit with the one local intent returns over the PENDING
record with auto-GC on: the intent is resolved and the record is deleted. -/
def gcCommitOut : batcheval.EvalOut sim.Batch :=
  { st :=
      { batch :=
          { records := []
            intents := [[12], [13], [25]]
            writes :=
              [sim.Write.ResolveWriteIntent (committedIntent ⟨[11], []⟩),
               sim.Write.Delete txnKey] }
        ms := { enginepb.MVCCStats.zero with IntentCount := -1 }
        numKeysEvaluated := none }
    reply := ⟨some { hTxn with Status := roachpb.COMMITTED }⟩
    res :=
      { result.Result.empty with
        Local :=
          { result.Result.empty.Local with
            EndTxns := some
              [{ Txn := { hTxn with Status := roachpb.COMMITTED }, Always := false,
                 Poison := false }]
            UpdatedTxns := some [{ hTxn with Status := roachpb.COMMITTED }] } }
    err := none }

/-- Loop state at the end of the resolution loop of the sample commit: three
intent keys were resolved, 497 of the allowance are left. -/
def commitLoopEnd : batcheval.ResolveLoop sim.Batch :=
  { st := commitResolvedState, externalIntents := externalIntents, resolveAllowance := 497 }

/-- Six hundred distinct single-key spans `[10, 0]` to `[10, 599]`, all in the
sample range. -/
def spans600 : List roachpb.Span :=
  (List.range 600).map (fun i => ⟨[10, i], []⟩)

/-- The sample commit request with the six hundred single-key spans. -/
def request600 : roachpb.EndTransactionRequest :=
  { request true false with IntentSpans := spans600 }

/-- Loop state at the end of the resolution loop of the sample rollback over
the ABORTED record, before the abort span is poisoned. -/
def abortLoopEnd : batcheval.ResolveLoop sim.Batch :=
  { st :=
      { batch :=
          { records := [(txnKey, abortedRecord)]
            intents := [[25]]
            writes :=
              [sim.Write.ResolveWriteIntent (abortedIntent ⟨[11], []⟩),
               sim.Write.ResolveWriteIntentRange (abortedIntent ⟨[12], [20]⟩) 499] }
        ms := { enginepb.MVCCStats.zero with IntentCount := -3 }
        numKeysEvaluated := none }
    externalIntents := externalIntents
    resolveAllowance := 497 }

/-- Replacement for `SetAbortSpan` that writes nothing and fails. -/
def failingSetAbortSpan (_ : batcheval.EvalContext) (b : sim.Batch) (ms : enginepb.MVCCStats)
    (_ : enginepb.TxnMeta) (_ : Bool) : batcheval.WriteResult sim.Batch :=
  { batch := b, ms := ms, err := some roachpb.Error.TransactionNotFoundStatusError }

/-- Commit trigger carrying the merge of the sample range with the range
`[20]` to `[30]` of id 2, whose stats count four keys and two system keys. -/
def mergeCommitTrigger : roachpb.InternalCommitTrigger :=
  { SplitTrigger := none
    MergeTrigger := some
      { LeftDesc := { desc with EndKey := [30] }
        RightDesc := { desc with RangeID := 2, StartKey := [20], EndKey := [30] }
        RightMVCCStats := { enginepb.MVCCStats.zero with KeyCount := 4, SysCount := 2 } }
    ChangeReplicasTrigger := none
    ModifiedSpanTrigger := none }

/-- The split of the sample range at key `[15]`. -/
def splitTrigger : roachpb.SplitTrigger :=
  { LeftDesc := { desc with EndKey := [15] }
    RightDesc := { desc with RangeID := 2, StartKey := [15] } }

/-- The sample batch over the PENDING record after the split copied the last
replica GC timestamp and the abort span to the RHS. -/
def splitCopiedBatch : sim.Batch :=
  { batch [(txnKey, record roachpb.PENDING 1 ⟨5, 0⟩)] with
    writes :=
      [sim.Write.PutProto [2, 2] (engine.ProtoMessage.timestamp ⟨1, 0⟩),
       sim.Write.CopyAbortSpan 1 2] }

/-- What the split of the sample range at `[15]` returns for the delta of two
keys and four intents: the LHS delta of three intents, and the split payload
whose RHS delta counts two keys, one intent and the one system key of the
initial state write. -/
def splitOut : batcheval.SplitResult sim.Batch :=
  { batch :=
      { splitCopiedBatch with
        writes := splitCopiedBatch.writes ++
          [sim.Write.WriteInitialReplicaState splitTrigger.RightDesc
            { Start := ⟨1, 0⟩, Replica := ⟨1, 1, 1⟩, Sequence := 1 }] }
    ms := { enginepb.MVCCStats.zero with IntentCount := 3 }
    res :=
      { result.Result.empty with
        Replicated :=
          { result.Result.empty.Replicated with
            BlockReads := true
            Split := some
              { SplitTrigger := splitTrigger
                RHSDelta :=
                  { enginepb.MVCCStats.zero with
                    KeyCount := 2, IntentCount := 1, SysCount := 1 } } } }
    err := none }

/-- What the sample commit with the split trigger returns over the PENDING
record: after the record was rewritten as COMMITTED the split wrote the RHS
state; the stats of the command are the zero LHS delta, and the result
blocks reads and carries the split payload. -/
def splitCommitOut : batcheval.EvalOut sim.Batch :=
  { st :=
      { batch :=
          { commitWrittenState.batch with
            writes := commitWrittenState.batch.writes ++
              [sim.Write.PutProto [2, 2] (engine.ProtoMessage.timestamp ⟨1, 0⟩),
               sim.Write.CopyAbortSpan 1 2,
               sim.Write.WriteInitialReplicaState splitTrigger.RightDesc
                 { Start := ⟨1, 0⟩, Replica := ⟨1, 1, 1⟩, Sequence := 1 }] }
        ms := enginepb.MVCCStats.zero
        numKeysEvaluated := none }
    reply := ⟨some committedTxn⟩
    res :=
      { Local :=
          { result.Result.empty.Local with
            EndTxns := some [{ Txn := committedTxn, Always := false, Poison := false }]
            UpdatedTxns := some [committedTxn] }
        Replicated :=
          { result.Result.empty.Replicated with
            BlockReads := true
            Split := some
              { SplitTrigger := splitTrigger
                RHSDelta :=
                  { enginepb.MVCCStats.zero with IntentCount := -3, SysCount := 1 } } } }
    err := none }

/-- The merge of the sample range with the range `[20]` to `[30]` of id 2,
whose stats count four keys and two system keys. -/
def mergeTrigger : roachpb.MergeTrigger :=
  { LeftDesc := { desc with EndKey := [30] }
    RightDesc := { desc with RangeID := 2, StartKey := [20], EndKey := [30] }
    RightMVCCStats := { enginepb.MVCCStats.zero with KeyCount := 4, SysCount := 2 } }

/-- Change-replicas trigger that adds a replica on store 2 to the sample
range. -/
def changeReplicasTrigger : roachpb.ChangeReplicasTrigger :=
  { ChangeType := 0, Replica := ⟨2, 2, 2⟩, UpdatedReplicas := [⟨1, 1, 1⟩, ⟨2, 2, 2⟩],
    NextReplicaID := 3 }

/-- Command arguments for the sample rollback whose request carries the merge
of the sample range with the range `[20]` to `[30]`. -/
def cArgsRollbackMerge : batcheval.CommandArgs :=
  { EvalCtx := evalCtx, Header := { RangeID := 1, Txn := some hTxn },
    Args := { request false false with InternalCommitTrigger := some mergeCommitTrigger } }

/-- What the sample rollback with the merge trigger returns over the PENDING
record with auto-GC on: the intents at `[12]`, `[13]` and `[25]` were resolved
as keys of the span `[12]` to `[30]`, the span `[25]` was resolved as a local
key, no intent was left external, and the record was deleted. -/
def mergeRollbackOut : batcheval.EvalOut sim.Batch :=
  { st :=
      { batch :=
          { records := []
            intents := []
            writes :=
              [sim.Write.ResolveWriteIntent (rolledBackIntent ⟨[11], []⟩),
               sim.Write.ResolveWriteIntentRange (rolledBackIntent ⟨[12], [30]⟩) 499,
               sim.Write.ResolveWriteIntent (rolledBackIntent ⟨[25], []⟩),
               sim.Write.Delete txnKey] }
        ms := { enginepb.MVCCStats.zero with IntentCount := -4 }
        numKeysEvaluated := none }
    reply := ⟨some { hTxn with Status := roachpb.ABORTED }⟩
    res :=
      { result.Result.empty with
        Local :=
          { result.Result.empty.Local with
            EndTxns := some
              [{ Txn := { hTxn with Status := roachpb.ABORTED }, Always := false,
                 Poison := false }]
            UpdatedTxns := some [{ hTxn with Status := roachpb.ABORTED }] } }
    err := none }

/-- Commit trigger with two fields set: the merge of the sample range with the
range `[20]` to `[30]` and the split of the sample range at `[15]`. -/
def mergeAndSplitCommitTrigger : roachpb.InternalCommitTrigger :=
  { mergeCommitTrigger with SplitTrigger := some splitTrigger }

/-- What the sample rollback with the merge trigger returns over the ABORTED
record with auto-GC on: the intents at `[12]`, `[13]` and `[25]` were resolved
as keys of the span `[12]` to `[30]`, the span `[25]` was resolved as a local
key, no intent was left external, and the record was deleted. -/
def abortedMergeRollbackOut : batcheval.EvalOut sim.Batch :=
  { st :=
      { batch :=
          { records := []
            intents := []
            writes :=
              [sim.Write.ResolveWriteIntent (abortedIntent ⟨[11], []⟩),
               sim.Write.ResolveWriteIntentRange (abortedIntent ⟨[12], [30]⟩) 499,
               sim.Write.ResolveWriteIntent (abortedIntent ⟨[25], []⟩),
               sim.Write.Delete txnKey] }
        ms := { enginepb.MVCCStats.zero with IntentCount := -4 }
        numKeysEvaluated := none }
    reply := ⟨some abortedRecord⟩
    res := sim.FromEndTxn abortedRecord true false
    err := none }

end sample

/-! ## Properties -/

open batcheval

/-- The model's `Less` is the strict order of timestamps. -/
theorem hlc.Timestamp.less_iff_lt (t s : hlc.Timestamp) : t.Less s = true ↔ t < s := by
  show _ ↔ toLex (t.WallTime, t.Logical) < toLex (s.WallTime, s.Logical)
  rw [Prod.Lex.lt_iff]
  simp [hlc.Timestamp.Less]

/-- No timestamp is less than itself. -/
theorem hlc.Timestamp.less_irrefl (t : hlc.Timestamp) : t.Less t = false := by
  simp [hlc.Timestamp.Less]

/-- Forwarding a timestamp yields the maximum of the two timestamps. -/
theorem hlc.Timestamp.forward_eq_max (t s : hlc.Timestamp) : t.Forward s = max t s := by
  unfold hlc.Timestamp.Forward
  by_cases h : t.Less s = true
  · have hlt : t < s := (hlc.Timestamp.less_iff_lt t s).mp h
    rw [if_pos h, max_eq_right hlt.le]
  · have hnlt : ¬ t < s := fun hlt => h ((hlc.Timestamp.less_iff_lt t s).mpr hlt)
    rw [if_neg h, max_eq_left (not_lt.mp hnlt)]

/-- C1: when the request passes header verification, does not require 1PC, and
the record read at the transaction key is COMMITTED, `evalEndTransaction`
returns `TransactionCommittedStatusError` with the empty result, whether the
request commits or rolls back, and the state (batch and stats) it leaves is
the state it was given: nothing was written. -/
theorem committed_record_is_rejected {β : Type} (env : Env β) (st : State β)
    (cArgs : CommandArgs) (reply : roachpb.EndTransactionResponse)
    (hTxn existingTxn : roachpb.Transaction)
    (hverify : env.VerifyTransaction cArgs.Header cArgs.Args = none)
    (h1pc : cArgs.Args.Require1PC = false)
    (htxn : cArgs.Header.Txn = some hTxn)
    (hget : env.MVCCGetProto st.batch (env.TransactionKey hTxn.Key hTxn.ID)
      = .ok (some existingTxn))
    (hstatus : existingTxn.Status = roachpb.COMMITTED) :
    evalEndTransaction env st cArgs reply =
      .ok { st := st, reply := ⟨some existingTxn⟩, res := result.Result.empty,
            err := some roachpb.Error.TransactionCommittedStatusError } := by
  simp [evalEndTransaction, hverify, h1pc, htxn, hget, hstatus]

/-- C1 at the sample rollback request over a store holding the COMMITTED
record: the error is returned and the batch has no write. -/
theorem committed_record_is_rejected_witness :
    evalEndTransaction (sim.env true)
        (sample.state (sample.batch
          [(sample.txnKey, sample.record roachpb.COMMITTED 1 ⟨5, 0⟩)]))
        (sample.cArgs false true) ⟨none⟩ =
      .ok { st := sample.state (sample.batch
              [(sample.txnKey, sample.record roachpb.COMMITTED 1 ⟨5, 0⟩)])
            reply := ⟨some (sample.record roachpb.COMMITTED 1 ⟨5, 0⟩)⟩
            res := result.Result.empty
            err := some roachpb.Error.TransactionCommittedStatusError } :=
  committed_record_is_rejected (sim.env true) _ (sample.cArgs false true) ⟨none⟩
    sample.hTxn (sample.record roachpb.COMMITTED 1 ⟨5, 0⟩) rfl rfl rfl rfl rfl

/-- C2: when the request passes header verification, does not require 1PC, and
no record is found at the transaction key, `evalEndTransaction` fails with
`TransactionNotFoundStatusError` if the request commits; if it rolls back it
returns no error and the empty result, the reply holds a clone of the
request's transaction, and the state is the one given (nothing was written),
whatever the poison flag, the intent spans and the commit trigger. -/
theorem missing_record_commit_fails_rollback_is_noop {β : Type} (env : Env β) (st : State β)
    (cArgs : CommandArgs) (reply : roachpb.EndTransactionResponse)
    (hTxn : roachpb.Transaction)
    (hverify : env.VerifyTransaction cArgs.Header cArgs.Args = none)
    (h1pc : cArgs.Args.Require1PC = false)
    (htxn : cArgs.Header.Txn = some hTxn)
    (hget : env.MVCCGetProto st.batch (env.TransactionKey hTxn.Key hTxn.ID) = .ok none) :
    (cArgs.Args.Commit = true →
      evalEndTransaction env st cArgs reply =
        .ok { st := st, reply := reply, res := result.Result.empty,
              err := some roachpb.Error.TransactionNotFoundStatusError }) ∧
    (cArgs.Args.Commit = false →
      evalEndTransaction env st cArgs reply =
        .ok { st := st, reply := ⟨some hTxn.Clone⟩, res := result.Result.empty,
              err := none }) := by
  constructor
  · intro hcommit
    simp [evalEndTransaction, hverify, h1pc, htxn, hget, hcommit]
  · intro hcommit
    simp [evalEndTransaction, hverify, h1pc, htxn, hget, hcommit]

/-- C2 at the sample requests over a store without a record: the commit fails
with not-found, the poisoning rollback with three intent spans succeeds and
writes nothing. -/
theorem missing_record_commit_fails_rollback_is_noop_witness :
    evalEndTransaction (sim.env true) (sample.state (sample.batch []))
        (sample.cArgs true false) ⟨none⟩ =
      .ok { st := sample.state (sample.batch []), reply := ⟨none⟩,
            res := result.Result.empty,
            err := some roachpb.Error.TransactionNotFoundStatusError } ∧
    evalEndTransaction (sim.env true) (sample.state (sample.batch []))
        (sample.cArgs false true) ⟨none⟩ =
      .ok { st := sample.state (sample.batch []), reply := ⟨some sample.hTxn⟩,
            res := result.Result.empty, err := none } :=
  ⟨(missing_record_commit_fails_rollback_is_noop (sim.env true)
      (sample.state (sample.batch [])) (sample.cArgs true false)
      ⟨none⟩ sample.hTxn rfl rfl rfl rfl).1 rfl,
   (missing_record_commit_fails_rollback_is_noop (sim.env true)
      (sample.state (sample.batch [])) (sample.cArgs false true)
      ⟨none⟩ sample.hTxn rfl rfl rfl rfl).2 rfl⟩

/-- C3: for a commit request that passes header verification without 1PC and
finds an ABORTED record, `evalEndTransaction` returns
`TransactionAbortedError(ABORT_REASON_ABORTED_RECORD_FOUND)` together with the
result `FromEndTxn` builds from the record whose `Intents` are the request's
intent spans (the whole list, in request order) with `alwaysReturn = true`
and the request's poison flag; the state is the one given, so no intent was
resolved and nothing was written. Where `FromEndTxn` is the helper as the
spec describes it, that result is not the empty result. -/
theorem commit_on_aborted_record_returns_intents {β : Type} (env : Env β) (st : State β)
    (cArgs : CommandArgs) (reply : roachpb.EndTransactionResponse)
    (hTxn existingTxn : roachpb.Transaction)
    (hverify : env.VerifyTransaction cArgs.Header cArgs.Args = none)
    (h1pc : cArgs.Args.Require1PC = false)
    (htxn : cArgs.Header.Txn = some hTxn)
    (hget : env.MVCCGetProto st.batch (env.TransactionKey hTxn.Key hTxn.ID)
      = .ok (some existingTxn))
    (hstatus : existingTxn.Status = roachpb.ABORTED)
    (hcommit : cArgs.Args.Commit = true) :
    evalEndTransaction env st cArgs reply =
      .ok { st := st
            reply := ⟨some { existingTxn with Intents := cArgs.Args.IntentSpans }⟩
            res := env.FromEndTxn { existingTxn with Intents := cArgs.Args.IntentSpans }
              true cArgs.Args.Poison
            err := some (roachpb.Error.TransactionAbortedError
              roachpb.TransactionAbortedReason.ABORT_REASON_ABORTED_RECORD_FOUND) } ∧
    ({ existingTxn with Intents := cArgs.Args.IntentSpans } : roachpb.Transaction).Intents
      = cArgs.Args.IntentSpans ∧
    (env.FromEndTxn = sim.FromEndTxn →
      env.FromEndTxn { existingTxn with Intents := cArgs.Args.IntentSpans }
        true cArgs.Args.Poison ≠ result.Result.empty) := by
  refine ⟨?_, rfl, ?_⟩
  · have hne : (roachpb.ABORTED == roachpb.COMMITTED) = false := by decide
    simp [evalEndTransaction, hverify, h1pc, htxn, hget, hstatus, hcommit, hne]
  · intro hfrom
    rw [hfrom]
    simp [sim.FromEndTxn, result.Result.empty]

/-- C5: when the record found is PENDING and the epoch of the request's
transaction is strictly less than the record's epoch, `evalEndTransaction`
fails with a `TransactionStatusError` (epoch regression), returns the empty
result, and leaves the state it was given: nothing was written. This holds
for commits and rollbacks alike. -/
theorem epoch_regression_fails {β : Type} (env : Env β) (st : State β)
    (cArgs : CommandArgs) (reply : roachpb.EndTransactionResponse)
    (hTxn existingTxn : roachpb.Transaction)
    (hverify : env.VerifyTransaction cArgs.Header cArgs.Args = none)
    (h1pc : cArgs.Args.Require1PC = false)
    (htxn : cArgs.Header.Txn = some hTxn)
    (hget : env.MVCCGetProto st.batch (env.TransactionKey hTxn.Key hTxn.ID)
      = .ok (some existingTxn))
    (hstatus : existingTxn.Status = roachpb.PENDING)
    (hepoch : hTxn.Epoch < existingTxn.Epoch) :
    evalEndTransaction env st cArgs reply =
      .ok { st := st, reply := ⟨some existingTxn⟩, res := result.Result.empty,
            err := some (roachpb.Error.TransactionStatusError
              (roachpb.StatusMessage.epochRegression hTxn.Epoch)) } := by
  have hne1 : (roachpb.PENDING == roachpb.COMMITTED) = false := by decide
  have hne2 : (roachpb.PENDING == roachpb.ABORTED) = false := by decide
  simp [evalEndTransaction, hverify, h1pc, htxn, hget, hstatus, hepoch, hne1, hne2]

/-- C3 at the sample commit request over a store holding the ABORTED record:
the aborted error comes with a result carrying the record with all three
request spans, always-return set, and the batch has no write. -/
theorem commit_on_aborted_record_returns_intents_witness :
    evalEndTransaction (sim.env true)
        (sample.state (sample.batch [(sample.txnKey, sample.abortedRecord)]))
        (sample.cArgs true false) ⟨none⟩ =
      .ok { st := sample.state (sample.batch [(sample.txnKey, sample.abortedRecord)])
            reply := ⟨some { sample.abortedRecord with
              Intents := [⟨[11], []⟩, ⟨[12], [30]⟩, ⟨[25], []⟩] }⟩
            res :=
              { result.Result.empty with
                Local :=
                  { result.Result.empty.Local with
                    EndTxns := some
                      [{ Txn := { sample.abortedRecord with
                           Intents := [⟨[11], []⟩, ⟨[12], [30]⟩, ⟨[25], []⟩] }
                         Always := true
                         Poison := false }] } }
            err := some (roachpb.Error.TransactionAbortedError
              roachpb.TransactionAbortedReason.ABORT_REASON_ABORTED_RECORD_FOUND) } :=
  (commit_on_aborted_record_returns_intents (sim.env true)
    (sample.state (sample.batch [(sample.txnKey, sample.abortedRecord)]))
    (sample.cArgs true false) ⟨none⟩ sample.hTxn sample.abortedRecord
    rfl rfl rfl rfl rfl rfl).1

/-- The call of `resolveLocalIntents` is the call for the same request without
commit trigger on the descriptor `resolveLocalIntents.desc` chooses: the
descriptor passed in is used for nothing else. -/
theorem resolveLocalIntents_on_chosen_descriptor {β : Type} (env : Env β)
    (desc : roachpb.RangeDescriptor) (st : State β) (args : roachpb.EndTransactionRequest)
    (txn : roachpb.Transaction) (evalCtx : EvalContext) :
    resolveLocalIntents env desc st args txn evalCtx =
      resolveLocalIntents env (resolveLocalIntents.desc desc args) st
        { args with InternalCommitTrigger := none } txn evalCtx := by
  unfold resolveLocalIntents resolveLocalIntents.desc
  cases roachpb.InternalCommitTrigger.GetMergeTrigger args.InternalCommitTrigger <;> rfl

/-- The descriptor `resolveLocalIntents` decides locality against is the
descriptor passed in for a request without merge trigger, and the left
descriptor of the merge trigger for a request that carries one. -/
theorem resolveLocalIntents_desc_cases (desc : roachpb.RangeDescriptor)
    (args : roachpb.EndTransactionRequest) :
    (roachpb.InternalCommitTrigger.GetMergeTrigger args.InternalCommitTrigger = none →
      resolveLocalIntents.desc desc args = desc) ∧
    (∀ mt, roachpb.InternalCommitTrigger.GetMergeTrigger args.InternalCommitTrigger = some mt →
      resolveLocalIntents.desc desc args = mt.LeftDesc) := by
  unfold resolveLocalIntents.desc
  constructor
  · intro h
    rw [h]
  · intro mt h
    rw [h]

/-- C4, as the code has it: for a rollback request that passes header
verification without 1PC and finds an ABORTED record, `evalEndTransaction`
runs local intent resolution with the record (status ABORTED) against the
descriptor `resolveLocalIntents.desc` chooses: the current range descriptor
when the request carries no merge trigger, and the post-merge LHS descriptor
of the trigger when it carries one. The hypothesis `hresolve` is that
resolution on the chosen descriptor, stated for the request without its
commit trigger so that the descriptor given is the one used; the call the
code makes, with the current descriptor and the request as it is, returns
the same. When the resolution returns the external intents without error the
evaluation calls `updateTxnWithExternalIntents` with exactly those external
intents; when that returns no error the evaluation succeeds with the result
`FromEndTxn` builds from the record with `alwaysReturn = true` and the
request's poison flag. The state returned is the state the record writer
left: nothing after it, in particular no commit trigger, wrote to the batch
or changed the stats. -/
theorem rollback_on_aborted_record_completes_abort {β : Type} (env : Env β) (st : State β)
    (cArgs : CommandArgs) (reply : roachpb.EndTransactionResponse)
    (hTxn existingTxn : roachpb.Transaction)
    (st1 : State β) (externalIntents : List roachpb.Span)
    (hverify : env.VerifyTransaction cArgs.Header cArgs.Args = none)
    (h1pc : cArgs.Args.Require1PC = false)
    (htxn : cArgs.Header.Txn = some hTxn)
    (hget : env.MVCCGetProto st.batch (env.TransactionKey hTxn.Key hTxn.ID)
      = .ok (some existingTxn))
    (hstatus : existingTxn.Status = roachpb.ABORTED)
    (hcommit : cArgs.Args.Commit = false)
    (hresolve : resolveLocalIntents env
      (resolveLocalIntents.desc cArgs.EvalCtx.Desc cArgs.Args) st
      { cArgs.Args with InternalCommitTrigger := none } existingTxn cArgs.EvalCtx
      = .ok (st1, externalIntents, none))
    (hupdate : (updateTxnWithExternalIntents env st1 cArgs.Args existingTxn
      externalIntents).err = none) :
    evalEndTransaction env st cArgs reply =
      .ok { st := (updateTxnWithExternalIntents env st1 cArgs.Args existingTxn
              externalIntents).st
            reply := ⟨some (updateTxnWithExternalIntents env st1 cArgs.Args existingTxn
              externalIntents).txn⟩
            res := env.FromEndTxn (updateTxnWithExternalIntents env st1 cArgs.Args
              existingTxn externalIntents).txn true cArgs.Args.Poison
            err := none } ∧
    resolveLocalIntents env cArgs.EvalCtx.Desc st cArgs.Args existingTxn cArgs.EvalCtx
      = .ok (st1, externalIntents, none) ∧
    (roachpb.InternalCommitTrigger.GetMergeTrigger cArgs.Args.InternalCommitTrigger = none →
      resolveLocalIntents.desc cArgs.EvalCtx.Desc cArgs.Args = cArgs.EvalCtx.Desc) ∧
    (∀ mt, roachpb.InternalCommitTrigger.GetMergeTrigger cArgs.Args.InternalCommitTrigger
        = some mt →
      resolveLocalIntents.desc cArgs.EvalCtx.Desc cArgs.Args = mt.LeftDesc) := by
  have hne : (roachpb.ABORTED == roachpb.COMMITTED) = false := by decide
  rw [← resolveLocalIntents_on_chosen_descriptor] at hresolve
  refine ⟨?_, hresolve, resolveLocalIntents_desc_cases cArgs.EvalCtx.Desc cArgs.Args⟩
  simp [evalEndTransaction, hverify, h1pc, htxn, hget, hstatus, hcommit, hne, hresolve,
    hupdate]

/-- C4 at the sample poisoning rollback, with a split trigger attached, over a
store holding the ABORTED record: locality is decided against the descriptor
of the sample range, two intent spans are resolved locally, the abort span
is poisoned, the record is rewritten with the two external intents, and no
trigger write follows. -/
theorem rollback_on_aborted_record_completes_abort_witness :
    evalEndTransaction (sim.env true)
        (sample.state (sample.batch [(sample.txnKey, sample.abortedRecord)]))
        (sample.cArgsSplit false true) ⟨none⟩ =
      .ok { st := sample.finalState
            reply := ⟨some { sample.abortedRecord with Intents := sample.externalIntents }⟩
            res := sim.FromEndTxn
              { sample.abortedRecord with Intents := sample.externalIntents } true true
            err := none } ∧
    resolveLocalIntents.desc (sample.cArgsSplit false true).EvalCtx.Desc
      (sample.cArgsSplit false true).Args = sample.desc :=
  ⟨(rollback_on_aborted_record_completes_abort (sim.env true)
      (sample.state (sample.batch [(sample.txnKey, sample.abortedRecord)]))
      (sample.cArgsSplit false true) ⟨none⟩ sample.hTxn sample.abortedRecord
      sample.resolvedState sample.externalIntents rfl rfl rfl rfl rfl rfl rfl rfl).1,
   (rollback_on_aborted_record_completes_abort (sim.env true)
      (sample.state (sample.batch [(sample.txnKey, sample.abortedRecord)]))
      (sample.cArgsSplit false true) ⟨none⟩ sample.hTxn sample.abortedRecord
      sample.resolvedState sample.externalIntents rfl rfl rfl rfl rfl rfl rfl rfl).2.2.1 rfl⟩

/-- C4 fails as stated: the sample rollback whose request carries the merge of
the sample range `[10]` to `[20]` with the range `[20]` to `[30]`, over the
ABORTED record, does not resolve against the current range descriptor. The
key `[25]` is not in the sample range, and yet the intent at `[25]` and the
whole span `[12]` to `[30]` are resolved in the batch, no intent is external
and the record is deleted; the resolution of the same spans against the
descriptor of the sample range stops at `[20]` and returns the span `[20]`
to `[30]` and the key `[25]` as external. -/
theorem rollback_on_aborted_record_with_merge_trigger_resolves_beyond_current_range :
    sample.cArgsRollbackMerge.Args.Commit = false ∧
    sample.abortedRecord.Status = roachpb.ABORTED ∧
    sample.cArgsRollbackMerge.EvalCtx.Desc = sample.desc ∧
    sim.ContainsKey sample.desc [25] = false ∧
    evalEndTransaction (sim.env true)
        (sample.state (sample.batch [(sample.txnKey, sample.abortedRecord)]))
        sample.cArgsRollbackMerge ⟨none⟩ = .ok sample.abortedMergeRollbackOut ∧
    sim.Write.ResolveWriteIntent (sample.abortedIntent ⟨[25], []⟩) ∈
      sample.abortedMergeRollbackOut.st.batch.writes ∧
    sim.Write.ResolveWriteIntentRange (sample.abortedIntent ⟨[12], [30]⟩) 499 ∈
      sample.abortedMergeRollbackOut.st.batch.writes ∧
    (resolveLocalIntents (sim.env true) sample.desc
        (sample.state (sample.batch [(sample.txnKey, sample.abortedRecord)]))
        (sample.request false false) sample.abortedRecord sample.evalCtx).map
        (fun r => (r.1.batch.writes, r.2.1)) =
      .ok ([sim.Write.ResolveWriteIntent (sample.abortedIntent ⟨[11], []⟩),
            sim.Write.ResolveWriteIntentRange (sample.abortedIntent ⟨[12], [20]⟩) 499],
           [⟨[20], [30]⟩, ⟨[25], []⟩]) :=
  ⟨rfl, rfl, rfl, rfl, rfl, by decide, by decide, rfl⟩

/-- C5 at the sample requests over a store whose PENDING record has epoch 2
while the request has epoch 1: the commit fails with the status error and
the batch has no write. -/
theorem epoch_regression_fails_witness :
    evalEndTransaction (sim.env true)
        (sample.state (sample.batch
          [(sample.txnKey, sample.record roachpb.PENDING 2 ⟨5, 0⟩)]))
        (sample.cArgs true false) ⟨none⟩ =
      .ok { st := sample.state (sample.batch
              [(sample.txnKey, sample.record roachpb.PENDING 2 ⟨5, 0⟩)])
            reply := ⟨some (sample.record roachpb.PENDING 2 ⟨5, 0⟩)⟩
            res := result.Result.empty
            err := some (roachpb.Error.TransactionStatusError
              (roachpb.StatusMessage.epochRegression 1)) } :=
  epoch_regression_fails (sim.env true)
    (sample.state (sample.batch [(sample.txnKey, sample.record roachpb.PENDING 2 ⟨5, 0⟩)]))
    (sample.cArgs true false) ⟨none⟩ sample.hTxn (sample.record roachpb.PENDING 2 ⟨5, 0⟩)
    rfl rfl rfl rfl rfl (by decide)

/-- C6: when the record found is PENDING and the request's epoch is not less
than the record's, the status-transition validation fails, with a
`TransactionStatusError` (timestamp regression), the empty result and no
write, if the epochs are equal and the record's timestamp is strictly less
than the request transaction's original timestamp; in every other case it
raises no error and the evaluation goes on with the update of the record
(source line 259). In particular equal timestamps pass, and a strictly
greater request epoch passes whatever the timestamps. -/
theorem timestamp_regression_iff_same_epoch_and_less {β : Type} (env : Env β) (st : State β)
    (cArgs : CommandArgs) (reply : roachpb.EndTransactionResponse)
    (hTxn existingTxn : roachpb.Transaction)
    (hverify : env.VerifyTransaction cArgs.Header cArgs.Args = none)
    (h1pc : cArgs.Args.Require1PC = false)
    (htxn : cArgs.Header.Txn = some hTxn)
    (hget : env.MVCCGetProto st.batch (env.TransactionKey hTxn.Key hTxn.ID)
      = .ok (some existingTxn))
    (hstatus : existingTxn.Status = roachpb.PENDING)
    (hepoch : ¬ hTxn.Epoch < existingTxn.Epoch) :
    (hTxn.Epoch = existingTxn.Epoch ∧ existingTxn.Timestamp < hTxn.OrigTimestamp →
      evalEndTransaction env st cArgs reply =
        .ok { st := st, reply := ⟨some existingTxn⟩, res := result.Result.empty,
              err := some (roachpb.Error.TransactionStatusError
                (roachpb.StatusMessage.timestampRegression hTxn.OrigTimestamp)) }) ∧
    (¬ (hTxn.Epoch = existingTxn.Epoch ∧ existingTxn.Timestamp < hTxn.OrigTimestamp) →
      evalEndTransaction env st cArgs reply =
        evalEndTransaction.updateAndFinish env st cArgs hTxn existingTxn) ∧
    (existingTxn.Timestamp = hTxn.OrigTimestamp →
      evalEndTransaction env st cArgs reply =
        evalEndTransaction.updateAndFinish env st cArgs hTxn existingTxn) ∧
    (existingTxn.Epoch < hTxn.Epoch →
      evalEndTransaction env st cArgs reply =
        evalEndTransaction.updateAndFinish env st cArgs hTxn existingTxn) := by
  have hne1 : (roachpb.PENDING == roachpb.COMMITTED) = false := by decide
  have hne2 : (roachpb.PENDING == roachpb.ABORTED) = false := by decide
  have hpass : ¬ (hTxn.Epoch = existingTxn.Epoch ∧
      existingTxn.Timestamp < hTxn.OrigTimestamp) →
      evalEndTransaction env st cArgs reply =
        evalEndTransaction.updateAndFinish env st cArgs hTxn existingTxn := by
    intro hno
    have hcond : (hTxn.Epoch == existingTxn.Epoch &&
        existingTxn.Timestamp.Less hTxn.OrigTimestamp) = false := by
      cases hless : existingTxn.Timestamp.Less hTxn.OrigTimestamp
      · simp
      · have hlt := (hlc.Timestamp.less_iff_lt _ _).mp hless
        have hneq : ¬ hTxn.Epoch = existingTxn.Epoch := fun h => hno ⟨h, hlt⟩
        simp [hneq]
    simp [evalEndTransaction, hverify, h1pc, htxn, hget, hstatus, hepoch, hne1, hne2, hcond]
  refine ⟨?_, hpass, ?_, ?_⟩
  · rintro ⟨heq, hlt⟩
    have hless := (hlc.Timestamp.less_iff_lt _ _).mpr hlt
    simp [evalEndTransaction, hverify, h1pc, htxn, hget, hstatus, hne1, hne2, heq, hless]
  · intro hts
    apply hpass
    rintro ⟨_, hlt⟩
    rw [hts] at hlt
    exact lt_irrefl _ hlt
  · intro hgt
    apply hpass
    rintro ⟨heq, _⟩
    omega

/-- C6 at the sample commit request: over a PENDING record of the same epoch
with timestamp 4, below the original timestamp 5, the validation fails; over
the record with timestamp 5 it passes. -/
theorem timestamp_regression_iff_same_epoch_and_less_witness :
    evalEndTransaction (sim.env true)
        (sample.state (sample.batch
          [(sample.txnKey, sample.record roachpb.PENDING 1 ⟨4, 0⟩)]))
        (sample.cArgs true false) ⟨none⟩ =
      .ok { st := sample.state (sample.batch
              [(sample.txnKey, sample.record roachpb.PENDING 1 ⟨4, 0⟩)])
            reply := ⟨some (sample.record roachpb.PENDING 1 ⟨4, 0⟩)⟩
            res := result.Result.empty
            err := some (roachpb.Error.TransactionStatusError
              (roachpb.StatusMessage.timestampRegression ⟨5, 0⟩)) } ∧
    evalEndTransaction (sim.env true)
        (sample.state (sample.batch
          [(sample.txnKey, sample.record roachpb.PENDING 1 ⟨5, 0⟩)]))
        (sample.cArgs true false) ⟨none⟩ =
      evalEndTransaction.updateAndFinish (sim.env true)
        (sample.state (sample.batch
          [(sample.txnKey, sample.record roachpb.PENDING 1 ⟨5, 0⟩)]))
        (sample.cArgs true false) sample.hTxn (sample.record roachpb.PENDING 1 ⟨5, 0⟩) :=
  ⟨(timestamp_regression_iff_same_epoch_and_less (sim.env true)
      (sample.state (sample.batch [(sample.txnKey, sample.record roachpb.PENDING 1 ⟨4, 0⟩)]))
      (sample.cArgs true false) ⟨none⟩ sample.hTxn (sample.record roachpb.PENDING 1 ⟨4, 0⟩)
      rfl rfl rfl rfl rfl (by decide)).1
      ⟨rfl, (hlc.Timestamp.less_iff_lt _ _).mp rfl⟩,
   (timestamp_regression_iff_same_epoch_and_less (sim.env true)
      (sample.state (sample.batch [(sample.txnKey, sample.record roachpb.PENDING 1 ⟨5, 0⟩)]))
      (sample.cArgs true false) ⟨none⟩ sample.hTxn (sample.record roachpb.PENDING 1 ⟨5, 0⟩)
      rfl rfl rfl rfl rfl (by decide)).2.2.1 rfl⟩

/-- C7: for a transaction with `WriteTooOld` set to which the refresh override
does not apply (its isolation is not SERIALIZABLE, or its original timestamp
was observed, or the request's `NoRefreshSpans` is false),
`IsEndTransactionTriggeringRetryError` returns `(true, RETRY_WRITE_TOO_OLD)`,
whatever the timestamps: a pushed transaction gets the write-too-old reason
too, not SERIALIZABLE or DELETE_RANGE. -/
theorem write_too_old_retries_with_its_reason (txn : roachpb.Transaction)
    (args : roachpb.EndTransactionRequest)
    (hwto : txn.WriteTooOld = true)
    (hno : txn.Isolation ≠ enginepb.SERIALIZABLE ∨ txn.OrigTimestampWasObserved = true ∨
      args.NoRefreshSpans = false) :
    IsEndTransactionTriggeringRetryError txn args =
      (true, roachpb.TransactionRetryReason.RETRY_WRITE_TOO_OLD) := by
  simp only [IsEndTransactionTriggeringRetryError, hwto, if_true,
    roachpb.Transaction.IsSerializable, canForwardSerializableTimestamp]
  rcases hno with h | h | h
  · simp [h]
  · simp [h]
  · simp [h]

/-- C7 at a serializable transaction pushed from 5 to 10, with write-too-old
set, committed by the sample request (`NoRefreshSpans` false): the reason is
write-too-old. -/
theorem write_too_old_retries_with_its_reason_witness :
    IsEndTransactionTriggeringRetryError
        { sample.hTxn with Timestamp := ⟨10, 0⟩, WriteTooOld := true }
        (sample.request true false) =
      (true, roachpb.TransactionRetryReason.RETRY_WRITE_TOO_OLD) :=
  write_too_old_retries_with_its_reason
    { sample.hTxn with Timestamp := ⟨10, 0⟩, WriteTooOld := true }
    (sample.request true false) rfl (Or.inr (Or.inr rfl))

/-- C8: for a transaction with `WriteTooOld` unset, where pushed means that the
commit timestamp differs from the maximum of the original and the refreshed
timestamp: under SERIALIZABLE isolation the function returns
`(true, RETRY_SERIALIZABLE)` exactly when the transaction is pushed and the
refresh override (original timestamp not observed and `NoRefreshSpans` set)
does not apply; under any other isolation it returns
`(true, RETRY_DELETE_RANGE)` exactly when the transaction is pushed and
`RetryOnPush` is set, whatever `NoRefreshSpans` and the observed flag are; in
every other case it returns no retry and the zero reason. -/
theorem pushed_retry_reasons (txn : roachpb.Transaction)
    (args : roachpb.EndTransactionRequest)
    (hwto : txn.WriteTooOld = false) :
    (txn.Isolation = enginepb.SERIALIZABLE →
      ((IsEndTransactionTriggeringRetryError txn args =
          (true, roachpb.TransactionRetryReason.RETRY_SERIALIZABLE) ↔
        txn.Timestamp ≠ max txn.OrigTimestamp txn.RefreshedTimestamp ∧
          ¬ (txn.OrigTimestampWasObserved = false ∧ args.NoRefreshSpans = true)) ∧
       (¬ (txn.Timestamp ≠ max txn.OrigTimestamp txn.RefreshedTimestamp ∧
          ¬ (txn.OrigTimestampWasObserved = false ∧ args.NoRefreshSpans = true)) →
        IsEndTransactionTriggeringRetryError txn args =
          (false, roachpb.TransactionRetryReason.RETRY_REASON_UNKNOWN)))) ∧
    (txn.Isolation ≠ enginepb.SERIALIZABLE →
      ((IsEndTransactionTriggeringRetryError txn args =
          (true, roachpb.TransactionRetryReason.RETRY_DELETE_RANGE) ↔
        txn.Timestamp ≠ max txn.OrigTimestamp txn.RefreshedTimestamp ∧
          txn.RetryOnPush = true) ∧
       (¬ (txn.Timestamp ≠ max txn.OrigTimestamp txn.RefreshedTimestamp ∧
          txn.RetryOnPush = true) →
        IsEndTransactionTriggeringRetryError txn args =
          (false, roachpb.TransactionRetryReason.RETRY_REASON_UNKNOWN)))) := by
  simp only [IsEndTransactionTriggeringRetryError, hwto, roachpb.Transaction.IsSerializable,
    canForwardSerializableTimestamp, hlc.Timestamp.forward_eq_max]
  constructor
  · intro hiso
    by_cases hp : txn.Timestamp = max txn.OrigTimestamp txn.RefreshedTimestamp <;>
      cases ho : txn.OrigTimestampWasObserved <;> cases hn : args.NoRefreshSpans <;>
      simp [hiso, hp, ho, hn]
  · intro hiso
    by_cases hp : txn.Timestamp = max txn.OrigTimestamp txn.RefreshedTimestamp <;>
      cases hr : txn.RetryOnPush <;>
      simp [hiso, hp, hr]

/-- C8 at two transactions pushed from 5 to 10: the serializable one committed
with `NoRefreshSpans` false retries with SERIALIZABLE; the snapshot one with
`RetryOnPush` set and its original timestamp unobserved, committed with
`NoRefreshSpans` set, retries with DELETE_RANGE. -/
theorem pushed_retry_reasons_witness :
    IsEndTransactionTriggeringRetryError { sample.hTxn with Timestamp := ⟨10, 0⟩ }
        (sample.request true false) =
      (true, roachpb.TransactionRetryReason.RETRY_SERIALIZABLE) ∧
    IsEndTransactionTriggeringRetryError
        { sample.hTxn with
          Isolation := enginepb.SNAPSHOT, Timestamp := ⟨10, 0⟩, RetryOnPush := true }
        { sample.request true false with NoRefreshSpans := true } =
      (true, roachpb.TransactionRetryReason.RETRY_DELETE_RANGE) :=
  ⟨((pushed_retry_reasons { sample.hTxn with Timestamp := ⟨10, 0⟩ }
      (sample.request true false) rfl).1 rfl).1.mpr
      ⟨by
        rw [← hlc.Timestamp.forward_eq_max]
        decide, by decide⟩,
   ((pushed_retry_reasons
      { sample.hTxn with
        Isolation := enginepb.SNAPSHOT, Timestamp := ⟨10, 0⟩, RetryOnPush := true }
      { sample.request true false with NoRefreshSpans := true } rfl).2 (by decide)).1.mpr
      ⟨by
        rw [← hlc.Timestamp.forward_eq_max]
        decide, rfl⟩⟩

/-- C9: for a SERIALIZABLE transaction whose original timestamp was not
observed, committed with `NoRefreshSpans` set,
`IsEndTransactionTriggeringRetryError` returns `false` with the zero reason,
whatever the commit, original and refreshed timestamps and whatever the
`WriteTooOld` flag. -/
theorem refresh_override_cancels_retry (txn : roachpb.Transaction)
    (args : roachpb.EndTransactionRequest)
    (hiso : txn.Isolation = enginepb.SERIALIZABLE)
    (hobs : txn.OrigTimestampWasObserved = false)
    (hnrs : args.NoRefreshSpans = true) :
    IsEndTransactionTriggeringRetryError txn args =
      (false, roachpb.TransactionRetryReason.RETRY_REASON_UNKNOWN) := by
  simp only [IsEndTransactionTriggeringRetryError, roachpb.Transaction.IsSerializable,
    canForwardSerializableTimestamp, hiso, hobs, hnrs]
  cases txn.WriteTooOld <;>
    by_cases hp : txn.Timestamp = txn.OrigTimestamp.Forward txn.RefreshedTimestamp <;>
    simp [hp]

/-- C9 at the transaction with original timestamp 5, refreshed timestamp 10
and commit timestamp 10, and at the transaction pushed to 12 with
write-too-old set: neither retries. -/
theorem refresh_override_cancels_retry_witness :
    IsEndTransactionTriggeringRetryError
        { sample.hTxn with Timestamp := ⟨10, 0⟩, RefreshedTimestamp := ⟨10, 0⟩ }
        { sample.request true false with NoRefreshSpans := true } =
      (false, roachpb.TransactionRetryReason.RETRY_REASON_UNKNOWN) ∧
    IsEndTransactionTriggeringRetryError
        { sample.hTxn with
          Timestamp := ⟨12, 0⟩, RefreshedTimestamp := ⟨10, 0⟩, WriteTooOld := true }
        { sample.request true false with NoRefreshSpans := true } =
      (false, roachpb.TransactionRetryReason.RETRY_REASON_UNKNOWN) :=
  ⟨refresh_override_cancels_retry
      { sample.hTxn with Timestamp := ⟨10, 0⟩, RefreshedTimestamp := ⟨10, 0⟩ }
      { sample.request true false with NoRefreshSpans := true } rfl rfl rfl,
   refresh_override_cancels_retry
      { sample.hTxn with
        Timestamp := ⟨12, 0⟩, RefreshedTimestamp := ⟨10, 0⟩, WriteTooOld := true }
      { sample.request true false with NoRefreshSpans := true } rfl rfl rfl⟩

/-- C10: `IsEndTransactionExceedingDeadline t args` is true exactly when the
request carries a deadline and that deadline is strictly less than `t`; it
is false for a request without a deadline and for a deadline equal to or
greater than `t`. -/
theorem deadline_exceeded_iff_present_and_less (t : hlc.Timestamp)
    (args : roachpb.EndTransactionRequest) :
    (IsEndTransactionExceedingDeadline t args = true ↔
      ∃ deadline, args.Deadline = some deadline ∧ deadline < t) ∧
    (args.Deadline = none → IsEndTransactionExceedingDeadline t args = false) ∧
    (∀ deadline, args.Deadline = some deadline → t ≤ deadline →
      IsEndTransactionExceedingDeadline t args = false) := by
  unfold IsEndTransactionExceedingDeadline
  cases hd : args.Deadline with
  | none => simp
  | some d =>
    refine ⟨?_, ?_, ?_⟩
    · simp [hlc.Timestamp.less_iff_lt]
    · intro h
      cases h
    · intro d' hd' hle
      cases hd'
      have hnlt : ¬ d < t := not_lt.mpr hle
      cases h : d.Less t
      · exact h
      · exact absurd ((hlc.Timestamp.less_iff_lt d t).mp h) hnlt

/-- C10 at commit timestamp 10: the deadline 9 is exceeded, the deadline 10 is
not, and neither is a request without a deadline. -/
theorem deadline_exceeded_iff_present_and_less_witness :
    IsEndTransactionExceedingDeadline ⟨10, 0⟩
        { sample.request true false with Deadline := some ⟨9, 0⟩ } = true ∧
    IsEndTransactionExceedingDeadline ⟨10, 0⟩
        { sample.request true false with Deadline := some ⟨10, 0⟩ } = false ∧
    IsEndTransactionExceedingDeadline ⟨10, 0⟩ (sample.request true false) = false :=
  ⟨(deadline_exceeded_iff_present_and_less ⟨10, 0⟩
      { sample.request true false with Deadline := some ⟨9, 0⟩ }).1.mpr
      ⟨⟨9, 0⟩, rfl, (hlc.Timestamp.less_iff_lt _ _).mp rfl⟩,
   (deadline_exceeded_iff_present_and_less ⟨10, 0⟩
      { sample.request true false with Deadline := some ⟨10, 0⟩ }).2.2 ⟨10, 0⟩ rfl
      (le_refl _),
   (deadline_exceeded_iff_present_and_less ⟨10, 0⟩ (sample.request true false)).2.1 rfl⟩

/-! ### Shared lemmas on the evaluation paths -/

/-- A PENDING record that passes the regression checks sends the evaluation to
the code after the status switch. -/
theorem evalEndTransaction_of_passesValidation {β : Type} (env : Env β) (st : State β)
    (cArgs : CommandArgs) (reply : roachpb.EndTransactionResponse)
    (hTxn existingTxn : roachpb.Transaction)
    (h : PassesValidation env st cArgs hTxn existingTxn) :
    evalEndTransaction env st cArgs reply =
      evalEndTransaction.updateAndFinish env st cArgs hTxn existingTxn := by
  obtain ⟨⟨hverify, h1pc, htxn, hget⟩, hstatus, hepoch, hts⟩ := h
  have hne1 : (roachpb.PENDING == roachpb.COMMITTED) = false := by decide
  have hne2 : (roachpb.PENDING == roachpb.ABORTED) = false := by decide
  have hcond : (hTxn.Epoch == existingTxn.Epoch &&
      existingTxn.Timestamp.Less hTxn.OrigTimestamp) = false := by
    cases hless : existingTxn.Timestamp.Less hTxn.OrigTimestamp
    · simp
    · have hlt := (hlc.Timestamp.less_iff_lt _ _).mp hless
      have hneq : ¬ hTxn.Epoch = existingTxn.Epoch := fun h => hts ⟨h, hlt⟩
      simp [hneq]
  simp [evalEndTransaction, hverify, h1pc, htxn, hget, hstatus, hepoch, hne1, hne2, hcond]

/-- The record writer changes at most the `Intents` of the transaction. -/
theorem updateTxnWithExternalIntents_status {β : Type} (env : Env β) (st : State β)
    (args : roachpb.EndTransactionRequest) (txn : roachpb.Transaction)
    (externalIntents : List roachpb.Span) :
    (updateTxnWithExternalIntents env st args txn externalIntents).txn.Status = txn.Status := by
  unfold updateTxnWithExternalIntents
  split <;> rfl

/-- A successful return of the assembly step carries the merge of `pd` with
the end-transaction result built with `alwaysReturn = false`. -/
theorem assemble_ok {β : Type} (env : Env β) (st : State β)
    (args : roachpb.EndTransactionRequest) (txn : roachpb.Transaction) (pd : result.Result)
    (out : EvalOut β)
    (h : evalEndTransaction.assemble env st args txn pd = .ok out) (herr : out.err = none) :
    env.MergeAndDestroy pd
      { env.FromEndTxn txn false args.Poison with
        Local := { (env.FromEndTxn txn false args.Poison).Local with
          UpdatedTxns := some [txn] } } = .ok out.res := by
  unfold evalEndTransaction.assemble at h
  simp only at h
  split at h
  · cases h
    simp at herr
  · rename_i pd' hm
    cases h
    exact hm

/-- A successful return of the code from intent resolution on carries a result
assembled with `alwaysReturn = false` for a transaction of the status it was
given. -/
theorem resolveAndFinish_ok {β : Type} (env : Env β) (st : State β)
    (cArgs : CommandArgs) (txn : roachpb.Transaction) (pd : result.Result)
    (out : EvalOut β)
    (h : evalEndTransaction.resolveAndFinish env st cArgs txn pd = .ok out)
    (herr : out.err = none) :
    ∃ txn' pd', txn'.Status = txn.Status ∧
      env.MergeAndDestroy pd'
        { env.FromEndTxn txn' false cArgs.Args.Poison with
          Local := { (env.FromEndTxn txn' false cArgs.Args.Poison).Local with
            UpdatedTxns := some [txn'] } } = .ok out.res := by
  unfold evalEndTransaction.resolveAndFinish at h
  simp only at h
  split at h
  · cases h
  · cases h
    simp at herr
  · rename_i st1 ext hres
    split at h
    · cases h
      simp at herr
    · split at h
      · split at h
        · cases h
        · cases h
          simp at herr
        · split at h
          · cases h
            simp at herr
          · exact ⟨_, _, updateTxnWithExternalIntents_status env st1 cArgs.Args txn ext,
              assemble_ok env _ _ _ _ out h herr⟩
      · exact ⟨_, _, updateTxnWithExternalIntents_status env st1 cArgs.Args txn ext,
          assemble_ok env _ _ _ _ out h herr⟩

/-- A successful return of the code after the status switch carries a result
assembled with `alwaysReturn = false`, for a commit and for a rollback. -/
theorem updateAndFinish_ok {β : Type} (env : Env β) (st : State β)
    (cArgs : CommandArgs) (hTxn existingTxn : roachpb.Transaction)
    (out : EvalOut β)
    (h : evalEndTransaction.updateAndFinish env st cArgs hTxn existingTxn = .ok out)
    (herr : out.err = none) :
    ∃ txn pd,
      txn.Status = (if cArgs.Args.Commit then roachpb.COMMITTED else roachpb.ABORTED) ∧
      env.MergeAndDestroy pd
        { env.FromEndTxn txn false cArgs.Args.Poison with
          Local := { (env.FromEndTxn txn false cArgs.Args.Poison).Local with
            UpdatedTxns := some [txn] } } = .ok out.res := by
  unfold evalEndTransaction.updateAndFinish at h
  simp only at h
  split at h
  · rename_i hcommit
    split at h
    · cases h
      simp at herr
    · split at h
      · cases h
        simp at herr
      · split at h
        · split at h
          · cases h
            simp at herr
          · split at h
            · cases h
              simp at herr
            · obtain ⟨txn, pd, hs, hm⟩ := resolveAndFinish_ok env _ cArgs _ _ out h herr
              exact ⟨txn, pd, by simpa [hcommit] using hs, hm⟩
        · obtain ⟨txn, pd, hs, hm⟩ := resolveAndFinish_ok env _ cArgs _ _ out h herr
          exact ⟨txn, pd, by simpa [hcommit] using hs, hm⟩
  · rename_i hcommit
    obtain ⟨txn, pd, hs, hm⟩ := resolveAndFinish_ok env _ cArgs _ _ out h herr
    exact ⟨txn, pd, by simpa [hcommit] using hs, hm⟩

/-! ### Claims C11 to C20 -/

/-- C11: for a commit request on a PENDING record that passed the regression
checks, with the retry decider and the deadline test applied to the record
updated with the request's transaction: if the decider returns retry,
`evalEndTransaction` returns `TransactionRetryError` with the decider's
reason; if it does not and the deadline is exceeded, it returns the
`TransactionStatusError` for the deadline. In both cases the result is empty
and the state returned is the state given, so no intent was resolved, the
record was neither written nor deleted, no abort-span entry was written and
no trigger ran; the read at the transaction key still finds the PENDING
record. -/
theorem retry_or_deadline_fails_before_any_write {β : Type} (env : Env β) (st : State β)
    (cArgs : CommandArgs) (reply : roachpb.EndTransactionResponse)
    (hTxn existingTxn : roachpb.Transaction)
    (hvalid : PassesValidation env st cArgs hTxn existingTxn)
    (hcommit : cArgs.Args.Commit = true) :
    ((IsEndTransactionTriggeringRetryError (env.Update existingTxn hTxn) cArgs.Args).1 = true →
      evalEndTransaction env st cArgs reply =
        .ok { st := st, reply := ⟨some (env.Update existingTxn hTxn)⟩,
              res := result.Result.empty,
              err := some (roachpb.Error.TransactionRetryError
                (IsEndTransactionTriggeringRetryError (env.Update existingTxn hTxn)
                  cArgs.Args).2) }) ∧
    ((IsEndTransactionTriggeringRetryError (env.Update existingTxn hTxn) cArgs.Args).1 = false →
      IsEndTransactionExceedingDeadline (env.Update existingTxn hTxn).Timestamp cArgs.Args = true →
      evalEndTransaction env st cArgs reply =
        .ok { st := st, reply := ⟨some (env.Update existingTxn hTxn)⟩,
              res := result.Result.empty,
              err := some (roachpb.Error.TransactionStatusError
                roachpb.StatusMessage.deadlineExceeded) }) ∧
    (((IsEndTransactionTriggeringRetryError (env.Update existingTxn hTxn) cArgs.Args).1 = true ∨
      IsEndTransactionExceedingDeadline (env.Update existingTxn hTxn).Timestamp cArgs.Args = true) →
      ∃ out, evalEndTransaction env st cArgs reply = .ok out ∧ out.st = st ∧
        out.err ≠ none ∧ out.res = result.Result.empty ∧
        env.MVCCGetProto out.st.batch (env.TransactionKey hTxn.Key hTxn.ID)
          = .ok (some existingTxn) ∧ existingTxn.Status = roachpb.PENDING) := by
  rw [evalEndTransaction_of_passesValidation env st cArgs reply hTxn existingTxn hvalid]
  have hget := hvalid.1.2.2.2
  have hstatus := hvalid.2.1
  refine ⟨?_, ?_, ?_⟩
  · intro hretry
    simp [evalEndTransaction.updateAndFinish, hcommit, hretry]
  · intro hretry hdead
    simp [evalEndTransaction.updateAndFinish, hcommit, hretry, hdead]
  · intro hor
    cases hretry : (IsEndTransactionTriggeringRetryError (env.Update existingTxn hTxn)
        cArgs.Args).1
    · have hdead : IsEndTransactionExceedingDeadline (env.Update existingTxn hTxn).Timestamp
          cArgs.Args = true := by
        rcases hor with h | h
        · rw [hretry] at h
          cases h
        · exact h
      exact ⟨_, by simp [evalEndTransaction.updateAndFinish, hcommit, hretry, hdead]; rfl,
        rfl, by simp, rfl, hget, hstatus⟩
    · exact ⟨_, by simp [evalEndTransaction.updateAndFinish, hcommit, hretry]; rfl,
        rfl, by simp, rfl, hget, hstatus⟩

/-- C11 at the sample commit: over the PENDING record pushed to timestamp 10
the evaluation returns the retry error with reason SERIALIZABLE; over the
unpushed record, committed with the deadline 4 below the commit timestamp 5,
it returns the deadline error. Both leave the batch without a write. -/
theorem retry_or_deadline_fails_before_any_write_witness :
    evalEndTransaction (sim.env true)
        (sample.state (sample.batch
          [(sample.txnKey, sample.record roachpb.PENDING 1 ⟨10, 0⟩)]))
        (sample.cArgs true false) ⟨none⟩ =
      .ok { st := sample.state (sample.batch
              [(sample.txnKey, sample.record roachpb.PENDING 1 ⟨10, 0⟩)])
            reply := ⟨some { sample.hTxn with Timestamp := ⟨10, 0⟩ }⟩
            res := result.Result.empty
            err := some (roachpb.Error.TransactionRetryError
              roachpb.TransactionRetryReason.RETRY_SERIALIZABLE) } ∧
    evalEndTransaction (sim.env true)
        (sample.state (sample.batch
          [(sample.txnKey, sample.record roachpb.PENDING 1 ⟨5, 0⟩)]))
        sample.cArgsDeadline ⟨none⟩ =
      .ok { st := sample.state (sample.batch
              [(sample.txnKey, sample.record roachpb.PENDING 1 ⟨5, 0⟩)])
            reply := ⟨some sample.hTxn⟩
            res := result.Result.empty
            err := some (roachpb.Error.TransactionStatusError
              roachpb.StatusMessage.deadlineExceeded) } :=
  ⟨(retry_or_deadline_fails_before_any_write (sim.env true)
      (sample.state (sample.batch [(sample.txnKey, sample.record roachpb.PENDING 1 ⟨10, 0⟩)]))
      (sample.cArgs true false) ⟨none⟩ sample.hTxn (sample.record roachpb.PENDING 1 ⟨10, 0⟩)
      ⟨⟨rfl, rfl, rfl, rfl⟩, rfl, by decide,
        fun h => absurd ((hlc.Timestamp.less_iff_lt _ _).mpr h.2) (by decide)⟩ rfl).1 rfl,
   (retry_or_deadline_fails_before_any_write (sim.env true)
      (sample.state (sample.batch [(sample.txnKey, sample.record roachpb.PENDING 1 ⟨5, 0⟩)]))
      sample.cArgsDeadline ⟨none⟩ sample.hTxn (sample.record roachpb.PENDING 1 ⟨5, 0⟩)
      ⟨⟨rfl, rfl, rfl, rfl⟩, rfl, by decide,
        fun h => absurd ((hlc.Timestamp.less_iff_lt _ _).mpr h.2) (by decide)⟩ rfl).2.1
      rfl rfl⟩

/-- C12 fails as stated: the rollback of the PENDING sample record succeeds,
and the end-transaction entry of its result has `Always = false`, not
true. -/
theorem rollback_of_pending_record_is_not_always_return :
    evalEndTransaction (sim.env true)
        (sample.state (sample.batch
          [(sample.txnKey, sample.record roachpb.PENDING 1 ⟨5, 0⟩)]))
        (sample.cArgs false false) ⟨none⟩ = .ok sample.pendingRollbackOut ∧
    sample.pendingRollbackOut.err = none ∧
    sample.pendingRollbackOut.res.Local.EndTxns.map (fun l => l.map (fun e => e.Always))
      = some [false] :=
  ⟨rfl, rfl, rfl⟩

/-- An error return of the assembly step carries the empty result. -/
theorem assemble_err {β : Type} (env : Env β) (st : State β)
    (args : roachpb.EndTransactionRequest) (txn : roachpb.Transaction) (pd : result.Result)
    (out : EvalOut β)
    (h : evalEndTransaction.assemble env st args txn pd = .ok out) (herr : out.err ≠ none) :
    out.res = result.Result.empty := by
  unfold evalEndTransaction.assemble at h
  simp only at h
  split at h
  · cases h
    rfl
  · cases h
    simp at herr

/-- An error return of the code from intent resolution on carries the empty
result. -/
theorem resolveAndFinish_err {β : Type} (env : Env β) (st : State β)
    (cArgs : CommandArgs) (txn : roachpb.Transaction) (pd : result.Result)
    (out : EvalOut β)
    (h : evalEndTransaction.resolveAndFinish env st cArgs txn pd = .ok out)
    (herr : out.err ≠ none) :
    out.res = result.Result.empty := by
  unfold evalEndTransaction.resolveAndFinish at h
  simp only at h
  split at h
  · cases h
  · cases h
    rfl
  · split at h
    · cases h
      rfl
    · split at h
      · split at h
        · cases h
        · cases h
          rfl
        · split at h
          · cases h
            rfl
          · exact assemble_err env _ _ _ _ out h herr
      · exact assemble_err env _ _ _ _ out h herr

/-- An error return of the code after the status switch carries the empty
result. -/
theorem updateAndFinish_err {β : Type} (env : Env β) (st : State β)
    (cArgs : CommandArgs) (hTxn existingTxn : roachpb.Transaction)
    (out : EvalOut β)
    (h : evalEndTransaction.updateAndFinish env st cArgs hTxn existingTxn = .ok out)
    (herr : out.err ≠ none) :
    out.res = result.Result.empty := by
  unfold evalEndTransaction.updateAndFinish at h
  simp only at h
  split at h
  · split at h
    · cases h
      rfl
    · split at h
      · cases h
        rfl
      · split at h
        · split at h
          · cases h
            rfl
          · split at h
            · cases h
              rfl
            · exact resolveAndFinish_err env _ cArgs _ _ out h herr
        · exact resolveAndFinish_err env _ cArgs _ _ out h herr
  · exact resolveAndFinish_err env _ cArgs _ _ out h herr

/-- C13, as the code has it: when `evalEndTransaction` returns an error, the
result returned with it is the empty result, except for a commit request
that finds an ABORTED record: there the error is
`TransactionAbortedError(ABORT_REASON_ABORTED_RECORD_FOUND)` and the result is
the one `FromEndTxn` builds from the record with the request's intent spans
and `alwaysReturn = true` (source lines 229-231). -/
theorem error_result_is_empty_except_commit_on_aborted {β : Type} (env : Env β)
    (st : State β) (cArgs : CommandArgs) (reply : roachpb.EndTransactionResponse)
    (out : EvalOut β)
    (heval : evalEndTransaction env st cArgs reply = .ok out)
    (herr : out.err ≠ none) :
    out.res = result.Result.empty ∨
    (cArgs.Args.Commit = true ∧
      ∃ hTxn existingTxn, FindsRecord env st cArgs hTxn existingTxn ∧
        existingTxn.Status = roachpb.ABORTED ∧
        out.err = some (roachpb.Error.TransactionAbortedError
          roachpb.TransactionAbortedReason.ABORT_REASON_ABORTED_RECORD_FOUND) ∧
        out.res = env.FromEndTxn { existingTxn with Intents := cArgs.Args.IntentSpans }
          true cArgs.Args.Poison) := by
  unfold evalEndTransaction at heval
  simp only at heval
  split at heval
  · cases heval
    exact Or.inl rfl
  · rename_i hverify
    split at heval
    · cases heval
      exact Or.inl rfl
    · rename_i h1pc
      split at heval
      · cases heval
      · rename_i hTxn htxn
        split at heval
        · cases heval
          exact Or.inl rfl
        · split at heval
          · cases heval
            exact Or.inl rfl
          · cases heval
            simp at herr
        · rename_i existingTxn hget
          split at heval
          · cases heval
            exact Or.inl rfl
          · split at heval
            · rename_i hab
              split at heval
              · split at heval
                · cases heval
                · cases heval
                  exact Or.inl rfl
                · split at heval
                  · cases heval
                    exact Or.inl rfl
                  · cases heval
                    simp at herr
              · rename_i hc
                cases heval
                refine Or.inr ⟨by simpa using hc, hTxn, existingTxn,
                  ⟨hverify, by simpa using h1pc, htxn, hget⟩, by simpa using hab, rfl, rfl⟩
            · split at heval
              · split at heval
                · cases heval
                  exact Or.inl rfl
                · split at heval
                  · cases heval
                    exact Or.inl rfl
                  · exact Or.inl (updateAndFinish_err env _ cArgs _ _ out heval herr)
              · cases heval
                exact Or.inl rfl

/-- C13 at the sample commit over the ABORTED record: the error comes with
the result built from the record, the second case of the theorem. -/
theorem error_result_is_empty_except_commit_on_aborted_witness :
    sample.abortedCommitOut.res = result.Result.empty ∨
    ((sample.cArgs true false).Args.Commit = true ∧
      ∃ hTxn existingTxn,
        FindsRecord (sim.env true)
          (sample.state (sample.batch [(sample.txnKey, sample.abortedRecord)]))
          (sample.cArgs true false) hTxn existingTxn ∧
        existingTxn.Status = roachpb.ABORTED ∧
        sample.abortedCommitOut.err = some (roachpb.Error.TransactionAbortedError
          roachpb.TransactionAbortedReason.ABORT_REASON_ABORTED_RECORD_FOUND) ∧
        sample.abortedCommitOut.res =
          (sim.env true).FromEndTxn
            { existingTxn with Intents := (sample.cArgs true false).Args.IntentSpans }
            true (sample.cArgs true false).Args.Poison) :=
  error_result_is_empty_except_commit_on_aborted (sim.env true)
    (sample.state (sample.batch [(sample.txnKey, sample.abortedRecord)]))
    (sample.cArgs true false) ⟨none⟩ sample.abortedCommitOut rfl (by decide)

/-- C13 fails as stated: the sample commit over the ABORTED record returns an
error together with a result that is not the empty result. -/
theorem commit_on_aborted_record_returns_error_with_result :
    evalEndTransaction (sim.env true)
        (sample.state (sample.batch [(sample.txnKey, sample.abortedRecord)]))
        (sample.cArgs true false) ⟨none⟩ = .ok sample.abortedCommitOut ∧
    sample.abortedCommitOut.err ≠ none ∧
    sample.abortedCommitOut.res ≠ result.Result.empty :=
  ⟨rfl, by decide, by decide⟩

/-- The two ways a trigger failure leaves a commit that passed the retry and
deadline checks, so that the status was moved to COMMITTED: a failure of the
merge trigger (which runs before intent resolution, source lines 299-304) is
returned as the trigger's own error, not wrapped; for a request without
merge trigger, a failure of the split trigger (which runs through
`RunCommitTrigger` after the record was written, source lines 323-328) is
returned as `ReplicaCorruptionError` wrapping the trigger's error. Both come
with the empty result. -/
theorem trigger_failure_is_corruption_for_split_not_merge {β : Type} (env : Env β)
    (st : State β) (cArgs : CommandArgs) (reply : roachpb.EndTransactionResponse)
    (hTxn existingTxn : roachpb.Transaction)
    (hvalid : PassesValidation env st cArgs hTxn existingTxn)
    (hcommit : cArgs.Args.Commit = true)
    (hretry : (IsEndTransactionTriggeringRetryError (env.Update existingTxn hTxn)
      cArgs.Args).1 = false)
    (hdeadline : IsEndTransactionExceedingDeadline (env.Update existingTxn hTxn).Timestamp
      cArgs.Args = false) :
    (∀ (mt : roachpb.MergeTrigger) (st' : State β) (r : result.Result) (err : roachpb.Error),
      roachpb.InternalCommitTrigger.GetMergeTrigger cArgs.Args.InternalCommitTrigger = some mt →
      mergeTrigger env cArgs.EvalCtx st mt
        (evalEndTransaction.committedTxn env hTxn existingTxn).Timestamp = (st', r, some err) →
      evalEndTransaction env st cArgs reply =
        .ok { st := st'
              reply := ⟨some (evalEndTransaction.committedTxn env hTxn existingTxn)⟩
              res := result.Result.empty
              err := some err }) ∧
    (roachpb.InternalCommitTrigger.GetMergeTrigger cArgs.Args.InternalCommitTrigger = none →
      ∀ (split : roachpb.SplitTrigger) (st1 : State β) (externalIntents : List roachpb.Span)
        (r : SplitResult β) (err : roachpb.Error),
      roachpb.InternalCommitTrigger.GetSplitTrigger cArgs.Args.InternalCommitTrigger
        = some split →
      resolveLocalIntents env cArgs.EvalCtx.Desc st cArgs.Args
        (evalEndTransaction.committedTxn env hTxn existingTxn) cArgs.EvalCtx
        = .ok (st1, externalIntents, none) →
      (updateTxnWithExternalIntents env st1 cArgs.Args
        (evalEndTransaction.committedTxn env hTxn existingTxn) externalIntents).err = none →
      splitTrigger env cArgs.EvalCtx
        (updateTxnWithExternalIntents env st1 cArgs.Args
          (evalEndTransaction.committedTxn env hTxn existingTxn) externalIntents).st.batch
        (updateTxnWithExternalIntents env st1 cArgs.Args
          (evalEndTransaction.committedTxn env hTxn existingTxn) externalIntents).st.ms
        split
        (updateTxnWithExternalIntents env st1 cArgs.Args
          (evalEndTransaction.committedTxn env hTxn existingTxn) externalIntents).txn.Timestamp
        = .ok r →
      r.err = some err →
      evalEndTransaction env st cArgs reply =
        .ok { st :=
                { (updateTxnWithExternalIntents env st1 cArgs.Args
                    (evalEndTransaction.committedTxn env hTxn existingTxn)
                    externalIntents).st with batch := r.batch, ms := r.ms }
              reply := ⟨some (updateTxnWithExternalIntents env st1 cArgs.Args
                (evalEndTransaction.committedTxn env hTxn existingTxn) externalIntents).txn⟩
              res := result.Result.empty
              err := some (roachpb.Error.ReplicaCorruptionError err) }) := by
  rw [evalEndTransaction_of_passesValidation env st cArgs reply hTxn existingTxn hvalid]
  constructor
  · intro mt st' r err hmt hmerge
    unfold evalEndTransaction.committedTxn at hmerge
    simp [evalEndTransaction.updateAndFinish, hcommit, hretry, hdeadline, hmt, hmerge,
      evalEndTransaction.committedTxn]
  · intro hnomerge split st1 ext r err hsplit hres hupd hst herr
    have hstatus : (updateTxnWithExternalIntents env st1 cArgs.Args
        (evalEndTransaction.committedTxn env hTxn existingTxn) ext).txn.Status
        = roachpb.COMMITTED :=
      updateTxnWithExternalIntents_status env st1 cArgs.Args _ ext
    have hrun : RunCommitTrigger env cArgs.EvalCtx
        (updateTxnWithExternalIntents env st1 cArgs.Args
          (evalEndTransaction.committedTxn env hTxn existingTxn) ext).st cArgs.Args
        (updateTxnWithExternalIntents env st1 cArgs.Args
          (evalEndTransaction.committedTxn env hTxn existingTxn) ext).txn
        = .ok ({ (updateTxnWithExternalIntents env st1 cArgs.Args
            (evalEndTransaction.committedTxn env hTxn existingTxn) ext).st with
            batch := r.batch, ms := r.ms }, r.res, some err) := by
      unfold RunCommitTrigger
      cases hict : cArgs.Args.InternalCommitTrigger with
      | none => simp [hict, roachpb.InternalCommitTrigger.GetSplitTrigger] at hsplit
      | some ct =>
        rw [hict] at hsplit
        simp only [hsplit, hst, herr]
    unfold evalEndTransaction.committedTxn at hres hupd hrun hstatus
    simp [evalEndTransaction.updateAndFinish, hcommit, hretry, hdeadline, hnomerge,
      evalEndTransaction.resolveAndFinish, hres, hupd, hstatus, hrun,
      evalEndTransaction.committedTxn]

/-- The sample commit with a split trigger that does not match the range: the
split fails after the record was written as COMMITTED and the evaluation
returns the replica corruption error wrapping the split's error. -/
theorem trigger_failure_is_corruption_for_split_not_merge_witness :
    evalEndTransaction (sim.env true)
        (sample.state (sample.batch
          [(sample.txnKey, sample.record roachpb.PENDING 1 ⟨5, 0⟩)]))
        (sample.cArgsTrigger sample.badSplitCommitTrigger) ⟨none⟩ =
      .ok { st := { sample.commitWrittenState with ms := enginepb.MVCCStats.zero }
            reply := ⟨some sample.committedTxn⟩
            res := result.Result.empty
            err := some (roachpb.Error.ReplicaCorruptionError
              (roachpb.Error.Errorf "range does not match splits")) } :=
  (trigger_failure_is_corruption_for_split_not_merge (sim.env true)
    (sample.state (sample.batch [(sample.txnKey, sample.record roachpb.PENDING 1 ⟨5, 0⟩)]))
    (sample.cArgsTrigger sample.badSplitCommitTrigger) ⟨none⟩ sample.hTxn
    (sample.record roachpb.PENDING 1 ⟨5, 0⟩)
    ⟨⟨rfl, rfl, rfl, rfl⟩, rfl, by decide,
      fun h => absurd ((hlc.Timestamp.less_iff_lt _ _).mpr h.2) (by decide)⟩
    rfl rfl rfl).2 rfl
    { LeftDesc := { sample.desc with EndKey := [15] }
      RightDesc := { sample.desc with RangeID := 2, StartKey := [15], EndKey := [25] } }
    sample.commitResolvedState sample.externalIntents
    (SplitResult.fail sample.commitWrittenState.batch
      (roachpb.Error.Errorf "range does not match splits"))
    (roachpb.Error.Errorf "range does not match splits") rfl rfl rfl rfl rfl

/-- C14 at the sample commit with a merge trigger whose left descriptor does
not start where the range starts: the merge trigger fails after the status
was moved to COMMITTED and the evaluation returns the trigger's error as it
is (source lines 299-304), which is no `ReplicaCorruptionError`. The sibling
path does what the claim says: the same commit with a split trigger that
does not match the range returns the split's error wrapped in
`ReplicaCorruptionError` (source lines 323-328). -/
theorem merge_trigger_failure_is_returned_unwrapped :
    mergeTrigger (sim.env true) sample.evalCtx
        (sample.state (sample.batch
          [(sample.txnKey, sample.record roachpb.PENDING 1 ⟨5, 0⟩)]))
        { LeftDesc := { sample.desc with StartKey := [9], EndKey := [30] }
          RightDesc := { sample.desc with RangeID := 2, StartKey := [20], EndKey := [30] }
          RightMVCCStats := enginepb.MVCCStats.zero } ⟨5, 0⟩ =
      (sample.state (sample.batch
          [(sample.txnKey, sample.record roachpb.PENDING 1 ⟨5, 0⟩)]),
        result.Result.empty,
        some (roachpb.Error.Errorf "LHS range start keys do not match")) ∧
    evalEndTransaction (sim.env true)
        (sample.state (sample.batch
          [(sample.txnKey, sample.record roachpb.PENDING 1 ⟨5, 0⟩)]))
        (sample.cArgsTrigger sample.badMergeCommitTrigger) ⟨none⟩ =
      .ok { st := sample.state (sample.batch
              [(sample.txnKey, sample.record roachpb.PENDING 1 ⟨5, 0⟩)])
            reply := ⟨some { sample.hTxn with Status := roachpb.COMMITTED }⟩
            res := result.Result.empty
            err := some (roachpb.Error.Errorf "LHS range start keys do not match") } ∧
    (∀ cause : roachpb.Error,
      roachpb.Error.Errorf "LHS range start keys do not match" ≠
        roachpb.Error.ReplicaCorruptionError cause) ∧
    (evalEndTransaction (sim.env true)
        (sample.state (sample.batch
          [(sample.txnKey, sample.record roachpb.PENDING 1 ⟨5, 0⟩)]))
        (sample.cArgsTrigger sample.badSplitCommitTrigger) ⟨none⟩).map
        (fun out => out.err) =
      .ok (some (roachpb.Error.ReplicaCorruptionError
        (roachpb.Error.Errorf "range does not match splits"))) :=
  ⟨rfl, rfl, (fun _ h => by cases h), rfl⟩

/-- A found COMMITTED record ends the evaluation with the committed-status
error and no write. -/
theorem evalEndTransaction_found_committed {β : Type} (env : Env β) (st : State β)
    (cArgs : CommandArgs) (reply : roachpb.EndTransactionResponse)
    (hTxn existingTxn : roachpb.Transaction)
    (hfinds : FindsRecord env st cArgs hTxn existingTxn)
    (hstatus : existingTxn.Status = roachpb.COMMITTED) :
    evalEndTransaction env st cArgs reply =
      .ok { st := st, reply := ⟨some existingTxn⟩, res := result.Result.empty,
            err := some roachpb.Error.TransactionCommittedStatusError } := by
  obtain ⟨hverify, h1pc, htxn, hget⟩ := hfinds
  simp [evalEndTransaction, hverify, h1pc, htxn, hget, hstatus]

/-- Without a record at the transaction key a commit fails with not-found and a
rollback succeeds without a write. -/
theorem evalEndTransaction_no_record {β : Type} (env : Env β) (st : State β)
    (cArgs : CommandArgs) (reply : roachpb.EndTransactionResponse)
    (hTxn : roachpb.Transaction)
    (hverify : env.VerifyTransaction cArgs.Header cArgs.Args = none)
    (h1pc : cArgs.Args.Require1PC = false)
    (htxn : cArgs.Header.Txn = some hTxn)
    (hget : env.MVCCGetProto st.batch (env.TransactionKey hTxn.Key hTxn.ID) = .ok none) :
    evalEndTransaction env st cArgs reply =
      if cArgs.Args.Commit then
        .ok { st := st, reply := reply, res := result.Result.empty,
              err := some roachpb.Error.TransactionNotFoundStatusError }
      else
        .ok { st := st, reply := ⟨some hTxn.Clone⟩, res := result.Result.empty,
              err := none } := by
  simp [evalEndTransaction, hverify, h1pc, htxn, hget]

/-- A successful return of the code from intent resolution on, for a COMMITTED
transaction: resolution returned external intents without error, the record
writer returned no error, and the commit trigger ran on the state the writer
left and produced the final state. -/
theorem resolveAndFinish_committed_ok {β : Type} (env : Env β) (st : State β)
    (cArgs : CommandArgs) (txn : roachpb.Transaction) (pd : result.Result)
    (out : EvalOut β)
    (hstatus : txn.Status = roachpb.COMMITTED)
    (h : evalEndTransaction.resolveAndFinish env st cArgs txn pd = .ok out)
    (herr : out.err = none) :
    ∃ st1 ext r,
      resolveLocalIntents env cArgs.EvalCtx.Desc st cArgs.Args txn cArgs.EvalCtx
        = .ok (st1, ext, none) ∧
      (updateTxnWithExternalIntents env st1 cArgs.Args txn ext).err = none ∧
      RunCommitTrigger env cArgs.EvalCtx
        (updateTxnWithExternalIntents env st1 cArgs.Args txn ext).st cArgs.Args
        (updateTxnWithExternalIntents env st1 cArgs.Args txn ext).txn
        = .ok (out.st, r, none) := by
  unfold evalEndTransaction.resolveAndFinish at h
  simp only at h
  split at h
  · cases h
  · cases h
    simp at herr
  · rename_i st1 ext hres
    have hs := updateTxnWithExternalIntents_status env st1 cArgs.Args txn ext
    split at h
    · cases h
      simp at herr
    · rename_i hupd
      split at h
      · split at h
        · cases h
        · cases h
          simp at herr
        · rename_i st2 r hrun
          split at h
          · cases h
            simp at herr
          · refine ⟨st1, ext, r, hres, hupd, ?_⟩
            have hst : out.st = st2 := by
              unfold evalEndTransaction.assemble at h
              simp only at h
              split at h <;> cases h <;> rfl
            rw [hst]
            exact hrun
      · rename_i hne
        rw [hs, hstatus] at hne
        simp at hne

/-- A successful commit went through intent resolution, the record writer and
the commit trigger in this order; resolution started from the state given
when the request has no merge trigger. -/
theorem updateAndFinish_commit_ok {β : Type} (env : Env β) (st : State β)
    (cArgs : CommandArgs) (hTxn existingTxn : roachpb.Transaction)
    (out : EvalOut β)
    (hcommit : cArgs.Args.Commit = true)
    (h : evalEndTransaction.updateAndFinish env st cArgs hTxn existingTxn = .ok out)
    (herr : out.err = none) :
    ∃ st0 st1 ext r,
      (roachpb.InternalCommitTrigger.GetMergeTrigger cArgs.Args.InternalCommitTrigger = none →
        st0 = st) ∧
      resolveLocalIntents env cArgs.EvalCtx.Desc st0 cArgs.Args
        (evalEndTransaction.committedTxn env hTxn existingTxn) cArgs.EvalCtx
        = .ok (st1, ext, none) ∧
      (updateTxnWithExternalIntents env st1 cArgs.Args
        (evalEndTransaction.committedTxn env hTxn existingTxn) ext).err = none ∧
      RunCommitTrigger env cArgs.EvalCtx
        (updateTxnWithExternalIntents env st1 cArgs.Args
          (evalEndTransaction.committedTxn env hTxn existingTxn) ext).st cArgs.Args
        (updateTxnWithExternalIntents env st1 cArgs.Args
          (evalEndTransaction.committedTxn env hTxn existingTxn) ext).txn
        = .ok (out.st, r, none) := by
  unfold evalEndTransaction.updateAndFinish at h
  simp only [hcommit, if_true] at h
  split at h
  · cases h
    simp at herr
  · split at h
    · cases h
      simp at herr
    · split at h
      · rename_i mt hmt
        split at h
        · cases h
          simp at herr
        · split at h
          · cases h
            simp at herr
          · obtain ⟨st1, ext, r, h1, h2, h3⟩ :=
              resolveAndFinish_committed_ok env _ cArgs _ _ out rfl h herr
            have hst0 : ∀ s : State β, roachpb.InternalCommitTrigger.GetMergeTrigger
                cArgs.Args.InternalCommitTrigger = none → s = st := by
              intro s hno
              rw [hno] at hmt
              cases hmt
            exact ⟨_, st1, ext, r, hst0 _, h1, h2, h3⟩
      · obtain ⟨st1, ext, r, h1, h2, h3⟩ :=
          resolveAndFinish_committed_ok env _ cArgs _ _ out rfl h herr
        exact ⟨_, st1, ext, r, fun _ => rfl, h1, h2, h3⟩

/-- C15, as the code has it: let a commit on a PENDING record succeed, let the
store be such that a read after a put finds the record put and a read after
a delete finds nothing, let the commit trigger leave the transaction record
alone, and let a later request for the same transaction be evaluated on a
state that shows at the transaction key what the commit's batch showed.
With `externalIntents` the intents the commit's resolution returned: if
auto-GC is off or some intent remained external, the record was written as
COMMITTED and the later evaluation, commit or rollback, returns
`TransactionCommittedStatusError`; if auto-GC is on and no intent remained
external, the record was deleted and the later evaluation behaves as for a
missing record, a commit failing with not-found and a rollback succeeding
without a write. -/
theorem finalize_after_commit_sees_written_record {β : Type} (env : Env β)
    (st st' : State β) (cArgs cArgs' : CommandArgs)
    (reply reply' : roachpb.EndTransactionResponse)
    (hTxn existingTxn hTxn' : roachpb.Transaction) (out : EvalOut β)
    (hvalid : PassesValidation env st cArgs hTxn existingTxn)
    (hcommit : cArgs.Args.Commit = true)
    (heval : evalEndTransaction env st cArgs reply = .ok out)
    (herr : out.err = none)
    (hput : ∀ b ms k t,
      (env.MVCCPutProto b ms k (engine.ProtoMessage.transaction t)).err = none →
      env.MVCCGetProto (env.MVCCPutProto b ms k (engine.ProtoMessage.transaction t)).batch k
        = .ok (some t))
    (hdelete : ∀ b ms k, (env.MVCCDelete b ms k).err = none →
      env.MVCCGetProto (env.MVCCDelete b ms k).batch k = .ok none)
    (htrigger : ∀ sa txn sb r,
      RunCommitTrigger env cArgs.EvalCtx sa cArgs.Args txn = .ok (sb, r, none) →
      env.MVCCGetProto sb.batch (env.TransactionKey hTxn'.Key hTxn'.ID) =
        env.MVCCGetProto sa.batch (env.TransactionKey hTxn'.Key hTxn'.ID))
    (hsame : (evalEndTransaction.committedTxn env hTxn existingTxn).Key = hTxn'.Key ∧
      (evalEndTransaction.committedTxn env hTxn existingTxn).ID = hTxn'.ID)
    (hstore : env.MVCCGetProto st'.batch (env.TransactionKey hTxn'.Key hTxn'.ID) =
      env.MVCCGetProto out.st.batch (env.TransactionKey hTxn'.Key hTxn'.ID))
    (hverify' : env.VerifyTransaction cArgs'.Header cArgs'.Args = none)
    (h1pc' : cArgs'.Args.Require1PC = false)
    (htxn' : cArgs'.Header.Txn = some hTxn') :
    ∃ st0 st1 externalIntents,
      (roachpb.InternalCommitTrigger.GetMergeTrigger cArgs.Args.InternalCommitTrigger = none →
        st0 = st) ∧
      resolveLocalIntents env cArgs.EvalCtx.Desc st0 cArgs.Args
        (evalEndTransaction.committedTxn env hTxn existingTxn) cArgs.EvalCtx
        = .ok (st1, externalIntents, none) ∧
      (¬ (env.TxnAutoGC = true ∧ externalIntents = []) →
        evalEndTransaction env st' cArgs' reply' =
          .ok { st := st'
                reply := ⟨some { evalEndTransaction.committedTxn env hTxn existingTxn with
                  Intents := externalIntents }⟩
                res := result.Result.empty
                err := some roachpb.Error.TransactionCommittedStatusError }) ∧
      (env.TxnAutoGC = true ∧ externalIntents = [] →
        evalEndTransaction env st' cArgs' reply' =
          if cArgs'.Args.Commit then
            .ok { st := st', reply := reply', res := result.Result.empty,
                  err := some roachpb.Error.TransactionNotFoundStatusError }
          else
            .ok { st := st', reply := ⟨some hTxn'.Clone⟩, res := result.Result.empty,
                  err := none }) := by
  rw [evalEndTransaction_of_passesValidation env st cArgs reply hTxn existingTxn hvalid]
    at heval
  obtain ⟨st0, st1, ext, r, hst0, hres, hupd, hrun⟩ :=
    updateAndFinish_commit_ok env st cArgs hTxn existingTxn out hcommit heval herr
  refine ⟨st0, st1, ext, hst0, hres, ?_, ?_⟩
  · intro hno
    have hcond : (env.TxnAutoGC && ext.length == 0) = false := by
      cases hg : env.TxnAutoGC
      · rfl
      · cases ext with
        | nil => exact absurd ⟨hg, rfl⟩ hno
        | cons a l => simp
    have hread := htrigger _ _ _ _ hrun
    unfold updateTxnWithExternalIntents at hupd hread
    simp only [hcond, Bool.false_eq_true, if_false] at hupd hread
    rw [hsame.1, hsame.2] at hupd hread
    rw [hput _ _ _ _ hupd] at hread
    exact evalEndTransaction_found_committed env st' cArgs' reply' hTxn' _
      ⟨hverify', h1pc', htxn', hstore.trans hread⟩ rfl
  · rintro ⟨hg, hext⟩
    have hcond : (env.TxnAutoGC && ext.length == 0) = true := by
      simp [hg, hext]
    have hread := htrigger _ _ _ _ hrun
    unfold updateTxnWithExternalIntents at hupd hread
    simp only [hcond, if_true] at hupd hread
    rw [hsame.1, hsame.2] at hupd hread
    rw [hdelete _ _ _ hupd] at hread
    exact evalEndTransaction_no_record env st' cArgs' reply' hTxn' hverify' h1pc' htxn'
      (hstore.trans hread)

/-- C15 fails as stated: with auto-GC on, the sample commit whose only intent
is local succeeds and deletes the record; on the store after that batch a
second commit of the same transaction returns
`TransactionNotFoundStatusError` and a rollback returns no error at all,
neither returns `TransactionCommittedStatusError`. -/
theorem committed_then_gc_record_is_not_found :
    evalEndTransaction (sim.env true)
        (sample.state (sample.batch
          [(sample.txnKey, sample.record roachpb.PENDING 1 ⟨5, 0⟩)]))
        (sample.cArgsLocal true) ⟨none⟩ = .ok sample.gcCommitOut ∧
    sample.gcCommitOut.err = none ∧
    evalEndTransaction (sim.env true)
        (sample.state (sim.apply sample.gcCommitOut.st.batch))
        (sample.cArgsLocal true) ⟨none⟩ =
      .ok { st := sample.state (sim.apply sample.gcCommitOut.st.batch)
            reply := ⟨none⟩
            res := result.Result.empty
            err := some roachpb.Error.TransactionNotFoundStatusError } ∧
    evalEndTransaction (sim.env true)
        (sample.state (sim.apply sample.gcCommitOut.st.batch))
        (sample.cArgsLocal false) ⟨none⟩ =
      .ok { st := sample.state (sim.apply sample.gcCommitOut.st.batch)
            reply := ⟨some sample.hTxn⟩
            res := result.Result.empty
            err := none } :=
  ⟨rfl, rfl, rfl, rfl⟩

/-- C15 at the sample commit that leaves two external intents: the record is
rewritten as COMMITTED, and a rollback of the same transaction on the store
after that batch returns the committed-status error. -/
theorem finalize_after_commit_sees_written_record_witness :
    evalEndTransaction (sim.env true)
        (sample.state (sim.apply sample.commitOut.st.batch))
        (sample.cArgs false true) ⟨none⟩ =
      .ok { st := sample.state (sim.apply sample.commitOut.st.batch)
            reply := ⟨some sample.committedTxn⟩
            res := result.Result.empty
            err := some roachpb.Error.TransactionCommittedStatusError } := by
  obtain ⟨st0, st1, ext, hst0, hres, hwritten, _⟩ :=
    finalize_after_commit_sees_written_record (sim.env true)
      (sample.state (sample.batch [(sample.txnKey, sample.record roachpb.PENDING 1 ⟨5, 0⟩)]))
      (sample.state (sim.apply sample.commitOut.st.batch))
      (sample.cArgs true false) (sample.cArgs false true) ⟨none⟩ ⟨none⟩
      sample.hTxn (sample.record roachpb.PENDING 1 ⟨5, 0⟩) sample.hTxn sample.commitOut
      ⟨⟨rfl, rfl, rfl, rfl⟩, rfl, by decide,
        fun h => absurd ((hlc.Timestamp.less_iff_lt _ _).mpr h.2) (by decide)⟩
      rfl rfl rfl
      (by
        intro b ms k t _
        simp [sim.env, sim.lookup])
      (by
        intro b ms k _
        simp [sim.env, sim.lookup, sim.erase])
      (by
        intro sa txn sb r h
        simp only [RunCommitTrigger, sample.cArgs, sample.request] at h
        cases h
        rfl)
      ⟨rfl, rfl⟩ rfl rfl rfl rfl
  have h0 := hst0 rfl
  subst h0
  have hres' : resolveLocalIntents (sim.env true) (sample.cArgs true false).EvalCtx.Desc
      (sample.state (sample.batch [(sample.txnKey, sample.record roachpb.PENDING 1 ⟨5, 0⟩)]))
      (sample.cArgs true false).Args
      (evalEndTransaction.committedTxn (sim.env true) sample.hTxn
        (sample.record roachpb.PENDING 1 ⟨5, 0⟩))
      (sample.cArgs true false).EvalCtx
      = .ok (sample.commitResolvedState, sample.externalIntents, none) := rfl
  rw [hres'] at hres
  injection hres with hres
  injection hres with _ hres
  injection hres with hext _
  subst hext
  exact hwritten (fun h => by
    have := h.2
    cases this)

/-- One iteration of the resolution loop lowers the allowance by exactly the
number of keys it resolves, and keeps it non-negative, when the range
primitive reports a count between zero and its cap. -/
theorem resolveLocalIntents_step_allowance {β : Type} (env : Env β)
    (desc : roachpb.RangeDescriptor) (iterAndBuf : engine.IterOptions)
    (txn : roachpb.Transaction) (l l' : ResolveLoop β) (span : roachpb.Span)
    (hcap : ∀ b it ms intent cap, 0 ≤ cap →
      0 ≤ (env.MVCCResolveWriteIntentRangeUsingIter b it ms intent cap).num ∧
      (env.MVCCResolveWriteIntentRangeUsingIter b it ms intent cap).num ≤ cap)
    (hl : 0 ≤ l.resolveAllowance)
    (hstep : resolveLocalIntents.step env desc iterAndBuf txn l span = .ok l') :
    0 ≤ resolveLocalIntents.numResolved env desc iterAndBuf txn l span ∧
    l'.resolveAllowance + resolveLocalIntents.numResolved env desc iterAndBuf txn l span
      = l.resolveAllowance ∧
    0 ≤ l'.resolveAllowance := by
  unfold resolveLocalIntents.step at hstep
  unfold resolveLocalIntents.numResolved
  by_cases h0 : (l.resolveAllowance == 0) = true
  · simp only [h0, if_true] at hstep ⊢
    cases hstep
    simp
    exact hl
  · simp only [h0, Bool.false_eq_true, if_false] at hstep ⊢
    have hne : l.resolveAllowance ≠ 0 := by simpa using h0
    by_cases hk : (span.EndKey.length == 0) = true
    · simp only [hk, if_true] at hstep ⊢
      by_cases hc : (!env.ContainsKey desc span.Key) = true
      · simp only [hc, if_true] at hstep ⊢
        cases hstep
        simp
        exact hl
      · simp only [hc, Bool.false_eq_true, if_false] at hstep ⊢
        split at hstep
        · cases hstep
        · cases hstep
          refine ⟨by omega, ?_, ?_⟩ <;> (simp; try omega)
    · simp only [hk, Bool.false_eq_true, if_false] at hstep ⊢
      split at hstep
      · rename_i inSpan hin
        try simp only [hin]
        have hb := hcap l.st.batch iterAndBuf l.st.ms
          { Span := inSpan, Txn := txn.toTxnMeta, Status := txn.Status } l.resolveAllowance hl
        split at hstep
        · cases hstep
        · split at hstep
          · split at hstep
            · cases hstep
            · cases hstep
              refine ⟨by omega, ?_, ?_⟩ <;> (simp; try omega)
          · cases hstep
            refine ⟨by omega, ?_, ?_⟩ <;> (simp; try omega)
      · rename_i hin
        try simp only [hin]
        cases hstep
        simp
        exact hl

/-- The counted loop is the loop of `resolveLocalIntents`, what it counts is
what the allowance lost, and the allowance stays non-negative. -/
theorem resolveLocalIntents_loopCount_allowance {β : Type} (env : Env β)
    (desc : roachpb.RangeDescriptor) (iterAndBuf : engine.IterOptions)
    (txn : roachpb.Transaction)
    (hcap : ∀ b it ms intent cap, 0 ≤ cap →
      0 ≤ (env.MVCCResolveWriteIntentRangeUsingIter b it ms intent cap).num ∧
      (env.MVCCResolveWriteIntentRangeUsingIter b it ms intent cap).num ≤ cap)
    (spans : List roachpb.Span) :
    ∀ (l l' : ResolveLoop β) (n : Int), 0 ≤ l.resolveAllowance →
      resolveLocalIntents.loopCount env desc iterAndBuf txn l spans = .ok (l', n) →
      spans.foldlM (resolveLocalIntents.step env desc iterAndBuf txn) l = .ok l' ∧
      0 ≤ n ∧ l'.resolveAllowance + n = l.resolveAllowance ∧ 0 ≤ l'.resolveAllowance := by
  induction spans with
  | nil =>
    intro l l' n hl h
    simp only [resolveLocalIntents.loopCount] at h
    cases h
    exact ⟨rfl, le_refl _, by omega, hl⟩
  | cons span rest ih =>
    intro l l' n hl h
    simp only [resolveLocalIntents.loopCount] at h
    split at h
    · cases h
    · rename_i l1 hstep
      split at h
      · cases h
      · rename_i l2 m hrest
        cases h
        obtain ⟨h1, h2, h3⟩ :=
          resolveLocalIntents_step_allowance env desc iterAndBuf txn l l1 span hcap hl hstep
        obtain ⟨h4, h5, h6, h7⟩ := ih l1 l' m h3 hrest
        refine ⟨?_, by omega, by omega, h7⟩
        rw [List.foldlM_cons, hstep]
        exact h4

/-- The loop of `resolveLocalIntents` that completes has a counted run. -/
theorem resolveLocalIntents_loopCount_of_foldlM {β : Type} (env : Env β)
    (desc : roachpb.RangeDescriptor) (iterAndBuf : engine.IterOptions)
    (txn : roachpb.Transaction) (spans : List roachpb.Span) :
    ∀ (l l' : ResolveLoop β),
      spans.foldlM (resolveLocalIntents.step env desc iterAndBuf txn) l = .ok l' →
      ∃ n, resolveLocalIntents.loopCount env desc iterAndBuf txn l spans = .ok (l', n) := by
  induction spans with
  | nil =>
    intro l l' h
    simp only [List.foldlM_nil] at h
    cases h
    exact ⟨0, rfl⟩
  | cons span rest ih =>
    intro l l' h
    rw [List.foldlM_cons] at h
    cases hstep : resolveLocalIntents.step env desc iterAndBuf txn l span with
    | error c =>
      rw [hstep] at h
      cases h
    | ok l1 =>
      rw [hstep] at h
      obtain ⟨n, hn⟩ := ih l1 l' h
      refine ⟨resolveLocalIntents.numResolved env desc iterAndBuf txn l span + n, ?_⟩
      simp only [resolveLocalIntents.loopCount, hstep, hn]

/-- The call of `resolveLocalIntents` runs its loop from the full allowance
with the descriptor and iterator options it chose. -/
theorem resolveLocalIntents_loop_of_ok {β : Type} (env : Env β)
    (desc : roachpb.RangeDescriptor) (st st' : State β)
    (args : roachpb.EndTransactionRequest) (txn : roachpb.Transaction)
    (evalCtx : EvalContext) (ext : List roachpb.Span) (err : Option roachpb.Error)
    (h : resolveLocalIntents env desc st args txn evalCtx = .ok (st', ext, err)) :
    ∃ l, args.IntentSpans.foldlM
        (resolveLocalIntents.step env (resolveLocalIntents.desc desc args)
          (resolveLocalIntents.iterOptions env desc args txn) txn)
        { st := st, externalIntents := [], resolveAllowance := intentResolutionBatchSize }
        = .ok l := by
  unfold resolveLocalIntents at h
  simp only at h
  split at h
  · cases h
  · rename_i l hl
    exact ⟨l, hl⟩

/-- C16: let the range-resolution primitive report, for every cap that is not
negative, a count of processed keys that is not negative and not above the
cap. Then for every range descriptor, transaction and request, after every
prefix of the intent spans that the loop of `resolveLocalIntents` gets
through, the allowance is between 0 and 500 and the number of intent keys
resolved in the batch so far (one per single-key span resolved locally plus
the count reported for each range span) is 500 minus the allowance, hence at
most 500; and every call of `resolveLocalIntents` that returns has resolved
at most 500 intent keys. -/
theorem resolution_stays_within_batch_size {β : Type} (env : Env β)
    (desc : roachpb.RangeDescriptor) (st : State β)
    (args : roachpb.EndTransactionRequest) (txn : roachpb.Transaction)
    (evalCtx : EvalContext)
    (hcap : ∀ b it ms intent cap, 0 ≤ cap →
      0 ≤ (env.MVCCResolveWriteIntentRangeUsingIter b it ms intent cap).num ∧
      (env.MVCCResolveWriteIntentRangeUsingIter b it ms intent cap).num ≤ cap) :
    (∀ (pre post : List roachpb.Span) (l : ResolveLoop β) (n : Int),
      args.IntentSpans = pre ++ post →
      resolveLocalIntents.loopCount env (resolveLocalIntents.desc desc args)
        (resolveLocalIntents.iterOptions env desc args txn) txn
        { st := st, externalIntents := [], resolveAllowance := intentResolutionBatchSize }
        pre = .ok (l, n) →
      pre.foldlM
        (resolveLocalIntents.step env (resolveLocalIntents.desc desc args)
          (resolveLocalIntents.iterOptions env desc args txn) txn)
        { st := st, externalIntents := [], resolveAllowance := intentResolutionBatchSize }
        = .ok l ∧
      0 ≤ l.resolveAllowance ∧ l.resolveAllowance ≤ 500 ∧
      0 ≤ n ∧ n ≤ 500 ∧ n + l.resolveAllowance = 500) ∧
    (∀ (st' : State β) (ext : List roachpb.Span) (err : Option roachpb.Error),
      resolveLocalIntents env desc st args txn evalCtx = .ok (st', ext, err) →
      ∃ (l : ResolveLoop β) (n : Int),
        resolveLocalIntents.loopCount env (resolveLocalIntents.desc desc args)
          (resolveLocalIntents.iterOptions env desc args txn) txn
          { st := st, externalIntents := [], resolveAllowance := intentResolutionBatchSize }
          args.IntentSpans = .ok (l, n) ∧
        0 ≤ n ∧ n ≤ 500) := by
  constructor
  · intro pre post l n _ hloop
    obtain ⟨h1, h2, h3, h4⟩ :=
      resolveLocalIntents_loopCount_allowance env _ _ txn hcap pre _ l n
        (by simp [intentResolutionBatchSize]) hloop
    simp only [intentResolutionBatchSize] at h3
    exact ⟨h1, h4, by omega, h2, by omega, by omega⟩
  · intro st' ext err h
    obtain ⟨l, hl⟩ := resolveLocalIntents_loop_of_ok env desc st st' args txn evalCtx ext err h
    obtain ⟨n, hn⟩ := resolveLocalIntents_loopCount_of_foldlM env _ _ txn _ _ l hl
    obtain ⟨_, h2, h3, h4⟩ :=
      resolveLocalIntents_loopCount_allowance env _ _ txn hcap _ _ l n
        (by simp [intentResolutionBatchSize]) hn
    simp only [intentResolutionBatchSize] at h3
    exact ⟨l, n, hn, h2, by omega⟩

/-- The range resolution of the reference environment reports a count between
zero and its cap. -/
theorem sim_range_resolution_within_cap (autoGC : Bool) :
    ∀ (b : sim.Batch) (it : engine.IterOptions) (ms : enginepb.MVCCStats)
      (intent : roachpb.Intent) (cap : Int), 0 ≤ cap →
      0 ≤ ((sim.env autoGC).MVCCResolveWriteIntentRangeUsingIter b it ms intent cap).num ∧
      ((sim.env autoGC).MVCCResolveWriteIntentRangeUsingIter b it ms intent cap).num ≤ cap := by
  intro b it ms intent cap hcap
  simp only [sim.env]
  constructor
  · exact Int.ofNat_nonneg _
  · have h1 : (List.take cap.toNat
        (List.filter (fun k => sim.inRange intent.Span.Key intent.Span.EndKey k)
          b.intents)).length ≤ cap.toNat := by
      rw [List.length_take]
      exact Nat.min_le_left _ _
    have h2 : (cap.toNat : Int) = cap := Int.toNat_of_nonneg hcap
    omega

/-- C16 at the sample commit in the reference environment: the loop over the
three intent spans resolves three intent keys and ends with the allowance
497. -/
theorem resolution_stays_within_batch_size_witness :
    List.foldlM
        (resolveLocalIntents.step (sim.env true)
          (resolveLocalIntents.desc sample.desc (sample.request true false))
          (resolveLocalIntents.iterOptions (sim.env true) sample.desc
            (sample.request true false) { sample.hTxn with Status := roachpb.COMMITTED })
          { sample.hTxn with Status := roachpb.COMMITTED })
        { st := sample.state (sample.batch
            [(sample.txnKey, sample.record roachpb.PENDING 1 ⟨5, 0⟩)])
          externalIntents := []
          resolveAllowance := intentResolutionBatchSize }
        (sample.request true false).IntentSpans
      = .ok sample.commitLoopEnd ∧
    0 ≤ sample.commitLoopEnd.resolveAllowance ∧ sample.commitLoopEnd.resolveAllowance ≤ 500 ∧
    (0 : Int) ≤ 3 ∧ (3 : Int) ≤ 500 ∧ 3 + sample.commitLoopEnd.resolveAllowance = 500 :=
  (resolution_stays_within_batch_size (sim.env true) sample.desc
    (sample.state (sample.batch [(sample.txnKey, sample.record roachpb.PENDING 1 ⟨5, 0⟩)]))
    (sample.request true false) { sample.hTxn with Status := roachpb.COMMITTED }
    sample.evalCtx (sim_range_resolution_within_cap true)).1
    (sample.request true false).IntentSpans [] sample.commitLoopEnd 3
    (List.append_nil _).symm rfl

/-- The loop of `resolveLocalIntents` over single-key spans, started with an
allowance of `n`, resolves the first `n` local spans in order and hands off
the others, when the single-key primitive returns no error. -/
theorem resolveLocalIntents_loop_single_keys {β : Type} (env : Env β)
    (desc : roachpb.RangeDescriptor) (iterAndBuf : engine.IterOptions)
    (txn : roachpb.Transaction)
    (hnoerr : ∀ b it ms intent, (env.MVCCResolveWriteIntentUsingIter b it ms intent).err = none)
    (spans : List roachpb.Span) :
    ∀ (n : Nat) (st : State β) (ext : List roachpb.Span),
      (∀ span ∈ spans, span.EndKey = []) →
      spans.foldlM (resolveLocalIntents.step env desc iterAndBuf txn)
        { st := st, externalIntents := ext, resolveAllowance := (n : Int) } =
      .ok { st := spec.resolveEach env iterAndBuf txn st
              (spec.resolvedSpans (fun span => env.ContainsKey desc span.Key) n spans)
            externalIntents := ext ++
              spec.externalSpans (fun span => env.ContainsKey desc span.Key) n spans
            resolveAllowance := (n : Int) -
              (spec.resolvedSpans (fun span => env.ContainsKey desc span.Key) n spans).length } := by
  induction spans with
  | nil =>
    intro n st ext _
    simp [spec.resolveEach, spec.resolvedSpans, spec.externalSpans, pure, Except.pure]
  | cons span rest ih =>
    intro n st ext hsingle
    have hspan : span.EndKey = [] := hsingle span (List.mem_cons_self _ _)
    have hrest : ∀ s ∈ rest, s.EndKey = [] := fun s hs => hsingle s (List.mem_cons_of_mem _ hs)
    rw [List.foldlM_cons]
    cases n with
    | zero =>
      have hstep : resolveLocalIntents.step env desc iterAndBuf txn
          { st := st, externalIntents := ext, resolveAllowance := ((0 : Nat) : Int) } span =
          .ok { st := st, externalIntents := ext ++ [span],
                resolveAllowance := ((0 : Nat) : Int) } := by
        simp [resolveLocalIntents.step]
      rw [hstep]
      simp only [bind, Except.bind]
      rw [ih 0 st (ext ++ [span]) hrest]
      simp [spec.resolvedSpans, spec.externalSpans, spec.cutAfter, spec.resolveEach]
    | succ m =>
      have hne : (((m + 1 : Nat) : Int) == 0) = false := by
        simp
        omega
      have hne' : ¬ ((m : Int) + 1 = 0) := by omega
      by_cases hloc : env.ContainsKey desc span.Key = true
      · have hstep : resolveLocalIntents.step env desc iterAndBuf txn
            { st := st, externalIntents := ext, resolveAllowance := ((m + 1 : Nat) : Int) } span =
            .ok { st :=
                    { st with
                      batch := (env.MVCCResolveWriteIntentUsingIter st.batch iterAndBuf st.ms
                        { Span := span, Txn := txn.toTxnMeta, Status := txn.Status }).batch
                      ms := (env.MVCCResolveWriteIntentUsingIter st.batch iterAndBuf st.ms
                        { Span := span, Txn := txn.toTxnMeta, Status := txn.Status }).ms }
                  externalIntents := ext
                  resolveAllowance := (m : Int) } := by
          simp [resolveLocalIntents.step, hne, hne', hspan, hloc, hnoerr]
        rw [hstep]
        simp only [bind, Except.bind]
        rw [ih m _ ext hrest]
        simp [spec.resolvedSpans, spec.externalSpans, spec.cutAfter, spec.resolveEach, hloc,
          List.filter_cons]
      · have hloc' : env.ContainsKey desc span.Key = false := by simpa using hloc
        have hstep : resolveLocalIntents.step env desc iterAndBuf txn
            { st := st, externalIntents := ext, resolveAllowance := ((m + 1 : Nat) : Int) } span =
            .ok { st := st, externalIntents := ext ++ [span],
                  resolveAllowance := ((m + 1 : Nat) : Int) } := by
          simp [resolveLocalIntents.step, hne, hne', hspan, hloc']
        rw [hstep]
        simp only [bind, Except.bind]
        rw [ih (m + 1) st (ext ++ [span]) hrest]
        simp [spec.resolvedSpans, spec.externalSpans, spec.cutAfter, spec.resolveEach, hloc',
          List.filter_cons]

/-- When every span is local, the cut after the `n`-th local span is after the
`n`-th span. -/
theorem spec_cutAfter_all_local (isLocal : roachpb.Span → Bool) (spans : List roachpb.Span) :
    ∀ n : Nat, (∀ span ∈ spans, isLocal span = true) →
      spec.cutAfter isLocal n spans = min n spans.length := by
  induction spans with
  | nil =>
    intro n _
    cases n <;> simp [spec.cutAfter]
  | cons span rest ih =>
    intro n hall
    have hspan : isLocal span = true := hall span (List.mem_cons_self _ _)
    have hrest : ∀ s ∈ rest, isLocal s = true := fun s hs => hall s (List.mem_cons_of_mem _ hs)
    cases n with
    | zero => simp [spec.cutAfter]
    | succ m =>
      simp only [spec.cutAfter, hspan, if_true, ih m hrest, List.length_cons]
      omega

/-- C17: let every intent span of the request be a single key and let the
single-key resolution primitive and `SetAbortSpan` return no error. Then
`resolveLocalIntents` returns without error; the state it leaves is the one
in which exactly the first 500 spans contained in the range (all of them if
fewer) were resolved in the batch in input order (followed by the abort-span
write when that applies); and the external intents it returns are, in input
order, the non-contained spans before the position just after the 500th
local span followed by every span from that position on. When all spans are
local and there are more than 500, the resolved ones are the first 500 and
the external list is the input without its first 500 spans, the last
`n − 500`. -/
theorem single_key_spans_resolve_first_batch_size {β : Type} (env : Env β)
    (desc : roachpb.RangeDescriptor) (st : State β)
    (args : roachpb.EndTransactionRequest) (txn : roachpb.Transaction)
    (evalCtx : EvalContext)
    (hsingle : ∀ span ∈ args.IntentSpans, span.EndKey = [])
    (hnoerr : ∀ b it ms intent, (env.MVCCResolveWriteIntentUsingIter b it ms intent).err = none)
    (hset : ∀ ctx b ms txnMeta poison, (env.SetAbortSpan ctx b ms txnMeta poison).err = none) :
    resolveLocalIntents env desc st args txn evalCtx =
      .ok (
        (if args.Poison && txn.Status == roachpb.ABORTED then
          { spec.resolvedState env desc args txn st with
            batch := (env.SetAbortSpan evalCtx (spec.resolvedState env desc args txn st).batch
              (spec.resolvedState env desc args txn st).ms txn.toTxnMeta true).batch
            ms := (env.SetAbortSpan evalCtx (spec.resolvedState env desc args txn st).batch
              (spec.resolvedState env desc args txn st).ms txn.toTxnMeta true).ms }
        else
          spec.resolvedState env desc args txn st),
        spec.externalSpans (spec.isLocal env desc args) 500 args.IntentSpans,
        none) ∧
    ((∀ span ∈ args.IntentSpans, spec.isLocal env desc args span = true) →
      500 < args.IntentSpans.length →
      spec.resolvedSpans (spec.isLocal env desc args) 500 args.IntentSpans
        = args.IntentSpans.take 500 ∧
      spec.externalSpans (spec.isLocal env desc args) 500 args.IntentSpans
        = args.IntentSpans.drop 500 ∧
      (args.IntentSpans.drop 500).length = args.IntentSpans.length - 500) := by
  constructor
  · have hloop := resolveLocalIntents_loop_single_keys env (resolveLocalIntents.desc desc args)
      (resolveLocalIntents.iterOptions env desc args txn) txn hnoerr args.IntentSpans 500 st []
      hsingle
    have hlocal : spec.isLocal env desc args =
        (fun span => env.ContainsKey (resolveLocalIntents.desc desc args) span.Key) := rfl
    unfold resolveLocalIntents
    simp only [spec.resolvedState, hlocal]
    simp only [resolveLocalIntents.desc, resolveLocalIntents.iterOptions,
      intentResolutionBatchSize] at hloop ⊢
    have hcast : ((500 : Nat) : Int) = 500 := rfl
    rw [hcast] at hloop
    rw [hloop]
    by_cases hp : (args.Poison && txn.Status == roachpb.ABORTED) = true
    · simp [hp, hset]
    · simp [hp]
  · intro hall hlen
    have hcut := spec_cutAfter_all_local (spec.isLocal env desc args) args.IntentSpans 500 hall
    have hmin : min 500 args.IntentSpans.length = 500 := by omega
    have hfilter : args.IntentSpans.filter (spec.isLocal env desc args) = args.IntentSpans :=
      List.filter_eq_self.mpr hall
    refine ⟨?_, ?_, ?_⟩
    · simp only [spec.resolvedSpans, hfilter]
    · simp only [spec.externalSpans, hcut, hmin]
      have hnone : (List.take 500 args.IntentSpans).filter
          (fun span => !spec.isLocal env desc args span) = [] := by
        rw [List.filter_eq_nil_iff]
        intro s hs
        have := hall s (List.mem_of_mem_take hs)
        simp [this]
      rw [hnone, List.nil_append]
    · simp

/-- C17 at six hundred distinct single-key spans, all in the sample range: the
first five hundred are resolved in the batch and the last hundred are
returned as external intents. -/
theorem single_key_spans_resolve_first_batch_size_witness :
    resolveLocalIntents (sim.env true) sample.desc
        (sample.state (sample.batch
          [(sample.txnKey, sample.record roachpb.PENDING 1 ⟨5, 0⟩)]))
        sample.request600 { sample.hTxn with Status := roachpb.COMMITTED } sample.evalCtx =
      .ok (spec.resolveEach (sim.env true)
            (resolveLocalIntents.iterOptions (sim.env true) sample.desc sample.request600
              { sample.hTxn with Status := roachpb.COMMITTED })
            { sample.hTxn with Status := roachpb.COMMITTED }
            (sample.state (sample.batch
              [(sample.txnKey, sample.record roachpb.PENDING 1 ⟨5, 0⟩)]))
            (sample.spans600.take 500),
          sample.spans600.drop 500, none) ∧
    (sample.spans600.drop 500).length = 100 := by
  have hspans : sample.request600.IntentSpans =
      (List.range 600).map (fun i => (⟨[10, i], []⟩ : roachpb.Span)) := by
    simp only [sample.request600, sample.spans600]
  have hmem : ∀ span ∈ sample.request600.IntentSpans,
      ∃ i, (⟨[10, i], []⟩ : roachpb.Span) = span := by
    intro span hspan
    rw [hspans] at hspan
    obtain ⟨i, _, hi⟩ := List.mem_map.mp hspan
    exact ⟨i, hi⟩
  have hall : ∀ span ∈ sample.request600.IntentSpans,
      spec.isLocal (sim.env true) sample.desc sample.request600 span = true := by
    intro span hspan
    obtain ⟨i, rfl⟩ := hmem span hspan
    simp [spec.isLocal, resolveLocalIntents.desc, sim.env, sim.ContainsKey, sim.inRange,
      roachpb.Key.Less, sample.desc, sample.request600, sample.request,
      roachpb.InternalCommitTrigger.GetMergeTrigger]
  have hsingle : ∀ span ∈ sample.request600.IntentSpans, span.EndKey = [] := by
    intro span hspan
    obtain ⟨i, rfl⟩ := hmem span hspan
    rfl
  have hlength : sample.request600.IntentSpans.length = 600 := by
    rw [hspans, List.length_map, List.length_range]
  have hlen : 500 < sample.request600.IntentSpans.length := by
    rw [hlength]
    decide
  obtain ⟨h1, h2⟩ := single_key_spans_resolve_first_batch_size (sim.env true) sample.desc
    (sample.state (sample.batch [(sample.txnKey, sample.record roachpb.PENDING 1 ⟨5, 0⟩)]))
    sample.request600 { sample.hTxn with Status := roachpb.COMMITTED } sample.evalCtx
    hsingle (fun _ _ _ _ => rfl) (fun _ _ _ _ _ => rfl)
  obtain ⟨h3, h4, h5⟩ := h2 hall hlen
  rw [h1, h4]
  unfold spec.resolvedState
  rw [h3]
  have hdrop : (List.drop 500 sample.spans600).length = 100 := by
    have h600 : sample.spans600 = sample.request600.IntentSpans := by
      simp only [sample.request600]
    rw [h600, h5, hlength]
  have hsame : sample.request600.IntentSpans = sample.spans600 := by
    simp only [sample.request600]
  rw [hsame]
  exact ⟨rfl, hdrop⟩

/-- The loop of `resolveLocalIntents` never calls `SetAbortSpan`. -/
theorem resolveLocalIntents_loop_withSetAbortSpan {β : Type} (env : Env β)
    (f : EvalContext → β → enginepb.MVCCStats → enginepb.TxnMeta → Bool → WriteResult β)
    (desc : roachpb.RangeDescriptor) (st : State β) (args : roachpb.EndTransactionRequest)
    (txn : roachpb.Transaction) :
    resolveLocalIntents.loop (env.withSetAbortSpan f) desc st args txn =
      resolveLocalIntents.loop env desc st args txn := rfl

/-- `resolveLocalIntents` is its loop followed by the abort-span write when the
request poisons and the transaction is ABORTED. -/
theorem resolveLocalIntents_eq {β : Type} (env : Env β)
    (desc : roachpb.RangeDescriptor) (st : State β) (args : roachpb.EndTransactionRequest)
    (txn : roachpb.Transaction) (evalCtx : EvalContext) :
    resolveLocalIntents env desc st args txn evalCtx =
      match resolveLocalIntents.loop env desc st args txn with
      | .error crash => .error crash
      | .ok l =>
        if args.Poison && txn.Status == roachpb.ABORTED then
          match (resolveLocalIntents.poison env evalCtx txn l).err with
          | some err => .ok (resolveLocalIntents.poisonedState env evalCtx txn l, [], some err)
          | none =>
            .ok (resolveLocalIntents.poisonedState env evalCtx txn l, l.externalIntents, none)
        else
          .ok (l.st, l.externalIntents, none) := rfl

/-- Unless the request poisons and the transaction is ABORTED,
`resolveLocalIntents` never calls `SetAbortSpan`. -/
theorem resolveLocalIntents_withSetAbortSpan {β : Type} (env : Env β)
    (f : EvalContext → β → enginepb.MVCCStats → enginepb.TxnMeta → Bool → WriteResult β)
    (desc : roachpb.RangeDescriptor) (st : State β) (args : roachpb.EndTransactionRequest)
    (txn : roachpb.Transaction) (evalCtx : EvalContext)
    (h : ¬ (args.Poison = true ∧ txn.Status = roachpb.ABORTED)) :
    resolveLocalIntents (env.withSetAbortSpan f) desc st args txn evalCtx =
      resolveLocalIntents env desc st args txn evalCtx := by
  have hcond : (args.Poison && txn.Status == roachpb.ABORTED) = false := by
    cases hp : args.Poison
    · rfl
    · have : ¬ txn.Status = roachpb.ABORTED := fun hs => h ⟨hp, hs⟩
      simp [this]
  rw [resolveLocalIntents_eq, resolveLocalIntents_eq,
    resolveLocalIntents_loop_withSetAbortSpan]
  simp only [hcond, Bool.false_eq_true, if_false]

/-- The record writer never calls `SetAbortSpan`. -/
theorem updateTxnWithExternalIntents_withSetAbortSpan {β : Type} (env : Env β)
    (f : EvalContext → β → enginepb.MVCCStats → enginepb.TxnMeta → Bool → WriteResult β)
    (st : State β) (args : roachpb.EndTransactionRequest) (txn : roachpb.Transaction)
    (ext : List roachpb.Span) :
    updateTxnWithExternalIntents (env.withSetAbortSpan f) st args txn ext =
      updateTxnWithExternalIntents env st args txn ext := rfl

/-- The commit triggers never call `SetAbortSpan`. -/
theorem RunCommitTrigger_withSetAbortSpan {β : Type} (env : Env β)
    (f : EvalContext → β → enginepb.MVCCStats → enginepb.TxnMeta → Bool → WriteResult β)
    (rec : EvalContext) (st : State β) (args : roachpb.EndTransactionRequest)
    (txn : roachpb.Transaction) :
    RunCommitTrigger (env.withSetAbortSpan f) rec st args txn =
      RunCommitTrigger env rec st args txn := rfl

/-- The merge trigger never calls `SetAbortSpan`. -/
theorem mergeTrigger_withSetAbortSpan {β : Type} (env : Env β)
    (f : EvalContext → β → enginepb.MVCCStats → enginepb.TxnMeta → Bool → WriteResult β)
    (rec : EvalContext) (st : State β) (merge : roachpb.MergeTrigger) (ts : hlc.Timestamp) :
    mergeTrigger (env.withSetAbortSpan f) rec st merge ts = mergeTrigger env rec st merge ts :=
  rfl

/-- The assembly step never calls `SetAbortSpan`. -/
theorem assemble_withSetAbortSpan {β : Type} (env : Env β)
    (f : EvalContext → β → enginepb.MVCCStats → enginepb.TxnMeta → Bool → WriteResult β)
    (st : State β) (args : roachpb.EndTransactionRequest) (txn : roachpb.Transaction)
    (pd : result.Result) :
    evalEndTransaction.assemble (env.withSetAbortSpan f) st args txn pd =
      evalEndTransaction.assemble env st args txn pd := rfl

/-- Without the poison flag `resolveLocalIntents` never calls `SetAbortSpan`. -/
theorem resolveLocalIntents_withSetAbortSpan_of_no_poison {β : Type} (env : Env β)
    (f : EvalContext → β → enginepb.MVCCStats → enginepb.TxnMeta → Bool → WriteResult β)
    (args : roachpb.EndTransactionRequest) (h : args.Poison = false)
    (desc : roachpb.RangeDescriptor) (st : State β)
    (txn : roachpb.Transaction) (evalCtx : EvalContext) :
    resolveLocalIntents (env.withSetAbortSpan f) desc st args txn evalCtx =
      resolveLocalIntents env desc st args txn evalCtx :=
  resolveLocalIntents_withSetAbortSpan env f desc st args txn evalCtx
    (fun hp => by rw [h] at hp; cases hp.1)

/-- Unless the request poisons and the transaction is ABORTED, the steps after
the status switch never call `SetAbortSpan`. -/
theorem resolveAndFinish_withSetAbortSpan {β : Type} (env : Env β)
    (f : EvalContext → β → enginepb.MVCCStats → enginepb.TxnMeta → Bool → WriteResult β)
    (st : State β) (cArgs : CommandArgs) (txn : roachpb.Transaction) (pd : result.Result)
    (h : ¬ (cArgs.Args.Poison = true ∧ txn.Status = roachpb.ABORTED)) :
    evalEndTransaction.resolveAndFinish (env.withSetAbortSpan f) st cArgs txn pd =
      evalEndTransaction.resolveAndFinish env st cArgs txn pd := by
  unfold evalEndTransaction.resolveAndFinish
  simp only
  rw [resolveLocalIntents_withSetAbortSpan env f _ st _ txn _ h]
  rfl

/-- For a COMMITTED transaction the steps after the status switch never call
`SetAbortSpan`. -/
theorem resolveAndFinish_withSetAbortSpan_committed {β : Type} (env : Env β)
    (f : EvalContext → β → enginepb.MVCCStats → enginepb.TxnMeta → Bool → WriteResult β)
    (st : State β) (cArgs : CommandArgs) (txn : roachpb.Transaction) (pd : result.Result) :
    evalEndTransaction.resolveAndFinish (env.withSetAbortSpan f) st cArgs
        { txn with Status := roachpb.COMMITTED } pd =
      evalEndTransaction.resolveAndFinish env st cArgs
        { txn with Status := roachpb.COMMITTED } pd :=
  resolveAndFinish_withSetAbortSpan env f st cArgs _ pd (fun hp => by
    have := hp.2
    cases this)

/-- Unless the request is a poisoning rollback, the evaluation over a validated
PENDING record never calls `SetAbortSpan`. -/
theorem updateAndFinish_withSetAbortSpan {β : Type} (env : Env β)
    (f : EvalContext → β → enginepb.MVCCStats → enginepb.TxnMeta → Bool → WriteResult β)
    (st : State β) (cArgs : CommandArgs) (hTxn existingTxn : roachpb.Transaction)
    (h : ¬ (cArgs.Args.Commit = false ∧ cArgs.Args.Poison = true)) :
    evalEndTransaction.updateAndFinish (env.withSetAbortSpan f) st cArgs hTxn existingTxn =
      evalEndTransaction.updateAndFinish env st cArgs hTxn existingTxn := by
  unfold evalEndTransaction.updateAndFinish
  cases hc : cArgs.Args.Commit
  · simp only [hc, Bool.false_eq_true, if_false]
    exact resolveAndFinish_withSetAbortSpan env f st cArgs _ _ (fun hp => h ⟨hc, hp.1⟩)
  · simp only [hc, if_true, resolveAndFinish_withSetAbortSpan_committed]
    rfl

/-- Unless the request is a poisoning rollback, `evalEndTransaction` never calls
`SetAbortSpan`. -/
theorem evalEndTransaction_withSetAbortSpan {β : Type} (env : Env β)
    (f : EvalContext → β → enginepb.MVCCStats → enginepb.TxnMeta → Bool → WriteResult β)
    (st : State β) (cArgs : CommandArgs) (reply : roachpb.EndTransactionResponse)
    (h : ¬ (cArgs.Args.Commit = false ∧ cArgs.Args.Poison = true)) :
    evalEndTransaction (env.withSetAbortSpan f) st cArgs reply =
      evalEndTransaction env st cArgs reply := by
  unfold evalEndTransaction
  cases hc : cArgs.Args.Commit
  · have hp : cArgs.Args.Poison = false := by
      cases hpo : cArgs.Args.Poison
      · rfl
      · exact absurd ⟨hc, hpo⟩ h
    simp only [hc, resolveLocalIntents_withSetAbortSpan_of_no_poison env f cArgs.Args hp,
      updateAndFinish_withSetAbortSpan env f st cArgs _ _ h]
    rfl
  · simp only [hc, updateAndFinish_withSetAbortSpan env f st cArgs _ _ h]
    rfl

/-- C18: `resolveLocalIntents` calls `SetAbortSpan` (with poison = true, on the
batch and stats the resolution loop left) exactly when the request's poison
flag is set and the transaction's status is ABORTED: in that case its result
is the poisoned state, with the external intents when the write reports no
error and with the write's error otherwise; in every other case the result
is the loop's state and neither the loop nor the function calls
`SetAbortSpan`. Consequently a rollback with poison on an ABORTED record and
on a validated PENDING record (whose status the evaluation sets to ABORTED)
continues from the poisoned state, and a commit never calls `SetAbortSpan`,
whatever its poison flag. -/
theorem abort_span_written_iff_poison_and_aborted {β : Type} (env : Env β) :
    (∀ (desc : roachpb.RangeDescriptor) (st : State β) (args : roachpb.EndTransactionRequest)
        (txn : roachpb.Transaction) (evalCtx : EvalContext) (l : ResolveLoop β),
      resolveLocalIntents.loop env desc st args txn = .ok l →
      (args.Poison = true ∧ txn.Status = roachpb.ABORTED →
        ((resolveLocalIntents.poison env evalCtx txn l).err = none →
          resolveLocalIntents env desc st args txn evalCtx =
            .ok (resolveLocalIntents.poisonedState env evalCtx txn l, l.externalIntents,
              none)) ∧
        (∀ err, (resolveLocalIntents.poison env evalCtx txn l).err = some err →
          resolveLocalIntents env desc st args txn evalCtx =
            .ok (resolveLocalIntents.poisonedState env evalCtx txn l, [], some err))) ∧
      (¬ (args.Poison = true ∧ txn.Status = roachpb.ABORTED) →
        resolveLocalIntents env desc st args txn evalCtx =
          .ok (l.st, l.externalIntents, none))) ∧
    (∀ f (desc : roachpb.RangeDescriptor) (st : State β)
        (args : roachpb.EndTransactionRequest) (txn : roachpb.Transaction)
        (evalCtx : EvalContext),
      resolveLocalIntents.loop (env.withSetAbortSpan f) desc st args txn =
        resolveLocalIntents.loop env desc st args txn ∧
      (¬ (args.Poison = true ∧ txn.Status = roachpb.ABORTED) →
        resolveLocalIntents (env.withSetAbortSpan f) desc st args txn evalCtx =
          resolveLocalIntents env desc st args txn evalCtx)) ∧
    (∀ (st : State β) (cArgs : CommandArgs) (reply : roachpb.EndTransactionResponse)
        (hTxn existingTxn : roachpb.Transaction) (l : ResolveLoop β),
      FindsRecord env st cArgs hTxn existingTxn →
      existingTxn.Status = roachpb.ABORTED →
      cArgs.Args.Commit = false → cArgs.Args.Poison = true →
      resolveLocalIntents.loop env cArgs.EvalCtx.Desc st cArgs.Args existingTxn = .ok l →
      (resolveLocalIntents.poison env cArgs.EvalCtx existingTxn l).err = none →
      (updateTxnWithExternalIntents env
        (resolveLocalIntents.poisonedState env cArgs.EvalCtx existingTxn l) cArgs.Args
        existingTxn l.externalIntents).err = none →
      evalEndTransaction env st cArgs reply =
        .ok { st := (updateTxnWithExternalIntents env
                (resolveLocalIntents.poisonedState env cArgs.EvalCtx existingTxn l) cArgs.Args
                existingTxn l.externalIntents).st
              reply := ⟨some (updateTxnWithExternalIntents env
                (resolveLocalIntents.poisonedState env cArgs.EvalCtx existingTxn l) cArgs.Args
                existingTxn l.externalIntents).txn⟩
              res := env.FromEndTxn (updateTxnWithExternalIntents env
                (resolveLocalIntents.poisonedState env cArgs.EvalCtx existingTxn l) cArgs.Args
                existingTxn l.externalIntents).txn true true
              err := none }) ∧
    (∀ (st : State β) (cArgs : CommandArgs) (reply : roachpb.EndTransactionResponse)
        (hTxn existingTxn : roachpb.Transaction) (l : ResolveLoop β),
      PassesValidation env st cArgs hTxn existingTxn →
      cArgs.Args.Commit = false → cArgs.Args.Poison = true →
      resolveLocalIntents.loop env cArgs.EvalCtx.Desc st cArgs.Args
        (evalEndTransaction.abortedTxn env hTxn existingTxn) = .ok l →
      (resolveLocalIntents.poison env cArgs.EvalCtx
        (evalEndTransaction.abortedTxn env hTxn existingTxn) l).err = none →
      (updateTxnWithExternalIntents env
        (resolveLocalIntents.poisonedState env cArgs.EvalCtx
          (evalEndTransaction.abortedTxn env hTxn existingTxn) l) cArgs.Args
        (evalEndTransaction.abortedTxn env hTxn existingTxn) l.externalIntents).err = none →
      evalEndTransaction env st cArgs reply =
        evalEndTransaction.assemble env
          (updateTxnWithExternalIntents env
            (resolveLocalIntents.poisonedState env cArgs.EvalCtx
              (evalEndTransaction.abortedTxn env hTxn existingTxn) l) cArgs.Args
            (evalEndTransaction.abortedTxn env hTxn existingTxn) l.externalIntents).st
          cArgs.Args
          (updateTxnWithExternalIntents env
            (resolveLocalIntents.poisonedState env cArgs.EvalCtx
              (evalEndTransaction.abortedTxn env hTxn existingTxn) l) cArgs.Args
            (evalEndTransaction.abortedTxn env hTxn existingTxn) l.externalIntents).txn
          result.Result.empty) ∧
    (∀ f (st : State β) (cArgs : CommandArgs) (reply : roachpb.EndTransactionResponse),
      cArgs.Args.Commit = true →
      evalEndTransaction (env.withSetAbortSpan f) st cArgs reply =
        evalEndTransaction env st cArgs reply) := by
  refine ⟨?_, ?_, ?_, ?_, ?_⟩
  · intro desc st args txn evalCtx l hloop
    rw [resolveLocalIntents_eq, hloop]
    refine ⟨?_, ?_⟩
    · rintro ⟨hp, hs⟩
      have hcond : (args.Poison && txn.Status == roachpb.ABORTED) = true := by
        simp [hp, hs]
      refine ⟨?_, ?_⟩
      · intro herr
        simp only [hcond, if_true, herr]
      · intro err herr
        simp only [hcond, if_true, herr]
    · intro hno
      have hcond : (args.Poison && txn.Status == roachpb.ABORTED) = false := by
        cases hp : args.Poison
        · rfl
        · have : ¬ txn.Status = roachpb.ABORTED := fun hs => hno ⟨hp, hs⟩
          simp [this]
      simp only [hcond, Bool.false_eq_true, if_false]
  · intro f desc st args txn evalCtx
    exact ⟨rfl, resolveLocalIntents_withSetAbortSpan env f desc st args txn evalCtx⟩
  · intro st cArgs reply hTxn existingTxn l hfinds hstatus hcommit hpoison hloop herr hupd
    obtain ⟨hverify, h1pc, htxn, hget⟩ := hfinds
    have hne : (roachpb.ABORTED == roachpb.COMMITTED) = false := by decide
    have hres : resolveLocalIntents env cArgs.EvalCtx.Desc st cArgs.Args existingTxn
        cArgs.EvalCtx =
        .ok (resolveLocalIntents.poisonedState env cArgs.EvalCtx existingTxn l,
          l.externalIntents, none) := by
      rw [resolveLocalIntents_eq, hloop]
      simp only [hpoison, hstatus, beq_self_eq_true, Bool.and_self, if_true, herr]
    simp [evalEndTransaction, hverify, h1pc, htxn, hget, hstatus, hcommit, hne, hres, hupd,
      hpoison]
  · intro st cArgs reply hTxn existingTxn l hvalid hcommit hpoison hloop herr hupd
    rw [evalEndTransaction_of_passesValidation env st cArgs reply hTxn existingTxn hvalid]
    have hres : resolveLocalIntents env cArgs.EvalCtx.Desc st cArgs.Args
        (evalEndTransaction.abortedTxn env hTxn existingTxn) cArgs.EvalCtx =
        .ok (resolveLocalIntents.poisonedState env cArgs.EvalCtx
          (evalEndTransaction.abortedTxn env hTxn existingTxn) l, l.externalIntents, none) := by
      rw [resolveLocalIntents_eq, hloop]
      have hs : (evalEndTransaction.abortedTxn env hTxn existingTxn).Status = roachpb.ABORTED :=
        rfl
      simp only [hpoison, hs, beq_self_eq_true, Bool.and_self, if_true, herr]
    have hstatus : (updateTxnWithExternalIntents env
        (resolveLocalIntents.poisonedState env cArgs.EvalCtx
          (evalEndTransaction.abortedTxn env hTxn existingTxn) l) cArgs.Args
        (evalEndTransaction.abortedTxn env hTxn existingTxn) l.externalIntents).txn.Status
        = roachpb.ABORTED :=
      updateTxnWithExternalIntents_status env _ cArgs.Args _ _
    have hne : (roachpb.ABORTED == roachpb.COMMITTED) = false := by decide
    unfold evalEndTransaction.abortedTxn at hres hupd hstatus
    simp [evalEndTransaction.updateAndFinish, hcommit, evalEndTransaction.resolveAndFinish,
      hres, hupd, hstatus, hne, evalEndTransaction.abortedTxn]
  · intro f st cArgs reply hcommit
    exact evalEndTransaction_withSetAbortSpan env f st cArgs reply
      (fun h => by rw [hcommit] at h; cases h.1)

/-- C18 at the sample requests: the poisoning rollback over the ABORTED record
leaves the abort-span write in the batch; the same rollback without poison
leaves the loop's state, which has no such write; the poisoning commit over
the PENDING record has the same outcome when `SetAbortSpan` is replaced by a
primitive that fails. -/
theorem abort_span_written_iff_poison_and_aborted_witness :
    evalEndTransaction (sim.env true)
        (sample.state (sample.batch [(sample.txnKey, sample.abortedRecord)]))
        (sample.cArgs false true) ⟨none⟩ =
      .ok { st := sample.finalState
            reply := ⟨some { sample.abortedRecord with Intents := sample.externalIntents }⟩
            res := sim.FromEndTxn
              { sample.abortedRecord with Intents := sample.externalIntents } true true
            err := none } ∧
    sim.Write.SetAbortSpan 1 sample.abortedRecord.toTxnMeta true ∈
      sample.finalState.batch.writes ∧
    resolveLocalIntents (sim.env true) sample.desc
        (sample.state (sample.batch [(sample.txnKey, sample.abortedRecord)]))
        (sample.request false false) sample.abortedRecord sample.evalCtx =
      .ok (sample.abortLoopEnd.st, sample.externalIntents, none) ∧
    evalEndTransaction ((sim.env true).withSetAbortSpan sample.failingSetAbortSpan)
        (sample.state (sample.batch
          [(sample.txnKey, sample.record roachpb.PENDING 1 ⟨5, 0⟩)]))
        (sample.cArgs true true) ⟨none⟩ =
      evalEndTransaction (sim.env true)
        (sample.state (sample.batch
          [(sample.txnKey, sample.record roachpb.PENDING 1 ⟨5, 0⟩)]))
        (sample.cArgs true true) ⟨none⟩ :=
  ⟨(abort_span_written_iff_poison_and_aborted (sim.env true)).2.2.1
      (sample.state (sample.batch [(sample.txnKey, sample.abortedRecord)]))
      (sample.cArgs false true) ⟨none⟩ sample.hTxn sample.abortedRecord sample.abortLoopEnd
      ⟨rfl, rfl, rfl, rfl⟩ rfl rfl rfl rfl rfl rfl,
   by decide,
   ((abort_span_written_iff_poison_and_aborted (sim.env true)).1 sample.desc
      (sample.state (sample.batch [(sample.txnKey, sample.abortedRecord)]))
      (sample.request false false) sample.abortedRecord sample.evalCtx sample.abortLoopEnd
      rfl).2 (by decide),
   (abort_span_written_iff_poison_and_aborted (sim.env true)).2.2.2.2
      sample.failingSetAbortSpan _ (sample.cArgs true true) ⟨none⟩ rfl⟩

/-- In the reference environment a record is not found after its deletion. -/
theorem sim_lookup_erase (records : List (roachpb.Key × roachpb.Transaction))
    (key : roachpb.Key) : sim.lookup (sim.erase records key) key = none := by
  unfold sim.lookup sim.erase
  have h : (records.filter (fun kv => !(kv.1 == key))).find? (fun kv => kv.1 == key) = none := by
    rw [List.find?_eq_none]
    intro kv hkv
    have := (List.mem_filter.mp hkv).2
    simpa using this
  rw [h]
  rfl

/-- C19: `updateTxnWithExternalIntents` works at the key of the transaction.
When auto-GC is enabled and the external-intents list is empty it calls
`MVCCDelete` at that key, leaves the transaction as it is, returns the
delete's error and never calls `MVCCPutProto`; over an engine in which a
successful delete leaves no record at the deleted key, the record is absent
afterwards. In every other case it sets the transaction's `Intents` to the
given list, calls `MVCCPutProto` with that transaction at the key, returns
the put's error and never calls `MVCCDelete`. -/
theorem record_deleted_iff_auto_gc_and_no_external_intents {β : Type} (env : Env β)
    (st : State β) (args : roachpb.EndTransactionRequest) (txn : roachpb.Transaction)
    (externalIntents : List roachpb.Span) :
    (env.TxnAutoGC = true ∧ externalIntents = [] →
      updateTxnWithExternalIntents env st args txn externalIntents =
        { st := { st with
                  batch := (env.MVCCDelete st.batch st.ms
                    (env.TransactionKey txn.Key txn.ID)).batch
                  ms := (env.MVCCDelete st.batch st.ms
                    (env.TransactionKey txn.Key txn.ID)).ms }
          txn := txn
          err := (env.MVCCDelete st.batch st.ms (env.TransactionKey txn.Key txn.ID)).err } ∧
      (∀ f, updateTxnWithExternalIntents (env.withMVCCPutProto f) st args txn externalIntents =
        updateTxnWithExternalIntents env st args txn externalIntents) ∧
      ((∀ b ms key, (env.MVCCDelete b ms key).err = none →
          env.MVCCGetProto (env.MVCCDelete b ms key).batch key = .ok none) →
        (updateTxnWithExternalIntents env st args txn externalIntents).err = none →
        env.MVCCGetProto (updateTxnWithExternalIntents env st args txn externalIntents).st.batch
          (env.TransactionKey txn.Key txn.ID) = .ok none)) ∧
    (¬ (env.TxnAutoGC = true ∧ externalIntents = []) →
      updateTxnWithExternalIntents env st args txn externalIntents =
        { st := { st with
                  batch := (env.MVCCPutProto st.batch (some st.ms)
                    (env.TransactionKey txn.Key txn.ID)
                    (engine.ProtoMessage.transaction
                      { txn with Intents := externalIntents })).batch
                  ms := ((env.MVCCPutProto st.batch (some st.ms)
                    (env.TransactionKey txn.Key txn.ID)
                    (engine.ProtoMessage.transaction
                      { txn with Intents := externalIntents })).ms).getD st.ms }
          txn := { txn with Intents := externalIntents }
          err := (env.MVCCPutProto st.batch (some st.ms)
            (env.TransactionKey txn.Key txn.ID)
            (engine.ProtoMessage.transaction { txn with Intents := externalIntents })).err } ∧
      (∀ f, updateTxnWithExternalIntents (env.withMVCCDelete f) st args txn externalIntents =
        updateTxnWithExternalIntents env st args txn externalIntents)) := by
  refine ⟨?_, ?_⟩
  · rintro ⟨hgc, hext⟩
    have hcond : (env.TxnAutoGC && externalIntents.length == 0) = true := by
      simp [hgc, hext]
    have heq : updateTxnWithExternalIntents env st args txn externalIntents =
        { st := { st with
                  batch := (env.MVCCDelete st.batch st.ms
                    (env.TransactionKey txn.Key txn.ID)).batch
                  ms := (env.MVCCDelete st.batch st.ms
                    (env.TransactionKey txn.Key txn.ID)).ms }
          txn := txn
          err := (env.MVCCDelete st.batch st.ms (env.TransactionKey txn.Key txn.ID)).err } := by
      unfold updateTxnWithExternalIntents
      simp only [hcond, if_true]
    refine ⟨heq, ?_, ?_⟩
    · intro f
      have hcond' : ((env.withMVCCPutProto f).TxnAutoGC && externalIntents.length == 0) = true :=
        hcond
      unfold updateTxnWithExternalIntents
      simp only [hcond, hcond', if_true]
      rfl
    · intro hlaw herr
      rw [heq] at herr ⊢
      exact hlaw _ _ _ herr
  · intro hno
    have hcond : (env.TxnAutoGC && externalIntents.length == 0) = false := by
      cases hgc : env.TxnAutoGC
      · rfl
      · have hne : ¬ externalIntents = [] := fun he => hno ⟨hgc, he⟩
        simp [hne]
    refine ⟨?_, ?_⟩
    · unfold updateTxnWithExternalIntents
      simp only [hcond, Bool.false_eq_true, if_false]
    · intro f
      have hcond' : ((env.withMVCCDelete f).TxnAutoGC && externalIntents.length == 0) = false :=
        hcond
      unfold updateTxnWithExternalIntents
      simp only [hcond, hcond', Bool.false_eq_true, if_false]
      rfl

/-- C19 at the committed sample transaction: with auto-GC on and no external
intent the record is deleted and not found afterwards; with auto-GC on and
two external intents, and with auto-GC off and no external intent, the
record is written. -/
theorem record_deleted_iff_auto_gc_and_no_external_intents_witness :
    updateTxnWithExternalIntents (sim.env true)
        (sample.state (sample.batch [(sample.txnKey, sample.record roachpb.PENDING 1 ⟨5, 0⟩)]))
        (sample.request true false) { sample.hTxn with Status := roachpb.COMMITTED } [] =
      { st := sample.state
          { records := [], intents := [[11], [12], [13], [25]],
            writes := [sim.Write.Delete sample.txnKey] }
        txn := { sample.hTxn with Status := roachpb.COMMITTED }
        err := none } ∧
    (sim.env true).MVCCGetProto
        (updateTxnWithExternalIntents (sim.env true)
          (sample.state (sample.batch
            [(sample.txnKey, sample.record roachpb.PENDING 1 ⟨5, 0⟩)]))
          (sample.request true false) { sample.hTxn with Status := roachpb.COMMITTED }
          []).st.batch
        ((sim.env true).TransactionKey sample.hTxn.Key sample.hTxn.ID) = .ok none ∧
    updateTxnWithExternalIntents (sim.env true)
        (sample.state (sample.batch [(sample.txnKey, sample.record roachpb.PENDING 1 ⟨5, 0⟩)]))
        (sample.request true false) { sample.hTxn with Status := roachpb.COMMITTED }
        sample.externalIntents =
      { st := sample.state
          { records := [(sample.txnKey, sample.committedTxn)],
            intents := [[11], [12], [13], [25]],
            writes := [sim.Write.PutProto sample.txnKey
              (engine.ProtoMessage.transaction sample.committedTxn)] }
        txn := sample.committedTxn
        err := none } ∧
    updateTxnWithExternalIntents (sim.env false)
        (sample.state (sample.batch [(sample.txnKey, sample.record roachpb.PENDING 1 ⟨5, 0⟩)]))
        (sample.request true false) { sample.hTxn with Status := roachpb.COMMITTED } [] =
      { st := sample.state
          { records := [(sample.txnKey, { sample.hTxn with Status := roachpb.COMMITTED })],
            intents := [[11], [12], [13], [25]],
            writes := [sim.Write.PutProto sample.txnKey
              (engine.ProtoMessage.transaction
                { sample.hTxn with Status := roachpb.COMMITTED })] }
        txn := { sample.hTxn with Status := roachpb.COMMITTED }
        err := none } :=
  ⟨((record_deleted_iff_auto_gc_and_no_external_intents (sim.env true)
      (sample.state (sample.batch [(sample.txnKey, sample.record roachpb.PENDING 1 ⟨5, 0⟩)]))
      (sample.request true false) { sample.hTxn with Status := roachpb.COMMITTED } []).1
      ⟨rfl, rfl⟩).1,
   ((record_deleted_iff_auto_gc_and_no_external_intents (sim.env true)
      (sample.state (sample.batch [(sample.txnKey, sample.record roachpb.PENDING 1 ⟨5, 0⟩)]))
      (sample.request true false) { sample.hTxn with Status := roachpb.COMMITTED } []).1
      ⟨rfl, rfl⟩).2.2
      (fun b _ key _ => congrArg Except.ok (sim_lookup_erase b.records key)) rfl,
   ((record_deleted_iff_auto_gc_and_no_external_intents (sim.env true)
      (sample.state (sample.batch [(sample.txnKey, sample.record roachpb.PENDING 1 ⟨5, 0⟩)]))
      (sample.request true false) { sample.hTxn with Status := roachpb.COMMITTED }
      sample.externalIntents).2 (by decide)).1,
   ((record_deleted_iff_auto_gc_and_no_external_intents (sim.env false)
      (sample.state (sample.batch [(sample.txnKey, sample.record roachpb.PENDING 1 ⟨5, 0⟩)]))
      (sample.request true false) { sample.hTxn with Status := roachpb.COMMITTED } []).2
      (by decide)).1⟩

/-- Declaring the intent spans appends them, read-write and in request order. -/
theorem declare_intent_spans (intents : List roachpb.Span) (s : spanset.SpanSet) :
    intents.foldl (fun acc span => acc.Add spanset.SpanAccess.SpanReadWrite span) s =
      ⟨s.spans ++ intents.map (fun span => (spanset.SpanAccess.SpanReadWrite, span))⟩ := by
  induction intents generalizing s with
  | nil => simp
  | cons span rest ih =>
    rw [List.foldl_cons, ih]
    simp [spanset.SpanSet.Add]

/-- The declarations of the descriptor key and of the commit trigger are
appended to the span set. -/
theorem descriptorAndTrigger_append {β : Type} (env : Env β) (desc : roachpb.RangeDescriptor)
    (header : roachpb.Header) (et : roachpb.EndTransactionRequest) (s : spanset.SpanSet) :
    declareKeysEndTransaction.descriptorAndTrigger env desc header et s =
      ⟨s.spans ++
        (declareKeysEndTransaction.descriptorAndTrigger env desc header et ⟨[]⟩).spans⟩ := by
  unfold declareKeysEndTransaction.descriptorAndTrigger
  cases et.InternalCommitTrigger with
  | none => simp [spanset.SpanSet.Add]
  | some ict =>
    rcases ict with ⟨_ | st, _ | mt, _, _⟩ <;>
      simp [spanset.SpanSet.Add, declareKeysEndTransaction.split,
        declareKeysEndTransaction.merge]

/-- The span set `declareKeysEndTransaction` returns for a request with an
initialized transaction in its header. -/
theorem declareKeysEndTransaction_eq {β : Type} (env : Env β) (desc : roachpb.RangeDescriptor)
    (header : roachpb.Header) (req : roachpb.EndTransactionRequest) (spans : spanset.SpanSet)
    (txn : roachpb.Transaction) (htxn : header.Txn = some txn)
    (hinit : env.AssertInitialized txn = true) :
    declareKeysEndTransaction env desc header req spans =
      .ok ⟨(env.declareKeysWriteTransaction desc header req spans).spans ++
        req.IntentSpans.map (fun span => (spanset.SpanAccess.SpanReadWrite, span)) ++
        [(if !req.Commit && req.Poison then spanset.SpanAccess.SpanReadWrite
          else spanset.SpanAccess.SpanReadOnly,
          { Key := env.AbortSpanKey header.RangeID txn.ID, EndKey := [] })] ++
        (declareKeysEndTransaction.descriptorAndTrigger env desc header req ⟨[]⟩).spans⟩ := by
  unfold declareKeysEndTransaction
  simp only [htxn, hinit, if_true]
  rw [descriptorAndTrigger_append, declare_intent_spans]
  rfl

/-- C20: for a request whose header carries a transaction,
`declareKeysEndTransaction` stops on an uninitialized transaction and
otherwise returns the declarations of `declareKeysWriteTransaction`, then the
request's intent spans as read-write, then one declaration of the abort-span
key of that transaction under the header's range id, then the declarations
of the descriptor key and the commit trigger. The abort-span declaration is
read-write when the request is a poison rollback (`Commit = false` and
`Poison = true`) and read-only otherwise. When it is read-only, the
evaluation of the request never calls `SetAbortSpan`; when it is read-write,
intent resolution for an ABORTED transaction returns the state `SetAbortSpan`
left. Where no other declaration is on that very span, the span is declared
exactly once. -/
theorem abort_span_declared_read_write_iff_poison_rollback {β : Type} (env : Env β)
    (desc : roachpb.RangeDescriptor) (header : roachpb.Header)
    (req : roachpb.EndTransactionRequest) (spans : spanset.SpanSet)
    (txn : roachpb.Transaction) (htxn : header.Txn = some txn) :
    (env.AssertInitialized txn = false →
      declareKeysEndTransaction env desc header req spans =
        .error (Crash.uninitializedTxn txn)) ∧
    (env.AssertInitialized txn = true →
      (req.Commit = false ∧ req.Poison = true →
        declareKeysEndTransaction env desc header req spans =
          .ok ⟨(env.declareKeysWriteTransaction desc header req spans).spans ++
            req.IntentSpans.map (fun span => (spanset.SpanAccess.SpanReadWrite, span)) ++
            [(spanset.SpanAccess.SpanReadWrite,
              { Key := env.AbortSpanKey header.RangeID txn.ID, EndKey := [] })] ++
            (declareKeysEndTransaction.descriptorAndTrigger env desc header req ⟨[]⟩).spans⟩ ∧
        ∀ (desc' : roachpb.RangeDescriptor) (st : State β) (txn' : roachpb.Transaction)
          (evalCtx : EvalContext) (l : ResolveLoop β),
          txn'.Status = roachpb.ABORTED →
          resolveLocalIntents.loop env desc' st req txn' = .ok l →
          ∃ ext err, resolveLocalIntents env desc' st req txn' evalCtx =
            .ok (resolveLocalIntents.poisonedState env evalCtx txn' l, ext, err)) ∧
      (¬ (req.Commit = false ∧ req.Poison = true) →
        declareKeysEndTransaction env desc header req spans =
          .ok ⟨(env.declareKeysWriteTransaction desc header req spans).spans ++
            req.IntentSpans.map (fun span => (spanset.SpanAccess.SpanReadWrite, span)) ++
            [(spanset.SpanAccess.SpanReadOnly,
              { Key := env.AbortSpanKey header.RangeID txn.ID, EndKey := [] })] ++
            (declareKeysEndTransaction.descriptorAndTrigger env desc header req ⟨[]⟩).spans⟩ ∧
        ∀ f (st : State β) (cArgs : CommandArgs) (reply : roachpb.EndTransactionResponse),
          cArgs.Args = req →
          evalEndTransaction (env.withSetAbortSpan f) st cArgs reply =
            evalEndTransaction env st cArgs reply) ∧
      ∀ r, declareKeysEndTransaction env desc header req spans = .ok r →
        (∀ d ∈ (env.declareKeysWriteTransaction desc header req spans).spans,
          d.2 ≠ { Key := env.AbortSpanKey header.RangeID txn.ID, EndKey := [] }) →
        (∀ span ∈ req.IntentSpans,
          span ≠ { Key := env.AbortSpanKey header.RangeID txn.ID, EndKey := [] }) →
        (∀ d ∈ (declareKeysEndTransaction.descriptorAndTrigger env desc header req ⟨[]⟩).spans,
          d.2 ≠ { Key := env.AbortSpanKey header.RangeID txn.ID, EndKey := [] }) →
        (r.spans.map Prod.snd).count
          { Key := env.AbortSpanKey header.RangeID txn.ID, EndKey := [] } = 1) := by
  refine ⟨?_, ?_⟩
  · intro hinit
    unfold declareKeysEndTransaction
    simp [htxn, hinit]
  · intro hinit
    have heq := declareKeysEndTransaction_eq env desc header req spans txn htxn hinit
    refine ⟨?_, ?_, ?_⟩
    · rintro ⟨hc, hp⟩
      refine ⟨?_, ?_⟩
      · rw [heq]
        simp [hc, hp]
      · intro desc' st txn' evalCtx l hs hloop
        rw [resolveLocalIntents_eq, hloop]
        simp only [hp, hs, beq_self_eq_true, Bool.and_self, if_true]
        cases (resolveLocalIntents.poison env evalCtx txn' l).err with
        | none => exact ⟨_, _, rfl⟩
        | some err => exact ⟨_, _, rfl⟩
    · intro hno
      refine ⟨?_, ?_⟩
      · have hcond : (!req.Commit && req.Poison) = false := by
          cases hc : req.Commit
          · cases hp : req.Poison
            · rfl
            · exact absurd ⟨hc, hp⟩ hno
          · rfl
        rw [heq]
        simp [hcond]
      · intro f st cArgs reply hargs
        exact evalEndTransaction_withSetAbortSpan env f st cArgs reply (by rw [hargs]; exact hno)
    · intro r hr hbase hintents hrest
      rw [heq] at hr
      cases hr
      simp only [List.map_append, List.count_append, List.map_map, List.map_cons, List.map_nil]
      have h1 : ((env.declareKeysWriteTransaction desc header req spans).spans.map
          Prod.snd).count { Key := env.AbortSpanKey header.RangeID txn.ID, EndKey := [] } = 0 := by
        rw [List.count_eq_zero]
        intro hmem
        obtain ⟨d, hd, hd2⟩ := List.mem_map.mp hmem
        exact hbase d hd hd2
      have h2 : (req.IntentSpans.map
          (Prod.snd ∘ fun span => (spanset.SpanAccess.SpanReadWrite, span))).count
          { Key := env.AbortSpanKey header.RangeID txn.ID, EndKey := [] } = 0 := by
        rw [List.count_eq_zero]
        intro hmem
        obtain ⟨d, hd, hd2⟩ := List.mem_map.mp hmem
        exact hintents d hd hd2
      have h3 : ((declareKeysEndTransaction.descriptorAndTrigger env desc header req
          ⟨[]⟩).spans.map Prod.snd).count
          { Key := env.AbortSpanKey header.RangeID txn.ID, EndKey := [] } = 0 := by
        rw [List.count_eq_zero]
        intro hmem
        obtain ⟨d, hd, hd2⟩ := List.mem_map.mp hmem
        exact hrest d hd hd2
      rw [h1, h2, h3]
      simp

/-- C20 at the sample requests with an empty span set: the poisoning rollback
declares the abort-span key `[3, 1, 0, 7]` read-write, the poisoning commit
declares it read-only, the key is declared once, and a transaction with the
zero id stops the declaration. -/
theorem abort_span_declared_read_write_iff_poison_rollback_witness :
    declareKeysEndTransaction (sim.env true) sample.desc (sample.cArgs false true).Header
        (sample.request false true) ⟨[]⟩ =
      .ok ⟨[(spanset.SpanAccess.SpanReadWrite, ⟨[1, 7, 10], []⟩),
            (spanset.SpanAccess.SpanReadWrite, ⟨[11], []⟩),
            (spanset.SpanAccess.SpanReadWrite, ⟨[12], [30]⟩),
            (spanset.SpanAccess.SpanReadWrite, ⟨[25], []⟩),
            (spanset.SpanAccess.SpanReadWrite, ⟨[3, 1, 0, 7], []⟩),
            (spanset.SpanAccess.SpanReadOnly, ⟨[5, 10], []⟩)]⟩ ∧
    declareKeysEndTransaction (sim.env true) sample.desc (sample.cArgs true true).Header
        (sample.request true true) ⟨[]⟩ =
      .ok ⟨[(spanset.SpanAccess.SpanReadWrite, ⟨[1, 7, 10], []⟩),
            (spanset.SpanAccess.SpanReadWrite, ⟨[11], []⟩),
            (spanset.SpanAccess.SpanReadWrite, ⟨[12], [30]⟩),
            (spanset.SpanAccess.SpanReadWrite, ⟨[25], []⟩),
            (spanset.SpanAccess.SpanReadOnly, ⟨[3, 1, 0, 7], []⟩),
            (spanset.SpanAccess.SpanReadOnly, ⟨[5, 10], []⟩)]⟩ ∧
    (([(spanset.SpanAccess.SpanReadWrite, (⟨[1, 7, 10], []⟩ : roachpb.Span)),
            (spanset.SpanAccess.SpanReadWrite, ⟨[11], []⟩),
            (spanset.SpanAccess.SpanReadWrite, ⟨[12], [30]⟩),
            (spanset.SpanAccess.SpanReadWrite, ⟨[25], []⟩),
            (spanset.SpanAccess.SpanReadWrite, ⟨[3, 1, 0, 7], []⟩),
            (spanset.SpanAccess.SpanReadOnly, ⟨[5, 10], []⟩)] :
          List (spanset.SpanAccess × roachpb.Span)).map Prod.snd).count ⟨[3, 1, 0, 7], []⟩ = 1 ∧
    declareKeysEndTransaction (sim.env true) sample.desc
        { RangeID := 1, Txn := some { sample.hTxn with ID := 0 } }
        (sample.request false true) ⟨[]⟩ =
      .error (Crash.uninitializedTxn { sample.hTxn with ID := 0 }) :=
  ⟨((((abort_span_declared_read_write_iff_poison_rollback (sim.env true) sample.desc
      (sample.cArgs false true).Header (sample.request false true) ⟨[]⟩ sample.hTxn rfl).2
      rfl).1) ⟨rfl, rfl⟩).1,
   ((((abort_span_declared_read_write_iff_poison_rollback (sim.env true) sample.desc
      (sample.cArgs true true).Header (sample.request true true) ⟨[]⟩ sample.hTxn rfl).2
      rfl).2.1) (by decide)).1,
   ((abort_span_declared_read_write_iff_poison_rollback (sim.env true) sample.desc
      (sample.cArgs false true).Header (sample.request false true) ⟨[]⟩ sample.hTxn rfl).2
      rfl).2.2 _ rfl (by decide) (by decide) (by decide),
   (abort_span_declared_read_write_iff_poison_rollback (sim.env true) sample.desc
      { RangeID := 1, Txn := some { sample.hTxn with ID := 0 } }
      (sample.request false true) ⟨[]⟩ { sample.hTxn with ID := 0 } rfl).1 rfl⟩

/-- The declarations of a split trigger are appended to the span set. -/
theorem declareKeysEndTransaction_split_spans {β : Type} (env : Env β)
    (header : roachpb.Header) (st : roachpb.SplitTrigger) (s : spanset.SpanSet) :
    declareKeysEndTransaction.split env header st s =
      ⟨s.spans ++
        [(spanset.SpanAccess.SpanReadWrite,
            { Key := st.LeftDesc.StartKey, EndKey := st.RightDesc.EndKey }),
         (spanset.SpanAccess.SpanReadWrite,
            { Key := env.MakeRangeKeyPrefix st.LeftDesc.StartKey
              EndKey := env.PrefixEnd (env.MakeRangeKeyPrefix st.RightDesc.EndKey) }),
         (spanset.SpanAccess.SpanReadOnly,
            { Key := env.MakeRangeIDReplicatedPrefix header.RangeID
              EndKey := env.PrefixEnd (env.MakeRangeIDReplicatedPrefix header.RangeID) }),
         (spanset.SpanAccess.SpanReadWrite,
            { Key := env.MakeRangeIDReplicatedPrefix st.RightDesc.RangeID
              EndKey := env.PrefixEnd (env.MakeRangeIDReplicatedPrefix st.RightDesc.RangeID) }),
         (spanset.SpanAccess.SpanReadWrite,
            { Key := env.MakeRangeIDUnreplicatedPrefix st.RightDesc.RangeID
              EndKey := env.PrefixEnd
                (env.MakeRangeIDUnreplicatedPrefix st.RightDesc.RangeID) }),
         (spanset.SpanAccess.SpanReadOnly,
            { Key := env.RangeLastReplicaGCTimestampKey st.LeftDesc.RangeID, EndKey := [] }),
         (spanset.SpanAccess.SpanReadWrite,
            { Key := env.RangeLastReplicaGCTimestampKey st.RightDesc.RangeID, EndKey := [] }),
         (spanset.SpanAccess.SpanReadOnly,
            { Key := env.AbortSpanMinKey header.RangeID
              EndKey := env.AbortSpanMaxKey header.RangeID })]⟩ := by
  simp [declareKeysEndTransaction.split, spanset.SpanSet.Add]

/-- The declarations of a merge trigger are appended to the span set. -/
theorem declareKeysEndTransaction_merge_spans {β : Type} (env : Env β)
    (header : roachpb.Header) (mt : roachpb.MergeTrigger) (s : spanset.SpanSet) :
    declareKeysEndTransaction.merge env header mt s =
      ⟨s.spans ++
        [(spanset.SpanAccess.SpanReadWrite,
            { Key := env.MakeRangeIDReplicatedPrefix header.RangeID
              EndKey := env.PrefixEnd (env.MakeRangeIDReplicatedPrefix header.RangeID) }),
         (spanset.SpanAccess.SpanReadWrite,
            { Key := mt.RightDesc.StartKey, EndKey := mt.RightDesc.EndKey }),
         (spanset.SpanAccess.SpanReadWrite,
            { Key := env.MakeRangeKeyPrefix mt.RightDesc.StartKey
              EndKey := env.MakeRangeKeyPrefix mt.RightDesc.EndKey }),
         (spanset.SpanAccess.SpanReadOnly,
            { Key := env.MakeRangeIDReplicatedPrefix mt.RightDesc.RangeID
              EndKey := env.PrefixEnd
                (env.MakeRangeIDReplicatedPrefix mt.RightDesc.RangeID) })]⟩ := by
  simp [declareKeysEndTransaction.merge, spanset.SpanSet.Add]

/-- The declarations up to the descriptor key are those of the request without
its commit trigger; the declarations of the split trigger and then of the
merge trigger follow. -/
theorem descriptorAndTrigger_of_trigger {β : Type} (env : Env β)
    (desc : roachpb.RangeDescriptor) (header : roachpb.Header)
    (req : roachpb.EndTransactionRequest) (s : spanset.SpanSet)
    (ict : roachpb.InternalCommitTrigger) (hict : req.InternalCommitTrigger = some ict) :
    declareKeysEndTransaction.descriptorAndTrigger env desc header req s =
      ⟨(declareKeysEndTransaction.descriptorAndTrigger env desc header
          { req with InternalCommitTrigger := none } s).spans ++
        (match ict.SplitTrigger with
          | some st => (declareKeysEndTransaction.split env header st ⟨[]⟩).spans
          | none => []) ++
        (match ict.MergeTrigger with
          | some mt => (declareKeysEndTransaction.merge env header mt ⟨[]⟩).spans
          | none => [])⟩ := by
  unfold declareKeysEndTransaction.descriptorAndTrigger
  simp only [hict]
  rcases ict with ⟨_ | st, _ | mt, _, _⟩ <;>
    simp [declareKeysEndTransaction_split_spans, declareKeysEndTransaction_merge_spans,
      spanset.SpanSet.Add]

/-- Where `declareKeysWriteTransaction` does not look at the commit trigger,
the declarations of a request with a commit trigger are those of the request
without it, followed by the declarations of the split trigger and then of
the merge trigger. -/
theorem declareKeysEndTransaction_of_trigger {β : Type} (env : Env β)
    (desc : roachpb.RangeDescriptor) (header : roachpb.Header)
    (req : roachpb.EndTransactionRequest) (spans : spanset.SpanSet)
    (ict : roachpb.InternalCommitTrigger) (hict : req.InternalCommitTrigger = some ict)
    (hbase : env.declareKeysWriteTransaction desc header req spans =
      env.declareKeysWriteTransaction desc header
        { req with InternalCommitTrigger := none } spans) :
    declareKeysEndTransaction env desc header req spans =
      (declareKeysEndTransaction env desc header
          { req with InternalCommitTrigger := none } spans).map
        (fun base => ⟨base.spans ++
          (match ict.SplitTrigger with
            | some st => (declareKeysEndTransaction.split env header st ⟨[]⟩).spans
            | none => []) ++
          (match ict.MergeTrigger with
            | some mt => (declareKeysEndTransaction.merge env header mt ⟨[]⟩).spans
            | none => [])⟩) := by
  unfold declareKeysEndTransaction
  simp only [hbase]
  cases header.Txn with
  | none =>
    simp only [Except.map]
    rw [descriptorAndTrigger_of_trigger env desc header req _ ict hict]
  | some txn =>
    simp only
    cases env.AssertInitialized txn with
    | false => simp [Except.map]
    | true =>
      simp only [if_true, Except.map]
      rw [descriptorAndTrigger_of_trigger env desc header req _ ict hict]

/-- C21: for a request whose commit trigger carries a split trigger,
`declareKeysEndTransaction` declares for the split trigger exactly these
eight spans, in this order: read-write from the LHS start key to the RHS end
key; read-write from the range-key prefix of the LHS start key to the prefix
end of the range-key prefix of the RHS end key; read-only the
range-ID-replicated prefix span of the header's range; read-write the RHS
range-ID-replicated prefix span; read-write the RHS range-ID-unreplicated
prefix span; read-only the LHS last-replica-GC-timestamp key; read-write the
RHS last-replica-GC-timestamp key; read-only the abort-span key range of the
header's range. Where `declareKeysWriteTransaction` does not look at the
commit trigger, the declarations of the request are those of the same
request without commit trigger, followed by these eight spans and, when the
trigger carries a merge trigger as well, by the declarations of the merge
trigger; a crash of the one is a crash of the other. -/
theorem split_trigger_declares_eight_spans {β : Type} (env : Env β)
    (desc : roachpb.RangeDescriptor) (header : roachpb.Header)
    (req : roachpb.EndTransactionRequest) (spans : spanset.SpanSet)
    (ict : roachpb.InternalCommitTrigger) (st : roachpb.SplitTrigger)
    (hict : req.InternalCommitTrigger = some ict) (hsplit : ict.SplitTrigger = some st) :
    (declareKeysEndTransaction.split env header st ⟨[]⟩).spans =
      [(spanset.SpanAccess.SpanReadWrite,
          { Key := st.LeftDesc.StartKey, EndKey := st.RightDesc.EndKey }),
       (spanset.SpanAccess.SpanReadWrite,
          { Key := env.MakeRangeKeyPrefix st.LeftDesc.StartKey
            EndKey := env.PrefixEnd (env.MakeRangeKeyPrefix st.RightDesc.EndKey) }),
       (spanset.SpanAccess.SpanReadOnly,
          { Key := env.MakeRangeIDReplicatedPrefix header.RangeID
            EndKey := env.PrefixEnd (env.MakeRangeIDReplicatedPrefix header.RangeID) }),
       (spanset.SpanAccess.SpanReadWrite,
          { Key := env.MakeRangeIDReplicatedPrefix st.RightDesc.RangeID
            EndKey := env.PrefixEnd (env.MakeRangeIDReplicatedPrefix st.RightDesc.RangeID) }),
       (spanset.SpanAccess.SpanReadWrite,
          { Key := env.MakeRangeIDUnreplicatedPrefix st.RightDesc.RangeID
            EndKey := env.PrefixEnd
              (env.MakeRangeIDUnreplicatedPrefix st.RightDesc.RangeID) }),
       (spanset.SpanAccess.SpanReadOnly,
          { Key := env.RangeLastReplicaGCTimestampKey st.LeftDesc.RangeID, EndKey := [] }),
       (spanset.SpanAccess.SpanReadWrite,
          { Key := env.RangeLastReplicaGCTimestampKey st.RightDesc.RangeID, EndKey := [] }),
       (spanset.SpanAccess.SpanReadOnly,
          { Key := env.AbortSpanMinKey header.RangeID
            EndKey := env.AbortSpanMaxKey header.RangeID })] ∧
    (env.declareKeysWriteTransaction desc header req spans =
        env.declareKeysWriteTransaction desc header
          { req with InternalCommitTrigger := none } spans →
      declareKeysEndTransaction env desc header req spans =
        (declareKeysEndTransaction env desc header
            { req with InternalCommitTrigger := none } spans).map
          (fun base => ⟨base.spans ++
            (declareKeysEndTransaction.split env header st ⟨[]⟩).spans ++
            (match ict.MergeTrigger with
              | some mt => (declareKeysEndTransaction.merge env header mt ⟨[]⟩).spans
              | none => [])⟩)) := by
  refine ⟨?_, ?_⟩
  · rw [declareKeysEndTransaction_split_spans]
    rfl
  · intro hbase
    rw [declareKeysEndTransaction_of_trigger env desc header req spans ict hict hbase]
    simp only [hsplit]

/-- C21 at the sample commit with the split of the sample range at key `[15]`
and an empty span set: the four declarations of the request without trigger
(record key, three intent spans, abort-span key, descriptor key) are followed
by the eight of the split trigger. -/
theorem split_trigger_declares_eight_spans_witness :
    declareKeysEndTransaction (sim.env true) sample.desc (sample.cArgsSplit true false).Header
        (sample.cArgsSplit true false).Args ⟨[]⟩ =
      .ok ⟨[(spanset.SpanAccess.SpanReadWrite, ⟨[1, 7, 10], []⟩),
            (spanset.SpanAccess.SpanReadWrite, ⟨[11], []⟩),
            (spanset.SpanAccess.SpanReadWrite, ⟨[12], [30]⟩),
            (spanset.SpanAccess.SpanReadWrite, ⟨[25], []⟩),
            (spanset.SpanAccess.SpanReadOnly, ⟨[3, 1, 0, 7], []⟩),
            (spanset.SpanAccess.SpanReadOnly, ⟨[5, 10], []⟩),
            (spanset.SpanAccess.SpanReadWrite, ⟨[10], [20]⟩),
            (spanset.SpanAccess.SpanReadWrite, ⟨[6, 10], [6, 20, 256]⟩),
            (spanset.SpanAccess.SpanReadOnly, ⟨[3, 1], [3, 1, 256]⟩),
            (spanset.SpanAccess.SpanReadWrite, ⟨[3, 2], [3, 2, 256]⟩),
            (spanset.SpanAccess.SpanReadWrite, ⟨[7, 2], [7, 2, 256]⟩),
            (spanset.SpanAccess.SpanReadOnly, ⟨[2, 1], []⟩),
            (spanset.SpanAccess.SpanReadWrite, ⟨[2, 2], []⟩),
            (spanset.SpanAccess.SpanReadOnly, ⟨[3, 1, 0], [3, 1, 1]⟩)]⟩ :=
  (split_trigger_declares_eight_spans (sim.env true) sample.desc
    (sample.cArgsSplit true false).Header (sample.cArgsSplit true false).Args ⟨[]⟩
    sample.splitCommitTrigger
    { LeftDesc := { sample.desc with EndKey := [15] }
      RightDesc := { sample.desc with RangeID := 2, StartKey := [15] } } rfl rfl).2 rfl

/-- A key followed by a suffix is not less than the key. -/
theorem roachpb.Key.less_append_self (x suffix : roachpb.Key) :
    roachpb.Key.Less (x ++ suffix) x = false := by
  induction x with
  | nil => cases suffix <;> rfl
  | cons a xs ih => simp [roachpb.Key.Less, ih]

/-- Two keys of which neither is less than the other are equal. -/
theorem roachpb.Key.eq_or_less_of_not_less (k s : roachpb.Key)
    (h : roachpb.Key.Less k s = false) : k = s ∨ roachpb.Key.Less s k = true := by
  induction k generalizing s with
  | nil =>
    cases s with
    | nil => exact Or.inl rfl
    | cons b ss => simp [roachpb.Key.Less] at h
  | cons a ks ih =>
    cases s with
    | nil => exact Or.inr rfl
    | cons b ss =>
      simp only [roachpb.Key.Less, Bool.or_eq_false_iff, Bool.and_eq_false_iff,
        decide_eq_false_iff_not] at h
      obtain ⟨hlt, hrest⟩ := h
      rcases Nat.lt_or_ge b a with hba | hab
      · right
        simp [roachpb.Key.Less, hba]
      · have heq : a = b := Nat.le_antisymm hab (Nat.not_lt.mp hlt)
        subst heq
        have hks : roachpb.Key.Less ks ss = false := by
          rcases hrest with h1 | h1
          · exact absurd rfl h1
          · exact h1
        rcases ih ss hks with h2 | h2
        · left
          rw [h2]
        · right
          simp [roachpb.Key.Less, h2]

/-- A key above another stays above it when a suffix is appended. -/
theorem roachpb.Key.not_less_append_of_less (x y suffix : roachpb.Key)
    (h : roachpb.Key.Less x y = true) : roachpb.Key.Less (y ++ suffix) x = false := by
  induction x generalizing y with
  | nil =>
    cases y with
    | nil => simp [roachpb.Key.Less] at h
    | cons b ys => rfl
  | cons a xs ih =>
    cases y with
    | nil => simp [roachpb.Key.Less] at h
    | cons b ys =>
      simp only [roachpb.Key.Less, Bool.or_eq_true, Bool.and_eq_true, decide_eq_true_eq] at h
      rcases h with hab | ⟨hab, hrest⟩
      · have h1 : ¬ b < a := Nat.not_lt.mpr (Nat.le_of_lt hab)
        have h2 : ¬ b = a := fun e => by omega
        simp [roachpb.Key.Less, h1, h2]
      · subst hab
        simp [roachpb.Key.Less, ih ys hrest]

/-- The encoding of the reference environment keeps the order of keys, also
when a suffix follows the smaller key. -/
theorem sim_encodeKey_less (a b suffix : roachpb.Key) (h : roachpb.Key.Less a b = true) :
    roachpb.Key.Less (sim.encodeKey a ++ suffix) (sim.encodeKey b) = true := by
  induction a generalizing b with
  | nil =>
    cases b with
    | nil => simp [roachpb.Key.Less] at h
    | cons y ys => simp [sim.encodeKey, roachpb.Key.Less]
  | cons x xs ih =>
    cases b with
    | nil => simp [roachpb.Key.Less] at h
    | cons y ys =>
      simp only [roachpb.Key.Less, Bool.or_eq_true, Bool.and_eq_true, decide_eq_true_eq] at h
      have ih' := ih ys
      simp only [sim.encodeKey] at ih' ⊢
      rcases h with hxy | ⟨hxy, hrest⟩
      · simp [roachpb.Key.Less, hxy]
      · subst hxy
        have h2 := ih' hrest
        simp only [List.append_assoc, List.singleton_append] at h2
        simp [roachpb.Key.Less, h2]

/-- The range-key prefix of the encoded reference environment keeps the order
of keys, also when a suffix follows the smaller key. -/
theorem sim_rangeKeyPrefix_less (a b suffix : roachpb.Key) (h : roachpb.Key.Less a b = true) :
    roachpb.Key.Less (sim.rangeKeyPrefix a ++ suffix) (sim.rangeKeyPrefix b) = true := by
  have := sim_encodeKey_less a b suffix h
  simp [sim.rangeKeyPrefix, roachpb.Key.Less, this]

/-- C22: for a request whose commit trigger carries a merge trigger,
`declareKeysEndTransaction` declares for the merge trigger exactly these four
spans, in this order: read-write the range-ID-replicated prefix span of the
header's range, the LHS; read-write from the RHS start key to the RHS end
key; read-write from the range-key prefix of the RHS start key to the
range-key prefix of the RHS end key; read-only the RHS range-ID-replicated
prefix span. Where `declareKeysWriteTransaction` does not look at the commit
trigger, the declarations of the request are those of the same request
without commit trigger, followed by the declarations of the split trigger
when the trigger carries one as well, and then by these four spans; a crash
of the one is a crash of the other. Where the range-key prefix keeps the
order of keys, also when a suffix follows the smaller key, the third span
contains every key that starts with the range-key prefix of a key of the
RHS. -/
theorem merge_trigger_declares_four_spans {β : Type} (env : Env β)
    (desc : roachpb.RangeDescriptor) (header : roachpb.Header)
    (req : roachpb.EndTransactionRequest) (spans : spanset.SpanSet)
    (ict : roachpb.InternalCommitTrigger) (mt : roachpb.MergeTrigger)
    (hict : req.InternalCommitTrigger = some ict) (hmerge : ict.MergeTrigger = some mt) :
    (declareKeysEndTransaction.merge env header mt ⟨[]⟩).spans =
      [(spanset.SpanAccess.SpanReadWrite,
          { Key := env.MakeRangeIDReplicatedPrefix header.RangeID
            EndKey := env.PrefixEnd (env.MakeRangeIDReplicatedPrefix header.RangeID) }),
       (spanset.SpanAccess.SpanReadWrite,
          { Key := mt.RightDesc.StartKey, EndKey := mt.RightDesc.EndKey }),
       (spanset.SpanAccess.SpanReadWrite,
          { Key := env.MakeRangeKeyPrefix mt.RightDesc.StartKey
            EndKey := env.MakeRangeKeyPrefix mt.RightDesc.EndKey }),
       (spanset.SpanAccess.SpanReadOnly,
          { Key := env.MakeRangeIDReplicatedPrefix mt.RightDesc.RangeID
            EndKey := env.PrefixEnd
              (env.MakeRangeIDReplicatedPrefix mt.RightDesc.RangeID) })] ∧
    (env.declareKeysWriteTransaction desc header req spans =
        env.declareKeysWriteTransaction desc header
          { req with InternalCommitTrigger := none } spans →
      declareKeysEndTransaction env desc header req spans =
        (declareKeysEndTransaction env desc header
            { req with InternalCommitTrigger := none } spans).map
          (fun base => ⟨base.spans ++
            (match ict.SplitTrigger with
              | some st => (declareKeysEndTransaction.split env header st ⟨[]⟩).spans
              | none => []) ++
            (declareKeysEndTransaction.merge env header mt ⟨[]⟩).spans⟩)) ∧
    ((∀ a b suffix : roachpb.Key, roachpb.Key.Less a b = true →
        roachpb.Key.Less (env.MakeRangeKeyPrefix a ++ suffix) (env.MakeRangeKeyPrefix b)
          = true) →
      ∀ k suffix : roachpb.Key,
        roachpb.Key.Less k mt.RightDesc.StartKey = false →
        roachpb.Key.Less k mt.RightDesc.EndKey = true →
        roachpb.Key.Less (env.MakeRangeKeyPrefix k ++ suffix)
          (env.MakeRangeKeyPrefix mt.RightDesc.StartKey) = false ∧
        roachpb.Key.Less (env.MakeRangeKeyPrefix k ++ suffix)
          (env.MakeRangeKeyPrefix mt.RightDesc.EndKey) = true) := by
  refine ⟨?_, ?_, ?_⟩
  · rw [declareKeysEndTransaction_merge_spans]
    rfl
  · intro hbase
    rw [declareKeysEndTransaction_of_trigger env desc header req spans ict hict hbase]
    simp only [hmerge]
  · intro henc k suffix hlow hhigh
    refine ⟨?_, henc k _ suffix hhigh⟩
    rcases roachpb.Key.eq_or_less_of_not_less k _ hlow with heq | hlt
    · rw [heq]
      exact roachpb.Key.less_append_self _ suffix
    · have h := henc _ k [] hlt
      rw [List.append_nil] at h
      exact roachpb.Key.not_less_append_of_less _ _ suffix h

/-- C22 at the sample commit with a merge of the sample range with the range
`[20]` to `[30]` and an empty span set: the declarations of the request
without trigger are followed by the four of the merge trigger; with the
encoded range-key prefix, the key that starts with the prefix of `[25]` and
goes on with `[9]` lies in the span from the prefix of `[20]` to the prefix
of `[30]`. -/
theorem merge_trigger_declares_four_spans_witness :
    declareKeysEndTransaction (sim.env true) sample.desc
        (sample.cArgsTrigger sample.mergeCommitTrigger).Header
        (sample.cArgsTrigger sample.mergeCommitTrigger).Args ⟨[]⟩ =
      .ok ⟨[(spanset.SpanAccess.SpanReadWrite, ⟨[1, 7, 10], []⟩),
            (spanset.SpanAccess.SpanReadWrite, ⟨[11], []⟩),
            (spanset.SpanAccess.SpanReadWrite, ⟨[12], [30]⟩),
            (spanset.SpanAccess.SpanReadWrite, ⟨[25], []⟩),
            (spanset.SpanAccess.SpanReadOnly, ⟨[3, 1, 0, 7], []⟩),
            (spanset.SpanAccess.SpanReadOnly, ⟨[5, 10], []⟩),
            (spanset.SpanAccess.SpanReadWrite, ⟨[3, 1], [3, 1, 256]⟩),
            (spanset.SpanAccess.SpanReadWrite, ⟨[20], [30]⟩),
            (spanset.SpanAccess.SpanReadWrite, ⟨[6, 20], [6, 30]⟩),
            (spanset.SpanAccess.SpanReadOnly, ⟨[3, 2], [3, 2, 256]⟩)]⟩ ∧
    (roachpb.Key.Less ([6, 26, 0] ++ [9]) [6, 21, 0] = false ∧
      roachpb.Key.Less ([6, 26, 0] ++ [9]) [6, 31, 0] = true) :=
  ⟨(merge_trigger_declares_four_spans (sim.env true) sample.desc
    (sample.cArgsTrigger sample.mergeCommitTrigger).Header
    (sample.cArgsTrigger sample.mergeCommitTrigger).Args ⟨[]⟩
    sample.mergeCommitTrigger
    { LeftDesc := { sample.desc with EndKey := [30] }
      RightDesc := { sample.desc with RangeID := 2, StartKey := [20], EndKey := [30] }
      RightMVCCStats := { enginepb.MVCCStats.zero with KeyCount := 4, SysCount := 2 } }
    rfl rfl).2.1 rfl,
   (merge_trigger_declares_four_spans (sim.encodedEnv true) sample.desc
    (sample.cArgsTrigger sample.mergeCommitTrigger).Header
    (sample.cArgsTrigger sample.mergeCommitTrigger).Args ⟨[]⟩
    sample.mergeCommitTrigger
    { LeftDesc := { sample.desc with EndKey := [30] }
      RightDesc := { sample.desc with RangeID := 2, StartKey := [20], EndKey := [30] }
      RightMVCCStats := { enginepb.MVCCStats.zero with KeyCount := 4, SysCount := 2 } }
    rfl rfl).2.2 sim_rangeKeyPrefix_less [25] [9] rfl rfl⟩

/-- What a split that returned without error went through: the descriptor
matched, every read and write succeeded, and the stats and the result
returned are the LHS delta and the split payload with the RHS delta. -/
theorem splitTrigger_ok {β : Type} (env : Env β) (rec : EvalContext) (batch : β)
    (bothDeltaMS : enginepb.MVCCStats) (split : roachpb.SplitTrigger) (ts : hlc.Timestamp)
    (r : SplitResult β)
    (h : splitTrigger env rec batch bothDeltaMS split ts = .ok r) (herr : r.err = none) :
    ∃ leftMS replicaGCTS preRightMS leftLease replica gcThreshold txnSpanGCThreshold,
      rec.Desc.StartKey = split.LeftDesc.StartKey ∧
      rec.Desc.EndKey = split.RightDesc.EndKey ∧
      env.ComputeStatsForRange split.LeftDesc batch ts.WallTime = .ok leftMS ∧
      rec.GetLastReplicaGCTimestamp = .ok replicaGCTS ∧
      (splitTrigger.put env batch split replicaGCTS).err = none ∧
      (splitTrigger.copy env rec batch bothDeltaMS split ts replicaGCTS).err = none ∧
      splitTrigger.rightMS env rec.GetMVCCStats leftMS
        (splitTrigger.copy env rec batch bothDeltaMS split ts replicaGCTS).ms split
        (splitTrigger.copy env rec batch bothDeltaMS split ts replicaGCTS).batch ts
        = .ok preRightMS ∧
      rec.LoadLease = .ok leftLease ∧
      split.RightDesc.GetReplicaDescriptor leftLease.Replica.StoreID = some replica ∧
      rec.LoadGCThreshold = .ok gcThreshold ∧
      rec.LoadTxnSpanGCThreshold = .ok txnSpanGCThreshold ∧
      (splitTrigger.init env
        (splitTrigger.copy env rec batch bothDeltaMS split ts replicaGCTS).batch preRightMS
        split leftLease replica gcThreshold txnSpanGCThreshold).err = none ∧
      r.ms = splitTrigger.leftDeltaMS rec leftMS ∧
      r.res =
        { result.Result.empty with
          Replicated :=
            { result.Result.empty.Replicated with
              BlockReads := true
              Split := some
                { SplitTrigger := split
                  RHSDelta := splitTrigger.rightDeltaMS rec leftMS
                    (splitTrigger.copy env rec batch bothDeltaMS split ts replicaGCTS).ms
                    preRightMS
                    (splitTrigger.init env
                      (splitTrigger.copy env rec batch bothDeltaMS split ts replicaGCTS).batch
                      preRightMS split leftLease replica gcThreshold
                      txnSpanGCThreshold).ms } } } := by
  unfold splitTrigger at h
  simp only at h
  split at h
  · cases h
    simp [SplitResult.fail] at herr
  rename_i hmatch
  split at h
  · cases h
    simp [SplitResult.fail] at herr
  rename_i leftMS hleft
  split at h
  · cases h
    simp [SplitResult.fail] at herr
  rename_i replicaGCTS hgc
  split at h
  · cases h
    simp [SplitResult.fail] at herr
  rename_i hput
  split at h
  · cases h
    simp [SplitResult.fail] at herr
  rename_i hcopy
  split at h
  · cases h
    simp [SplitResult.fail] at herr
  rename_i preRightMS hright
  split at h
  · cases h
    simp [SplitResult.fail] at herr
  rename_i leftLease hlease
  split at h
  · cases h
  split at h
  · cases h
    simp [SplitResult.fail] at herr
  rename_i replica hreplica
  split at h
  · cases h
    simp [SplitResult.fail] at herr
  rename_i gcThreshold hgct
  split at h
  · cases h
    simp [SplitResult.fail] at herr
  rename_i txnSpanGCThreshold htxn
  split at h
  · cases h
    simp [SplitResult.fail] at herr
  rename_i hinit
  split at h
  · cases h
    simp [SplitResult.fail] at herr
  rename_i hsynth
  cases h
  have hkeys : rec.Desc.StartKey = split.LeftDesc.StartKey ∧
      rec.Desc.EndKey = split.RightDesc.EndKey := by
    simpa using hmatch
  exact ⟨leftMS, replicaGCTS, preRightMS, leftLease, replica, gcThreshold, txnSpanGCThreshold,
    hkeys.1, hkeys.2, hleft, hgc, hput, hcopy, hright, hlease, hreplica, hgct, htxn, hinit,
    rfl, rfl⟩

/-- C23, as the code has it: `splitTrigger` compares the start key of the
range's descriptor with the LHS start key and its end key with the RHS end
key, and nothing else. When one of the two differs it returns the mismatch
error with zero stats and the empty result, and the batch is the one it was
given: no stats were read and nothing was written. When both are equal the
validation has passed, whatever the LHS end key and the RHS start key are:
the function goes on to compute the stats of the LHS, and a failure there is
the error it returns. -/
theorem split_validation_checks_outer_keys {β : Type} (env : Env β) (rec : EvalContext)
    (batch : β) (bothDeltaMS : enginepb.MVCCStats) (split : roachpb.SplitTrigger)
    (ts : hlc.Timestamp) :
    ((rec.Desc.StartKey ≠ split.LeftDesc.StartKey ∨
        rec.Desc.EndKey ≠ split.RightDesc.EndKey) →
      splitTrigger env rec batch bothDeltaMS split ts =
        .ok { batch := batch, ms := enginepb.MVCCStats.zero, res := result.Result.empty,
              err := some (roachpb.Error.Errorf "range does not match splits") }) ∧
    (rec.Desc.StartKey = split.LeftDesc.StartKey →
      rec.Desc.EndKey = split.RightDesc.EndKey →
      ∀ err, env.ComputeStatsForRange split.LeftDesc batch ts.WallTime = .error err →
        splitTrigger env rec batch bothDeltaMS split ts =
          .ok { batch := batch, ms := enginepb.MVCCStats.zero, res := result.Result.empty,
                err := some (roachpb.Error.Wrap err
                  "unable to compute stats for LHS range after split") }) := by
  refine ⟨?_, ?_⟩
  · intro hne
    have hcond : (!(rec.Desc.StartKey == split.LeftDesc.StartKey) ||
        !(rec.Desc.EndKey == split.RightDesc.EndKey)) = true := by
      rcases hne with h | h <;> simp [h]
    unfold splitTrigger
    simp only [hcond, if_true]
    rfl
  · intro hstart hend err hleft
    have hcond : (!(rec.Desc.StartKey == split.LeftDesc.StartKey) ||
        !(rec.Desc.EndKey == split.RightDesc.EndKey)) = false := by
      simp [hstart, hend]
    unfold splitTrigger
    simp only [hcond, Bool.false_eq_true, if_false, hleft]
    rfl

/-- C23 at the sample range `[10]` to `[20]`: a split whose RHS ends at `[25]`
returns the mismatch error and leaves the batch as it was. -/
theorem split_validation_checks_outer_keys_witness :
    splitTrigger (sim.env true) sample.evalCtx
        (sample.batch [(sample.txnKey, sample.record roachpb.PENDING 1 ⟨5, 0⟩)])
        enginepb.MVCCStats.zero
        { LeftDesc := { sample.desc with EndKey := [15] }
          RightDesc := { sample.desc with RangeID := 2, StartKey := [15], EndKey := [25] } }
        ⟨5, 0⟩ =
      .ok { batch := sample.batch [(sample.txnKey, sample.record roachpb.PENDING 1 ⟨5, 0⟩)]
            ms := enginepb.MVCCStats.zero
            res := result.Result.empty
            err := some (roachpb.Error.Errorf "range does not match splits") } :=
  (split_validation_checks_outer_keys (sim.env true) sample.evalCtx
    (sample.batch [(sample.txnKey, sample.record roachpb.PENDING 1 ⟨5, 0⟩)])
    enginepb.MVCCStats.zero
    { LeftDesc := { sample.desc with EndKey := [15] }
      RightDesc := { sample.desc with RangeID := 2, StartKey := [15], EndKey := [25] } }
    ⟨5, 0⟩).1 (Or.inr (by decide))

/-- C23 fails as stated: the sample range is `[10]` to `[20]`, the LHS of the
split is `[10]` to `[15]` and the RHS `[17]` to `[20]`, so the two halves are
not adjacent and the range is not their union; `splitTrigger` returns no
error and writes to the batch. -/
theorem split_of_non_adjacent_halves_is_accepted :
    ({ sample.desc with EndKey := [15] } : roachpb.RangeDescriptor).EndKey ≠
      ({ sample.desc with RangeID := 2, StartKey := [17] } : roachpb.RangeDescriptor).StartKey ∧
    (splitTrigger (sim.env true) sample.evalCtx
        (sample.batch [(sample.txnKey, sample.record roachpb.PENDING 1 ⟨5, 0⟩)])
        enginepb.MVCCStats.zero
        { LeftDesc := { sample.desc with EndKey := [15] }
          RightDesc := { sample.desc with RangeID := 2, StartKey := [17] } }
        ⟨5, 0⟩).map (fun r => (r.err, r.batch.writes)) =
      .ok (none,
        [sim.Write.PutProto [2, 2] (engine.ProtoMessage.timestamp ⟨1, 0⟩),
         sim.Write.CopyAbortSpan 1 2,
         sim.Write.WriteInitialReplicaState
           { sample.desc with RangeID := 2, StartKey := [17] }
           { Start := ⟨1, 0⟩, Replica := ⟨1, 1, 1⟩, Sequence := 1 }]) :=
  ⟨by decide, rfl⟩

/-- A split whose reads and writes up to the loading of the thresholds
succeeded hands the stats `preRightMS` of the RHS to the initial state write
and finishes from what that write returns. -/
theorem splitTrigger_reaches_init {β : Type} (env : Env β) (rec : EvalContext) (batch : β)
    (bothDeltaMS : enginepb.MVCCStats) (split : roachpb.SplitTrigger) (ts : hlc.Timestamp)
    (leftMS preRightMS : enginepb.MVCCStats) (replicaGCTS : hlc.Timestamp)
    (leftLease : roachpb.Lease) (replica : roachpb.ReplicaDescriptor)
    (gcThreshold txnSpanGCThreshold : hlc.Timestamp)
    (hstart : rec.Desc.StartKey = split.LeftDesc.StartKey)
    (hend : rec.Desc.EndKey = split.RightDesc.EndKey)
    (hleft : env.ComputeStatsForRange split.LeftDesc batch ts.WallTime = .ok leftMS)
    (hgc : rec.GetLastReplicaGCTimestamp = .ok replicaGCTS)
    (hput : (splitTrigger.put env batch split replicaGCTS).err = none)
    (hcopy : (splitTrigger.copy env rec batch bothDeltaMS split ts replicaGCTS).err = none)
    (hright : splitTrigger.rightMS env rec.GetMVCCStats leftMS
      (splitTrigger.copy env rec batch bothDeltaMS split ts replicaGCTS).ms split
      (splitTrigger.copy env rec batch bothDeltaMS split ts replicaGCTS).batch ts
      = .ok preRightMS)
    (hlease : rec.LoadLease = .ok leftLease)
    (hnonzero : leftLease ≠ roachpb.Lease.zero)
    (hreplica : split.RightDesc.GetReplicaDescriptor leftLease.Replica.StoreID = some replica)
    (hgct : rec.LoadGCThreshold = .ok gcThreshold)
    (htxn : rec.LoadTxnSpanGCThreshold = .ok txnSpanGCThreshold) :
    splitTrigger env rec batch bothDeltaMS split ts =
      splitTrigger.finish env rec split leftMS
        (splitTrigger.copy env rec batch bothDeltaMS split ts replicaGCTS).ms preRightMS
        (splitTrigger.init env
          (splitTrigger.copy env rec batch bothDeltaMS split ts replicaGCTS).batch preRightMS
          split leftLease replica gcThreshold txnSpanGCThreshold) := by
  have hcond : (!(rec.Desc.StartKey == split.LeftDesc.StartKey) ||
      !(rec.Desc.EndKey == split.RightDesc.EndKey)) = false := by
    simp [hstart, hend]
  have hz : (leftLease == roachpb.Lease.zero) = false := by
    simpa using hnonzero
  unfold splitTrigger.put at hput
  unfold splitTrigger.copy splitTrigger.put at hcopy
  unfold splitTrigger.rightMS splitTrigger.copy splitTrigger.put at hright
  unfold splitTrigger
  simp only [hcond, Bool.false_eq_true, if_false, hleft, hgc, hput, hcopy, hright, hlease, hz,
    hreplica, hgct, htxn]
  rfl

/-- C24: let the split have passed the validation, computed the LHS stats
`leftMS`, copied the last replica GC timestamp and the abort span, and loaded
the lease, the RHS replica and the two thresholds. With `origBothMS` the
stats of the range and `bothDeltaMS` the delta the abort-span copy returned:
when neither has `ContainsEstimates` set, the stats handed to the initial
state write are `(origBothMS.Subtract leftMS).Add bothDeltaMS`, counter by
counter `origBothMS - leftMS + bothDeltaMS`, their estimates flag is the one
of the computed LHS stats (false for stats computed without estimates), and
the outcome is the same for every replacement of `ComputeStatsForRange` that
agrees with it on the LHS descriptor, so the RHS is not iterated. When one
of the two has the flag set, the stats handed to the write are the ones
`ComputeStatsForRange` returns for the RHS descriptor, and its failure is
the failure of the split. -/
theorem split_rhs_stats_by_arithmetic_unless_estimates {β : Type} (env : Env β)
    (rec : EvalContext) (batch : β) (bothDeltaMS : enginepb.MVCCStats)
    (split : roachpb.SplitTrigger) (ts : hlc.Timestamp)
    (leftMS : enginepb.MVCCStats) (replicaGCTS : hlc.Timestamp)
    (leftLease : roachpb.Lease) (replica : roachpb.ReplicaDescriptor)
    (gcThreshold txnSpanGCThreshold : hlc.Timestamp)
    (hstart : rec.Desc.StartKey = split.LeftDesc.StartKey)
    (hend : rec.Desc.EndKey = split.RightDesc.EndKey)
    (hleft : env.ComputeStatsForRange split.LeftDesc batch ts.WallTime = .ok leftMS)
    (hgc : rec.GetLastReplicaGCTimestamp = .ok replicaGCTS)
    (hput : (splitTrigger.put env batch split replicaGCTS).err = none)
    (hcopy : (splitTrigger.copy env rec batch bothDeltaMS split ts replicaGCTS).err = none)
    (hlease : rec.LoadLease = .ok leftLease)
    (hnonzero : leftLease ≠ roachpb.Lease.zero)
    (hreplica : split.RightDesc.GetReplicaDescriptor leftLease.Replica.StoreID = some replica)
    (hgct : rec.LoadGCThreshold = .ok gcThreshold)
    (htxn : rec.LoadTxnSpanGCThreshold = .ok txnSpanGCThreshold) :
    (rec.GetMVCCStats.ContainsEstimates = false →
      (splitTrigger.copy env rec batch bothDeltaMS split ts replicaGCTS).ms.ContainsEstimates
        = false →
      splitTrigger env rec batch bothDeltaMS split ts =
        splitTrigger.finish env rec split leftMS
          (splitTrigger.copy env rec batch bothDeltaMS split ts replicaGCTS).ms
          ((rec.GetMVCCStats.Subtract leftMS).Add
            (splitTrigger.copy env rec batch bothDeltaMS split ts replicaGCTS).ms)
          (splitTrigger.init env
            (splitTrigger.copy env rec batch bothDeltaMS split ts replicaGCTS).batch
            ((rec.GetMVCCStats.Subtract leftMS).Add
              (splitTrigger.copy env rec batch bothDeltaMS split ts replicaGCTS).ms)
            split leftLease replica gcThreshold txnSpanGCThreshold) ∧
      spec.counters ((rec.GetMVCCStats.Subtract leftMS).Add
          (splitTrigger.copy env rec batch bothDeltaMS split ts replicaGCTS).ms) =
        spec.plus (spec.minus (spec.counters rec.GetMVCCStats) (spec.counters leftMS))
          (spec.counters
            (splitTrigger.copy env rec batch bothDeltaMS split ts replicaGCTS).ms) ∧
      ((rec.GetMVCCStats.Subtract leftMS).Add
          (splitTrigger.copy env rec batch bothDeltaMS split ts replicaGCTS).ms).ContainsEstimates
        = leftMS.ContainsEstimates ∧
      ∀ f, (∀ b t, f split.LeftDesc b t = env.ComputeStatsForRange split.LeftDesc b t) →
        splitTrigger (env.withComputeStatsForRange f) rec batch bothDeltaMS split ts =
          splitTrigger env rec batch bothDeltaMS split ts) ∧
    ((rec.GetMVCCStats.ContainsEstimates = true ∨
        (splitTrigger.copy env rec batch bothDeltaMS split ts replicaGCTS).ms.ContainsEstimates
          = true) →
      (∀ rightMS,
        env.ComputeStatsForRange split.RightDesc
          (splitTrigger.copy env rec batch bothDeltaMS split ts replicaGCTS).batch ts.WallTime
          = .ok rightMS →
        splitTrigger env rec batch bothDeltaMS split ts =
          splitTrigger.finish env rec split leftMS
            (splitTrigger.copy env rec batch bothDeltaMS split ts replicaGCTS).ms rightMS
            (splitTrigger.init env
              (splitTrigger.copy env rec batch bothDeltaMS split ts replicaGCTS).batch rightMS
              split leftLease replica gcThreshold txnSpanGCThreshold)) ∧
      (∀ err,
        env.ComputeStatsForRange split.RightDesc
          (splitTrigger.copy env rec batch bothDeltaMS split ts replicaGCTS).batch ts.WallTime
          = .error err →
        splitTrigger env rec batch bothDeltaMS split ts =
          .ok (SplitResult.fail
            (splitTrigger.copy env rec batch bothDeltaMS split ts replicaGCTS).batch
            (roachpb.Error.Wrap err "unable to compute stats for RHS range after split")))) := by
  refine ⟨?_, ?_⟩
  · intro horig hdelta
    have hright : ∀ env' : Env β, splitTrigger.rightMS env' rec.GetMVCCStats leftMS
        (splitTrigger.copy env rec batch bothDeltaMS split ts replicaGCTS).ms split
        (splitTrigger.copy env rec batch bothDeltaMS split ts replicaGCTS).batch ts =
        .ok ((rec.GetMVCCStats.Subtract leftMS).Add
          (splitTrigger.copy env rec batch bothDeltaMS split ts replicaGCTS).ms) := by
      intro env'
      simp [splitTrigger.rightMS, horig, hdelta]
    refine ⟨?_, ?_, ?_, ?_⟩
    · exact splitTrigger_reaches_init env rec batch bothDeltaMS split ts leftMS _ replicaGCTS
        leftLease replica gcThreshold txnSpanGCThreshold hstart hend hleft hgc hput hcopy
        (hright env) hlease hnonzero hreplica hgct htxn
    · simp [spec.counters, spec.plus, spec.minus, enginepb.MVCCStats.Add,
        enginepb.MVCCStats.Subtract]
    · simp [enginepb.MVCCStats.Add, enginepb.MVCCStats.Subtract, horig, hdelta]
    · intro f hagree
      have hleft' : (env.withComputeStatsForRange f).ComputeStatsForRange split.LeftDesc batch
          ts.WallTime = .ok leftMS := by
        show f split.LeftDesc batch ts.WallTime = _
        rw [hagree]
        exact hleft
      rw [splitTrigger_reaches_init env rec batch bothDeltaMS split ts leftMS _ replicaGCTS
          leftLease replica gcThreshold txnSpanGCThreshold hstart hend hleft hgc hput hcopy
          (hright env) hlease hnonzero hreplica hgct htxn,
        splitTrigger_reaches_init (env.withComputeStatsForRange f) rec batch bothDeltaMS split
          ts leftMS _ replicaGCTS leftLease replica gcThreshold txnSpanGCThreshold hstart hend
          hleft' hgc hput hcopy (hright _) hlease hnonzero hreplica hgct htxn]
      rfl
  · intro hest
    have hcond : (rec.GetMVCCStats.ContainsEstimates ||
        (splitTrigger.copy env rec batch bothDeltaMS split ts
          replicaGCTS).ms.ContainsEstimates) = true := by
      rcases hest with h | h <;> simp [h]
    refine ⟨?_, ?_⟩
    · intro rightMS hcomp
      have hright : splitTrigger.rightMS env rec.GetMVCCStats leftMS
          (splitTrigger.copy env rec batch bothDeltaMS split ts replicaGCTS).ms split
          (splitTrigger.copy env rec batch bothDeltaMS split ts replicaGCTS).batch ts =
          .ok rightMS := by
        simp only [splitTrigger.rightMS, hcond, if_true, hcomp]
      exact splitTrigger_reaches_init env rec batch bothDeltaMS split ts leftMS _ replicaGCTS
        leftLease replica gcThreshold txnSpanGCThreshold hstart hend hleft hgc hput hcopy
        hright hlease hnonzero hreplica hgct htxn
    · intro err hcomp
      have hk : (!(rec.Desc.StartKey == split.LeftDesc.StartKey) ||
          !(rec.Desc.EndKey == split.RightDesc.EndKey)) = false := by
        simp [hstart, hend]
      unfold splitTrigger.put at hput
      unfold splitTrigger.copy splitTrigger.put at hcopy hcond hcomp
      unfold splitTrigger splitTrigger.copy splitTrigger.put
      simp only [hk, Bool.false_eq_true, if_false, hleft, hgc, hput, hcopy, hcond, if_true,
        hcomp]

/-- C24 at the split of the sample range at `[15]`, the range's stats being
zero and the LHS holding three intents: with the delta of two keys and four
intents, the stats handed to the initial state write are two keys and one
intent; with a delta that holds estimates, they are the stats computed over
the RHS, which holds no intent. -/
theorem split_rhs_stats_by_arithmetic_unless_estimates_witness :
    splitTrigger (sim.env true) sample.evalCtx
        (sample.batch [(sample.txnKey, sample.record roachpb.PENDING 1 ⟨5, 0⟩)])
        { enginepb.MVCCStats.zero with KeyCount := 2, IntentCount := 4 }
        sample.splitTrigger ⟨5, 0⟩ =
      splitTrigger.finish (sim.env true) sample.evalCtx sample.splitTrigger
        { enginepb.MVCCStats.zero with IntentCount := 3 }
        { enginepb.MVCCStats.zero with KeyCount := 2, IntentCount := 4 }
        { enginepb.MVCCStats.zero with KeyCount := 2, IntentCount := 1 }
        (splitTrigger.init (sim.env true) sample.splitCopiedBatch
          { enginepb.MVCCStats.zero with KeyCount := 2, IntentCount := 1 }
          sample.splitTrigger { Start := ⟨1, 0⟩, Replica := ⟨1, 1, 1⟩, Sequence := 1 }
          ⟨1, 1, 1⟩ ⟨0, 0⟩ ⟨0, 0⟩) ∧
    splitTrigger (sim.env true) sample.evalCtx
        (sample.batch [(sample.txnKey, sample.record roachpb.PENDING 1 ⟨5, 0⟩)])
        { enginepb.MVCCStats.zero with
          ContainsEstimates := true, KeyCount := 2, IntentCount := 4 }
        sample.splitTrigger ⟨5, 0⟩ =
      splitTrigger.finish (sim.env true) sample.evalCtx sample.splitTrigger
        { enginepb.MVCCStats.zero with IntentCount := 3 }
        { enginepb.MVCCStats.zero with
          ContainsEstimates := true, KeyCount := 2, IntentCount := 4 }
        enginepb.MVCCStats.zero
        (splitTrigger.init (sim.env true) sample.splitCopiedBatch
          enginepb.MVCCStats.zero
          sample.splitTrigger { Start := ⟨1, 0⟩, Replica := ⟨1, 1, 1⟩, Sequence := 1 }
          ⟨1, 1, 1⟩ ⟨0, 0⟩ ⟨0, 0⟩) :=
  ⟨((split_rhs_stats_by_arithmetic_unless_estimates (sim.env true) sample.evalCtx
      (sample.batch [(sample.txnKey, sample.record roachpb.PENDING 1 ⟨5, 0⟩)])
      { enginepb.MVCCStats.zero with KeyCount := 2, IntentCount := 4 }
      sample.splitTrigger ⟨5, 0⟩ { enginepb.MVCCStats.zero with IntentCount := 3 } ⟨1, 0⟩
      { Start := ⟨1, 0⟩, Replica := ⟨1, 1, 1⟩, Sequence := 1 } ⟨1, 1, 1⟩ ⟨0, 0⟩ ⟨0, 0⟩
      rfl rfl rfl rfl rfl rfl rfl (by decide) rfl rfl rfl).1 rfl rfl).1,
   ((split_rhs_stats_by_arithmetic_unless_estimates (sim.env true) sample.evalCtx
      (sample.batch [(sample.txnKey, sample.record roachpb.PENDING 1 ⟨5, 0⟩)])
      { enginepb.MVCCStats.zero with
        ContainsEstimates := true, KeyCount := 2, IntentCount := 4 }
      sample.splitTrigger ⟨5, 0⟩ { enginepb.MVCCStats.zero with IntentCount := 3 } ⟨1, 0⟩
      { Start := ⟨1, 0⟩, Replica := ⟨1, 1, 1⟩, Sequence := 1 } ⟨1, 1, 1⟩ ⟨0, 0⟩ ⟨0, 0⟩
      rfl rfl rfl rfl rfl rfl rfl (by decide) rfl rfl rfl).2 (Or.inr rfl)).1
      enginepb.MVCCStats.zero rfl⟩

/-- C25: for every split that returns without error, the stats `splitTrigger`
returns are the LHS delta: with `leftMS` the stats `ComputeStatsForRange`
returned for the LHS descriptor over the batch given, they are
`leftMS.Subtract rec.GetMVCCStats` with `ContainsEstimates` cleared, counter
by counter the recomputed LHS stats minus the stats of the range before the
split. A successful split with any other incoming delta returns the same
stats. `RunCommitTrigger` with a split trigger makes them the stats of the
command. -/
theorem split_returns_lhs_delta {β : Type} (env : Env β) (rec : EvalContext) (batch : β)
    (bothDeltaMS : enginepb.MVCCStats) (split : roachpb.SplitTrigger) (ts : hlc.Timestamp)
    (r : SplitResult β)
    (h : splitTrigger env rec batch bothDeltaMS split ts = .ok r) (herr : r.err = none) :
    ∃ leftMS, env.ComputeStatsForRange split.LeftDesc batch ts.WallTime = .ok leftMS ∧
      r.ms = { leftMS.Subtract rec.GetMVCCStats with ContainsEstimates := false } ∧
      spec.counters r.ms =
        spec.minus (spec.counters leftMS) (spec.counters rec.GetMVCCStats) ∧
      r.ms.ContainsEstimates = false ∧
      (∀ (otherDeltaMS : enginepb.MVCCStats) (r' : SplitResult β),
        splitTrigger env rec batch otherDeltaMS split ts = .ok r' → r'.err = none →
        r'.ms = r.ms) ∧
      (∀ (st : State β) (args : roachpb.EndTransactionRequest) (txn : roachpb.Transaction),
        st.batch = batch → st.ms = bothDeltaMS → txn.Timestamp = ts →
        roachpb.InternalCommitTrigger.GetSplitTrigger args.InternalCommitTrigger = some split →
        RunCommitTrigger env rec st args txn =
          .ok ({ st with batch := r.batch, ms := r.ms }, r.res, none)) := by
  obtain ⟨leftMS, replicaGCTS, preRightMS, leftLease, replica, gcThreshold, txnSpanGCThreshold,
    _, _, hleft, _, _, _, _, _, _, _, _, _, hms, _⟩ :=
    splitTrigger_ok env rec batch bothDeltaMS split ts r h herr
  refine ⟨leftMS, hleft, hms, ?_, ?_, ?_, ?_⟩
  · rw [hms]
    simp [spec.counters, spec.minus, splitTrigger.leftDeltaMS, enginepb.MVCCStats.Subtract]
  · rw [hms]
    rfl
  · intro otherDeltaMS r' h' herr'
    obtain ⟨leftMS', _, _, _, _, _, _, _, _, hleft', _, _, _, _, _, _, _, _, _, hms', _⟩ :=
      splitTrigger_ok env rec batch otherDeltaMS split ts r' h' herr'
    rw [hleft] at hleft'
    cases hleft'
    rw [hms, hms']
  · intro st args txn hb hm ht hsplit
    unfold RunCommitTrigger
    cases hict : args.InternalCommitTrigger with
    | none =>
      rw [hict] at hsplit
      cases hsplit
    | some ct =>
      rw [hict] at hsplit
      simp only [hsplit, hb, hm, ht, h, herr]

/-- C25 at the split of the sample range at `[15]`: the split succeeds and the
stats it returns are the three intents of the LHS minus the zero stats of
the range, without estimates. -/
theorem split_returns_lhs_delta_witness :
    splitTrigger (sim.env true) sample.evalCtx
        (sample.batch [(sample.txnKey, sample.record roachpb.PENDING 1 ⟨5, 0⟩)])
        { enginepb.MVCCStats.zero with KeyCount := 2, IntentCount := 4 }
        sample.splitTrigger ⟨5, 0⟩ = .ok sample.splitOut ∧
    sample.splitOut.err = none ∧
    spec.counters sample.splitOut.ms = [0, 0, 0, 0, 0, 0, 0, 3, 0, 0] ∧
    sample.splitOut.ms.ContainsEstimates = false := by
  obtain ⟨leftMS, hleft, _, hcounters, hflag, _, _⟩ :=
    split_returns_lhs_delta (sim.env true) sample.evalCtx
      (sample.batch [(sample.txnKey, sample.record roachpb.PENDING 1 ⟨5, 0⟩)])
      { enginepb.MVCCStats.zero with KeyCount := 2, IntentCount := 4 }
      sample.splitTrigger ⟨5, 0⟩ sample.splitOut rfl rfl
  cases hleft
  exact ⟨rfl, rfl, hcounters, hflag⟩

/-- C26: for every split that returns without error, with `lhsDelta` the
stats it returns, `rhsDelta` the `RHSDelta` of the split payload in its
result, `bothDelta` the delta as the abort-span copy left it, which is the
delta before the initial state write, `preRightMS` the RHS stats passed to
the initial state write and `postRightMS` the stats that write returned:
counter by counter,
`lhsDelta + rhsDelta = bothDelta + (postRightMS - preRightMS)`. -/
theorem split_deltas_add_up {β : Type} (env : Env β) (rec : EvalContext) (batch : β)
    (bothDeltaMS : enginepb.MVCCStats) (split : roachpb.SplitTrigger) (ts : hlc.Timestamp)
    (r : SplitResult β)
    (h : splitTrigger env rec batch bothDeltaMS split ts = .ok r) (herr : r.err = none) :
    ∃ leftMS replicaGCTS preRightMS leftLease replica gcThreshold txnSpanGCThreshold rhsDelta,
      env.ComputeStatsForRange split.LeftDesc batch ts.WallTime = .ok leftMS ∧
      rec.GetLastReplicaGCTimestamp = .ok replicaGCTS ∧
      splitTrigger.rightMS env rec.GetMVCCStats leftMS
        (splitTrigger.copy env rec batch bothDeltaMS split ts replicaGCTS).ms split
        (splitTrigger.copy env rec batch bothDeltaMS split ts replicaGCTS).batch ts
        = .ok preRightMS ∧
      rec.LoadLease = .ok leftLease ∧
      split.RightDesc.GetReplicaDescriptor leftLease.Replica.StoreID = some replica ∧
      rec.LoadGCThreshold = .ok gcThreshold ∧
      rec.LoadTxnSpanGCThreshold = .ok txnSpanGCThreshold ∧
      r.res.Replicated.Split = some { SplitTrigger := split, RHSDelta := rhsDelta } ∧
      spec.plus (spec.counters r.ms) (spec.counters rhsDelta) =
        spec.plus
          (spec.counters (splitTrigger.copy env rec batch bothDeltaMS split ts replicaGCTS).ms)
          (spec.minus
            (spec.counters
              (splitTrigger.init env
                (splitTrigger.copy env rec batch bothDeltaMS split ts replicaGCTS).batch
                preRightMS split leftLease replica gcThreshold txnSpanGCThreshold).ms)
            (spec.counters preRightMS)) := by
  obtain ⟨leftMS, replicaGCTS, preRightMS, leftLease, replica, gcThreshold, txnSpanGCThreshold,
    _, _, hleft, hgc, _, _, hright, hlease, hreplica, hgct, htxn, _, hms, hres⟩ :=
    splitTrigger_ok env rec batch bothDeltaMS split ts r h herr
  refine ⟨leftMS, replicaGCTS, preRightMS, leftLease, replica, gcThreshold, txnSpanGCThreshold,
    splitTrigger.rightDeltaMS rec leftMS
      (splitTrigger.copy env rec batch bothDeltaMS split ts replicaGCTS).ms preRightMS
      (splitTrigger.init env
        (splitTrigger.copy env rec batch bothDeltaMS split ts replicaGCTS).batch
        preRightMS split leftLease replica gcThreshold txnSpanGCThreshold).ms,
    hleft, hgc, hright, hlease, hreplica, hgct, htxn, ?_, ?_⟩
  · rw [hres]
  · rw [hms]
    simp only [spec.counters, spec.plus, spec.minus, splitTrigger.rightDeltaMS,
      splitTrigger.leftDeltaMS, enginepb.MVCCStats.Add, enginepb.MVCCStats.Subtract,
      List.zipWith_cons_cons, List.zipWith_nil_right, List.cons.injEq, and_true]
    refine ⟨?_, ?_, ?_, ?_, ?_, ?_, ?_, ?_, ?_, ?_⟩ <;> omega

/-- C26 at the split of the sample range at `[15]` with the delta of two keys
and four intents: the LHS delta of three intents and the RHS delta of two
keys, one intent and one system key add up to the delta plus the one system
key the initial state write added. -/
theorem split_deltas_add_up_witness :
    splitTrigger (sim.env true) sample.evalCtx
        (sample.batch [(sample.txnKey, sample.record roachpb.PENDING 1 ⟨5, 0⟩)])
        { enginepb.MVCCStats.zero with KeyCount := 2, IntentCount := 4 }
        sample.splitTrigger ⟨5, 0⟩ = .ok sample.splitOut ∧
    sample.splitOut.res.Replicated.Split = some
      { SplitTrigger := sample.splitTrigger
        RHSDelta := { enginepb.MVCCStats.zero with
                      KeyCount := 2, IntentCount := 1, SysCount := 1 } } ∧
    spec.plus (spec.counters sample.splitOut.ms)
        (spec.counters { enginepb.MVCCStats.zero with
                         KeyCount := 2, IntentCount := 1, SysCount := 1 }) =
      spec.plus
        (spec.counters { enginepb.MVCCStats.zero with KeyCount := 2, IntentCount := 4 })
        (spec.minus
          (spec.counters { enginepb.MVCCStats.zero with
                           KeyCount := 2, IntentCount := 1, SysCount := 1 })
          (spec.counters { enginepb.MVCCStats.zero with KeyCount := 2, IntentCount := 1 })) := by
  obtain ⟨leftMS, replicaGCTS, preRightMS, leftLease, replica, gcThreshold, txnSpanGCThreshold,
    rhsDelta, hleft, hgc, hright, hlease, hreplica, hgct, htxn, hsplit, hsum⟩ :=
    split_deltas_add_up (sim.env true) sample.evalCtx
      (sample.batch [(sample.txnKey, sample.record roachpb.PENDING 1 ⟨5, 0⟩)])
      { enginepb.MVCCStats.zero with KeyCount := 2, IntentCount := 4 }
      sample.splitTrigger ⟨5, 0⟩ sample.splitOut rfl rfl
  cases hleft
  cases hgc
  cases hlease
  cases hgct
  cases htxn
  cases (Option.some.inj hreplica)
  cases (Option.some.inj hsplit)
  cases (Except.ok.inj hright)
  exact ⟨rfl, rfl, hsum⟩

/-- A merge trigger that returns without error returns a result that blocks
reads. -/
theorem mergeTrigger_blockReads {β : Type} (env : Env β) (rec : EvalContext) (st : State β)
    (merge : roachpb.MergeTrigger) (ts : hlc.Timestamp) (st' : State β) (res : result.Result)
    (h : mergeTrigger env rec st merge ts = (st', res, none)) :
    res.Replicated.BlockReads = true := by
  unfold mergeTrigger at h
  simp only at h
  split at h
  · cases h
  · split at h
    · cases h
    · split at h
      · cases h
      · split at h
        · cases h
        · cases h
          rfl

/-- A commit trigger that ran a split trigger without error returns a result
that blocks reads. -/
theorem RunCommitTrigger_split_blockReads {β : Type} (env : Env β) (rec : EvalContext)
    (st : State β) (args : roachpb.EndTransactionRequest) (txn : roachpb.Transaction)
    (split : roachpb.SplitTrigger) (st' : State β) (res : result.Result)
    (hsplit : roachpb.InternalCommitTrigger.GetSplitTrigger args.InternalCommitTrigger
      = some split)
    (h : RunCommitTrigger env rec st args txn = .ok (st', res, none)) :
    res.Replicated.BlockReads = true := by
  unfold RunCommitTrigger at h
  cases hict : args.InternalCommitTrigger with
  | none =>
    rw [hict] at hsplit
    cases hsplit
  | some ct =>
    rw [hict] at hsplit
    simp only [hict, hsplit] at h
    split at h
    · cases h
    · rename_i r hr
      have hres : r.res = res := by
        have := congrArg (fun x => x.map (fun t => t.2.1)) h
        simpa [Except.map] using this
      have herr : r.err = none := by
        have := congrArg (fun x => x.map (fun t => t.2.2)) h
        simpa [Except.map] using this
      obtain ⟨_, _, _, _, _, _, _, _, _, _, _, _, _, _, _, _, _, _, _, _, hr2⟩ :=
        splitTrigger_ok env rec st.batch st.ms split txn.Timestamp r hr herr
      rw [← hres, hr2]

/-- Where merging results keeps the block-reads flag of either side, a
successful assembly on a result that blocks reads returns one that does. -/
theorem assemble_blockReads {β : Type} (env : Env β) (st : State β)
    (args : roachpb.EndTransactionRequest) (txn : roachpb.Transaction) (pd : result.Result)
    (out : EvalOut β)
    (hor : ∀ p q c, env.MergeAndDestroy p q = .ok c →
      c.Replicated.BlockReads = (p.Replicated.BlockReads || q.Replicated.BlockReads))
    (h : evalEndTransaction.assemble env st args txn pd = .ok out) (herr : out.err = none)
    (hpd : pd.Replicated.BlockReads = true) :
    out.res.Replicated.BlockReads = true := by
  have hm := assemble_ok env st args txn pd out h herr
  rw [hor _ _ _ hm, hpd]
  rfl

/-- Where merging results keeps the block-reads flag of either side, the code
from intent resolution on, for a COMMITTED transaction, returns a result that
blocks reads when the result so far does or the request carries a split
trigger. -/
theorem resolveAndFinish_blockReads {β : Type} (env : Env β) (st : State β)
    (cArgs : CommandArgs) (txn : roachpb.Transaction) (pd : result.Result)
    (out : EvalOut β)
    (hor : ∀ p q c, env.MergeAndDestroy p q = .ok c →
      c.Replicated.BlockReads = (p.Replicated.BlockReads || q.Replicated.BlockReads))
    (hstatus : txn.Status = roachpb.COMMITTED)
    (h : evalEndTransaction.resolveAndFinish env st cArgs txn pd = .ok out)
    (herr : out.err = none)
    (htrigger : pd.Replicated.BlockReads = true ∨
      ∃ split, roachpb.InternalCommitTrigger.GetSplitTrigger cArgs.Args.InternalCommitTrigger
        = some split) :
    out.res.Replicated.BlockReads = true := by
  unfold evalEndTransaction.resolveAndFinish at h
  simp only at h
  split at h
  · cases h
  · cases h
    simp at herr
  · rename_i st1 ext hres
    have hs := updateTxnWithExternalIntents_status env st1 cArgs.Args txn ext
    split at h
    · cases h
      simp at herr
    · rename_i hupd
      split at h
      · split at h
        · cases h
        · cases h
          simp at herr
        · rename_i st2 r hrun
          split at h
          · cases h
            simp at herr
          · rename_i pd' hmerge
            refine assemble_blockReads env _ _ _ pd' out hor h herr ?_
            rw [hor _ _ _ hmerge]
            rcases htrigger with hpd | ⟨split, hsplit⟩
            · rw [hpd]
              rfl
            · rw [RunCommitTrigger_split_blockReads env _ _ _ _ split st2 r hsplit hrun]
              simp
      · rename_i hne
        rw [hs, hstatus] at hne
        simp at hne

/-- Where merging results keeps the block-reads flag of either side, a
successful commit of a validated PENDING record whose request carries a split
trigger or a merge trigger returns a result that blocks reads. -/
theorem updateAndFinish_blockReads {β : Type} (env : Env β) (st : State β)
    (cArgs : CommandArgs) (hTxn existingTxn : roachpb.Transaction)
    (out : EvalOut β)
    (hor : ∀ p q c, env.MergeAndDestroy p q = .ok c →
      c.Replicated.BlockReads = (p.Replicated.BlockReads || q.Replicated.BlockReads))
    (hcommit : cArgs.Args.Commit = true)
    (h : evalEndTransaction.updateAndFinish env st cArgs hTxn existingTxn = .ok out)
    (herr : out.err = none)
    (htrigger :
      (∃ split, roachpb.InternalCommitTrigger.GetSplitTrigger cArgs.Args.InternalCommitTrigger
        = some split) ∨
      (∃ merge, roachpb.InternalCommitTrigger.GetMergeTrigger cArgs.Args.InternalCommitTrigger
        = some merge)) :
    out.res.Replicated.BlockReads = true := by
  unfold evalEndTransaction.updateAndFinish at h
  simp only [hcommit, if_true] at h
  split at h
  · cases h
    simp at herr
  · split at h
    · cases h
      simp at herr
    · split at h
      · rename_i mt hmt
        split at h
        · cases h
          simp at herr
        · rename_i st' mergeResult hmr
          split at h
          · cases h
            simp at herr
          · rename_i pd hmerge
            refine resolveAndFinish_blockReads env _ cArgs _ pd out hor rfl h herr (Or.inl ?_)
            rw [hor _ _ _ hmerge, mergeTrigger_blockReads env _ _ _ _ st' mergeResult hmr]
            simp
      · rename_i hno
        rcases htrigger with hsplit | ⟨merge, hm⟩
        · exact resolveAndFinish_blockReads env _ cArgs _ _ out hor rfl h herr (Or.inr hsplit)
        · rw [hno] at hm
          cases hm

/-- A commit that returns without error went through the code after the
status switch, on a PENDING record. -/
theorem evalEndTransaction_commit_ok {β : Type} (env : Env β) (st : State β)
    (cArgs : CommandArgs) (reply : roachpb.EndTransactionResponse) (out : EvalOut β)
    (hcommit : cArgs.Args.Commit = true)
    (h : evalEndTransaction env st cArgs reply = .ok out) (herr : out.err = none) :
    ∃ hTxn existingTxn,
      evalEndTransaction.updateAndFinish env st cArgs hTxn existingTxn = .ok out := by
  unfold evalEndTransaction at h
  simp only [hcommit] at h
  split at h
  · cases h
    simp at herr
  · split at h
    · cases h
      simp at herr
    · split at h
      · cases h
      · rename_i hTxn _
        split at h
        · cases h
          simp at herr
        · simp only [if_true] at h
          cases h
          simp at herr
        · rename_i existingTxn _
          split at h
          · cases h
            simp at herr
          · split at h
            · simp at h
              cases h
              simp at herr
            · split at h
              · split at h
                · cases h
                  simp at herr
                · split at h
                  · cases h
                    simp at herr
                  · exact ⟨hTxn, existingTxn, h⟩
              · cases h
                simp at herr

/-- C27, as the code has it: where merging results keeps the block-reads flag
of either side, every `evalEndTransaction` that returns without error for a
request that commits and carries a split trigger or a merge trigger returns
a result with `Replicated.BlockReads = true`. -/
theorem commit_with_split_or_merge_trigger_blocks_reads {β : Type} (env : Env β)
    (st : State β) (cArgs : CommandArgs) (reply : roachpb.EndTransactionResponse)
    (out : EvalOut β)
    (hor : ∀ p q c, env.MergeAndDestroy p q = .ok c →
      c.Replicated.BlockReads = (p.Replicated.BlockReads || q.Replicated.BlockReads))
    (hcommit : cArgs.Args.Commit = true)
    (htrigger :
      (∃ split, roachpb.InternalCommitTrigger.GetSplitTrigger cArgs.Args.InternalCommitTrigger
        = some split) ∨
      (∃ merge, roachpb.InternalCommitTrigger.GetMergeTrigger cArgs.Args.InternalCommitTrigger
        = some merge))
    (heval : evalEndTransaction env st cArgs reply = .ok out) (herr : out.err = none) :
    out.res.Replicated.BlockReads = true := by
  obtain ⟨hTxn, existingTxn, h⟩ :=
    evalEndTransaction_commit_ok env st cArgs reply out hcommit heval herr
  exact updateAndFinish_blockReads env st cArgs hTxn existingTxn out hor hcommit h herr htrigger

/-- Merging results in the reference environment keeps the block-reads flag
of either side. -/
theorem sim_MergeAndDestroy_blockReads (p q c : result.Result)
    (h : sim.MergeAndDestroy p q = .ok c) :
    c.Replicated.BlockReads = (p.Replicated.BlockReads || q.Replicated.BlockReads) := by
  unfold sim.MergeAndDestroy at h
  split at h <;> first | (cases h; rfl) | cases h

/-- C27 at the sample commit with the split of the sample range at `[15]` over
the PENDING record: the commit succeeds and its result blocks reads. -/
theorem commit_with_split_or_merge_trigger_blocks_reads_witness :
    evalEndTransaction (sim.env true)
        (sample.state (sample.batch
          [(sample.txnKey, sample.record roachpb.PENDING 1 ⟨5, 0⟩)]))
        (sample.cArgsSplit true false) ⟨none⟩ = .ok sample.splitCommitOut ∧
    sample.splitCommitOut.err = none ∧
    sample.splitCommitOut.res.Replicated.BlockReads = true :=
  ⟨rfl, rfl,
   commit_with_split_or_merge_trigger_blocks_reads (sim.env true)
    (sample.state (sample.batch [(sample.txnKey, sample.record roachpb.PENDING 1 ⟨5, 0⟩)]))
    (sample.cArgsSplit true false) ⟨none⟩ sample.splitCommitOut
    sim_MergeAndDestroy_blockReads rfl (Or.inl ⟨sample.splitTrigger, rfl⟩) rfl rfl⟩

/-- C27 fails as stated: the rollback of the PENDING sample record whose
request carries the split trigger succeeds, runs no trigger, and its result
does not block reads. -/
theorem rollback_with_split_trigger_does_not_block_reads :
    roachpb.InternalCommitTrigger.GetSplitTrigger
        (sample.cArgsSplit false false).Args.InternalCommitTrigger
      = some sample.splitTrigger ∧
    evalEndTransaction (sim.env true)
        (sample.state (sample.batch
          [(sample.txnKey, sample.record roachpb.PENDING 1 ⟨5, 0⟩)]))
        (sample.cArgsSplit false false) ⟨none⟩ = .ok sample.pendingRollbackOut ∧
    sample.pendingRollbackOut.err = none ∧
    sample.pendingRollbackOut.res.Replicated.BlockReads = false :=
  ⟨rfl, rfl, rfl, rfl⟩

/-- No key is less than itself. -/
theorem roachpb.Key.not_less_self (k : roachpb.Key) : roachpb.Key.Less k k = false := by
  have h := roachpb.Key.less_append_self k []
  rwa [List.append_nil] at h

/-- A merge that passed the validation copies the abort span, adjusts the
stats and returns the merge payload. -/
theorem mergeTrigger_of_valid {β : Type} (env : Env β) (rec : EvalContext) (st : State β)
    (merge : roachpb.MergeTrigger) (ts : hlc.Timestamp)
    (hstart : rec.Desc.StartKey = merge.LeftDesc.StartKey)
    (hless : roachpb.Key.Less rec.Desc.EndKey merge.LeftDesc.EndKey = true) :
    mergeTrigger env rec st merge ts = mergeTrigger.absorb env st merge ts := by
  unfold mergeTrigger
  simp only [hstart, beq_self_eq_true, Bool.not_true, Bool.false_eq_true, if_false, hless]
  rfl

/-- C28: `mergeTrigger` returns an error, and the state (batch and stats
accumulator) it was given, when the start key of the range's descriptor is
not the start key of the post-merge LHS descriptor, and when it is but the
end key of the range's descriptor is not less than the post-merge LHS end
key; an equal end key is not less. When the start keys are equal and the end
key is less, the validation passes: the function copies the abort span,
adjusts the stats and returns the merge payload. -/
theorem merge_validation_start_equal_end_less {β : Type} (env : Env β) (rec : EvalContext)
    (st : State β) (merge : roachpb.MergeTrigger) (ts : hlc.Timestamp) :
    (rec.Desc.StartKey ≠ merge.LeftDesc.StartKey →
      mergeTrigger env rec st merge ts =
        (st, result.Result.empty,
          some (roachpb.Error.Errorf "LHS range start keys do not match"))) ∧
    (rec.Desc.StartKey = merge.LeftDesc.StartKey →
      roachpb.Key.Less rec.Desc.EndKey merge.LeftDesc.EndKey = false →
      mergeTrigger env rec st merge ts =
        (st, result.Result.empty, some (roachpb.Error.Errorf
          "original LHS end key is not less than the post merge end key"))) ∧
    (rec.Desc.StartKey = merge.LeftDesc.StartKey →
      rec.Desc.EndKey = merge.LeftDesc.EndKey →
      mergeTrigger env rec st merge ts =
        (st, result.Result.empty, some (roachpb.Error.Errorf
          "original LHS end key is not less than the post merge end key"))) ∧
    (rec.Desc.StartKey = merge.LeftDesc.StartKey →
      roachpb.Key.Less rec.Desc.EndKey merge.LeftDesc.EndKey = true →
      mergeTrigger env rec st merge ts = mergeTrigger.absorb env st merge ts) ∧
    ((mergeTrigger env rec st merge ts).2.2 = none →
      rec.Desc.StartKey = merge.LeftDesc.StartKey ∧
      roachpb.Key.Less rec.Desc.EndKey merge.LeftDesc.EndKey = true) := by
  have h1 : rec.Desc.StartKey ≠ merge.LeftDesc.StartKey →
      mergeTrigger env rec st merge ts =
        (st, result.Result.empty,
          some (roachpb.Error.Errorf "LHS range start keys do not match")) := by
    intro hne
    unfold mergeTrigger
    simp [hne]
  have h2 : rec.Desc.StartKey = merge.LeftDesc.StartKey →
      roachpb.Key.Less rec.Desc.EndKey merge.LeftDesc.EndKey = false →
      mergeTrigger env rec st merge ts =
        (st, result.Result.empty, some (roachpb.Error.Errorf
          "original LHS end key is not less than the post merge end key")) := by
    intro hstart hless
    unfold mergeTrigger
    simp [hstart, hless]
  refine ⟨h1, h2, ?_, mergeTrigger_of_valid env rec st merge ts, ?_⟩
  · intro hstart hend
    refine h2 hstart ?_
    rw [hend]
    exact roachpb.Key.not_less_self _
  · intro hok
    by_cases hstart : rec.Desc.StartKey = merge.LeftDesc.StartKey
    · refine ⟨hstart, ?_⟩
      cases hless : roachpb.Key.Less rec.Desc.EndKey merge.LeftDesc.EndKey
      · rw [h2 hstart hless] at hok
        cases hok
      · rfl
    · rw [h1 hstart] at hok
      cases hok

/-- C28 at the sample range `[10]` to `[20]`: a post-merge LHS that starts at
`[9]` is rejected; one that starts at `[10]` and ends at `[20]`, the end key
of the range, is rejected; one that starts at `[10]` and ends at `[30]`
passes and the abort span is copied. In the rejected cases the state is the
one given. -/
theorem merge_validation_start_equal_end_less_witness :
    mergeTrigger (sim.env true) sample.evalCtx
        (sample.state (sample.batch []))
        { sample.mergeTrigger with
          LeftDesc := { sample.desc with StartKey := [9], EndKey := [30] } } ⟨5, 0⟩ =
      (sample.state (sample.batch []), result.Result.empty,
        some (roachpb.Error.Errorf "LHS range start keys do not match")) ∧
    mergeTrigger (sim.env true) sample.evalCtx
        (sample.state (sample.batch []))
        { sample.mergeTrigger with LeftDesc := sample.desc } ⟨5, 0⟩ =
      (sample.state (sample.batch []), result.Result.empty,
        some (roachpb.Error.Errorf
          "original LHS end key is not less than the post merge end key")) ∧
    mergeTrigger (sim.env true) sample.evalCtx
        (sample.state (sample.batch [])) sample.mergeTrigger ⟨5, 0⟩ =
      ({ batch := { sample.batch [] with writes := [sim.Write.CopyAbortSpan 2 1] }
         ms := { enginepb.MVCCStats.zero with KeyCount := 4, SysCount := 2 }
         numKeysEvaluated := none },
        { result.Result.empty with
          Replicated :=
            { result.Result.empty.Replicated with
              BlockReads := true
              Merge := some { MergeTrigger := sample.mergeTrigger } } },
        none) :=
  ⟨(merge_validation_start_equal_end_less (sim.env true) sample.evalCtx
      (sample.state (sample.batch []))
      { sample.mergeTrigger with
        LeftDesc := { sample.desc with StartKey := [9], EndKey := [30] } } ⟨5, 0⟩).1
      (by decide),
   (merge_validation_start_equal_end_less (sim.env true) sample.evalCtx
      (sample.state (sample.batch []))
      { sample.mergeTrigger with LeftDesc := sample.desc } ⟨5, 0⟩).2.2.1 rfl rfl,
   (merge_validation_start_equal_end_less (sim.env true) sample.evalCtx
      (sample.state (sample.batch [])) sample.mergeTrigger ⟨5, 0⟩).2.2.2.1 rfl rfl⟩

/-- What a merge that returned without error went through: the validation
passed, the abort-span copy and the computation of the stats under the RHS
range-ID-replicated prefix succeeded, and the state and result are the ones
built from them. -/
theorem mergeTrigger_ok {β : Type} (env : Env β) (rec : EvalContext) (st : State β)
    (merge : roachpb.MergeTrigger) (ts : hlc.Timestamp) (st' : State β) (res : result.Result)
    (h : mergeTrigger env rec st merge ts = (st', res, none)) :
    ∃ sysMS,
      (mergeTrigger.copy env st merge ts).err = none ∧
      mergeTrigger.sysMS env (mergeTrigger.copy env st merge ts).batch merge = .ok sysMS ∧
      st' = { st with
              batch := (mergeTrigger.copy env st merge ts).batch
              ms := ((mergeTrigger.copy env st merge ts).ms.Add
                merge.RightMVCCStats).Subtract sysMS } ∧
      res = { result.Result.empty with
              Replicated :=
                { result.Result.empty.Replicated with
                  BlockReads := true
                  Merge := some { MergeTrigger := merge } } } := by
  unfold mergeTrigger at h
  simp only at h
  split at h
  · cases h
  · split at h
    · cases h
    · split at h
      · cases h
      · rename_i hcopy
        split at h
        · cases h
        · rename_i sysMS hsys
          cases h
          exact ⟨sysMS, hcopy, hsys, rfl, rfl⟩

/-- C29: after a merge that returned without error the stats accumulator is
`(copied.Add merge.RightMVCCStats).Subtract sysMS`, where `copied` are the
stats the copy of the RHS abort span into the LHS returned for the
accumulator it was given and `sysMS` are the stats computed over the keys
under the range-ID-replicated prefix of the RHS: counter by counter, the
accumulator before the call, plus what the copy added to it, plus the RHS
stats of the merge payload, minus `sysMS`. -/
theorem merge_stats_add_rhs_subtract_system {β : Type} (env : Env β) (rec : EvalContext)
    (st : State β) (merge : roachpb.MergeTrigger) (ts : hlc.Timestamp) (st' : State β)
    (res : result.Result)
    (h : mergeTrigger env rec st merge ts = (st', res, none)) :
    ∃ sysMS,
      env.ComputeStats (env.CopyTo (abortspan.New merge.RightDesc.RangeID) st.batch st.ms ts
          merge.LeftDesc.RangeID).batch
        { MinTimestampHint := ⟨0, 0⟩, MaxTimestampHint := ⟨0, 0⟩,
          UpperBound := env.PrefixEnd
            (env.MakeRangeIDReplicatedPrefix merge.RightDesc.RangeID) }
        (env.MakeRangeIDReplicatedPrefix merge.RightDesc.RangeID)
        (env.PrefixEnd (env.MakeRangeIDReplicatedPrefix merge.RightDesc.RangeID)) 0
        = .ok sysMS ∧
      st'.ms = ((env.CopyTo (abortspan.New merge.RightDesc.RangeID) st.batch st.ms ts
        merge.LeftDesc.RangeID).ms.Add merge.RightMVCCStats).Subtract sysMS ∧
      spec.counters st'.ms =
        spec.minus
          (spec.plus
            (spec.plus (spec.counters st.ms)
              (spec.minus
                (spec.counters (env.CopyTo (abortspan.New merge.RightDesc.RangeID) st.batch
                  st.ms ts merge.LeftDesc.RangeID).ms)
                (spec.counters st.ms)))
            (spec.counters merge.RightMVCCStats))
          (spec.counters sysMS) := by
  obtain ⟨sysMS, _, hsys, hst, _⟩ := mergeTrigger_ok env rec st merge ts st' res h
  refine ⟨sysMS, hsys, ?_, ?_⟩
  · rw [hst]
    rfl
  · rw [hst]
    simp only [spec.counters, spec.plus, spec.minus, mergeTrigger.copy,
      enginepb.MVCCStats.Add, enginepb.MVCCStats.Subtract,
      List.zipWith_cons_cons, List.zipWith_nil_right, List.cons.injEq, and_true]
    refine ⟨?_, ?_, ?_, ?_, ?_, ?_, ?_, ?_, ?_, ?_⟩ <;> omega

/-- C29 at the merge of the sample range with the range `[20]` to `[30]`, with
an accumulator of one key and three resolved intents: the copy adds nothing
in the reference environment, the four keys and two system keys of the RHS
are added, and the zero stats under the RHS prefix are subtracted. -/
theorem merge_stats_add_rhs_subtract_system_witness :
    mergeTrigger (sim.env true) sample.evalCtx
        { sample.state (sample.batch []) with
          ms := { enginepb.MVCCStats.zero with KeyCount := 1, IntentCount := -3 } }
        sample.mergeTrigger ⟨5, 0⟩ =
      ({ batch := { sample.batch [] with writes := [sim.Write.CopyAbortSpan 2 1] }
         ms := { enginepb.MVCCStats.zero with KeyCount := 5, IntentCount := -3, SysCount := 2 }
         numKeysEvaluated := none },
        { result.Result.empty with
          Replicated :=
            { result.Result.empty.Replicated with
              BlockReads := true
              Merge := some { MergeTrigger := sample.mergeTrigger } } },
        none) ∧
    spec.counters
        { enginepb.MVCCStats.zero with KeyCount := 5, IntentCount := -3, SysCount := 2 } =
      spec.minus
        (spec.plus
          (spec.plus
            (spec.counters { enginepb.MVCCStats.zero with KeyCount := 1, IntentCount := -3 })
            (spec.minus
              (spec.counters { enginepb.MVCCStats.zero with KeyCount := 1, IntentCount := -3 })
              (spec.counters { enginepb.MVCCStats.zero with KeyCount := 1, IntentCount := -3 })))
          (spec.counters sample.mergeTrigger.RightMVCCStats))
        (spec.counters enginepb.MVCCStats.zero) := by
  obtain ⟨sysMS, hsys, _, hcounters⟩ :=
    merge_stats_add_rhs_subtract_system (sim.env true) sample.evalCtx
      { sample.state (sample.batch []) with
        ms := { enginepb.MVCCStats.zero with KeyCount := 1, IntentCount := -3 } }
      sample.mergeTrigger ⟨5, 0⟩ _ _ rfl
  cases (Except.ok.inj hsys)
  exact ⟨rfl, hcounters⟩

/-- C30: for every change-replicas trigger the result of
`changeReplicasTrigger` has `MaybeAddToSplitQueue = true`, has
`GossipFirstRange` equal to `rec.IsFirstRange`, carries the trigger as its
change-replicas payload, and carries a range descriptor whose range id, start
key and end key are those of the range's descriptor and whose replica list
and next replica id are the trigger's. The function returns nothing else:
the descriptor of the range, read through `rec`, is not written.
`RunCommitTrigger` returns this result without error and with the batch and
the stats it was given when the commit trigger carries no split trigger. -/
theorem change_replicas_result_carries_updated_descriptor {β : Type} (env : Env β)
    (rec : EvalContext) (batch : β) (change : roachpb.ChangeReplicasTrigger) :
    (changeReplicasTrigger rec batch change).Local.MaybeAddToSplitQueue = true ∧
    (changeReplicasTrigger rec batch change).Local.GossipFirstRange = rec.IsFirstRange ∧
    (changeReplicasTrigger rec batch change).Replicated.ChangeReplicas =
      some { ChangeReplicasTrigger := change } ∧
    (∃ cpy : roachpb.RangeDescriptor,
      (changeReplicasTrigger rec batch change).Replicated.State = some { Desc := some cpy } ∧
      cpy.RangeID = rec.Desc.RangeID ∧ cpy.StartKey = rec.Desc.StartKey ∧
      cpy.EndKey = rec.Desc.EndKey ∧
      cpy.Replicas = change.UpdatedReplicas ∧ cpy.NextReplicaID = change.NextReplicaID) ∧
    (∀ (st : State β) (args : roachpb.EndTransactionRequest) (txn : roachpb.Transaction),
      st.batch = batch →
      roachpb.InternalCommitTrigger.GetSplitTrigger args.InternalCommitTrigger = none →
      roachpb.InternalCommitTrigger.GetChangeReplicasTrigger args.InternalCommitTrigger
        = some change →
      RunCommitTrigger env rec st args txn =
        .ok (st, changeReplicasTrigger rec batch change, none)) := by
  refine ⟨rfl, rfl, rfl, ⟨_, rfl, rfl, rfl, rfl, rfl, rfl⟩, ?_⟩
  intro st args txn hbatch hsplit hchange
  unfold RunCommitTrigger
  cases hict : args.InternalCommitTrigger with
  | none =>
    rw [hict] at hchange
    cases hchange
  | some ct =>
    rw [hict] at hsplit hchange
    simp only [hsplit, hchange, hbatch]

/-- C30 at the sample range, which is not the first range, with a trigger that
adds a replica on store 2: the result asks for the split queue, does not
gossip the first range, and carries the descriptor of the range `[10]` to
`[20]` of id 1 with the two replicas and the next replica id 3. -/
theorem change_replicas_result_carries_updated_descriptor_witness :
    changeReplicasTrigger sample.evalCtx (sample.batch []) sample.changeReplicasTrigger =
      { Local :=
          { result.Result.empty.Local with
            MaybeAddToSplitQueue := true
            GossipFirstRange := false }
        Replicated :=
          { result.Result.empty.Replicated with
            State := some
              { Desc := some
                  { RangeID := 1, StartKey := [10], EndKey := [20],
                    Replicas := [⟨1, 1, 1⟩, ⟨2, 2, 2⟩], NextReplicaID := 3 } }
            ChangeReplicas := some
              { ChangeReplicasTrigger := sample.changeReplicasTrigger } } } ∧
    sample.evalCtx.Desc = sample.desc ∧
    RunCommitTrigger (sim.env true) sample.evalCtx (sample.state (sample.batch []))
        { sample.request true false with
          InternalCommitTrigger := some
            { SplitTrigger := none, MergeTrigger := none,
              ChangeReplicasTrigger := some sample.changeReplicasTrigger,
              ModifiedSpanTrigger := none } }
        sample.committedTxn =
      .ok (sample.state (sample.batch []),
        changeReplicasTrigger sample.evalCtx (sample.batch []) sample.changeReplicasTrigger,
        none) :=
  ⟨rfl, rfl,
   (change_replicas_result_carries_updated_descriptor (sim.env true) sample.evalCtx
      (sample.batch []) sample.changeReplicasTrigger).2.2.2.2
      (sample.state (sample.batch [])) _ sample.committedTxn rfl rfl rfl⟩

/-- C31, as the code has it: `resolveLocalIntents` decides locality against the
post-merge LHS descriptor exactly when the request carries a merge trigger,
whether the request commits (and the merge trigger ran) or rolls back (and
none ran), and against the descriptor passed in, which is the current range
descriptor, when the request carries none. The call is the call for the
request without commit trigger on the descriptor `resolveLocalIntents.desc`
chooses; with a merge trigger that descriptor is the trigger's left
descriptor and the descriptor passed in is not looked at; without one it is
the descriptor passed in; and neither the choice nor the outcome depends on
`Commit`. -/
theorem locality_descriptor_is_post_merge_lhs_iff_request_has_merge_trigger {β : Type}
    (env : Env β) (desc : roachpb.RangeDescriptor) (st : State β)
    (args : roachpb.EndTransactionRequest) (txn : roachpb.Transaction)
    (evalCtx : EvalContext) :
    resolveLocalIntents env desc st args txn evalCtx =
      resolveLocalIntents env (resolveLocalIntents.desc desc args) st
        { args with InternalCommitTrigger := none } txn evalCtx ∧
    (∀ mt, roachpb.InternalCommitTrigger.GetMergeTrigger args.InternalCommitTrigger = some mt →
      resolveLocalIntents.desc desc args = mt.LeftDesc ∧
      ∀ desc', resolveLocalIntents env desc' st args txn evalCtx =
        resolveLocalIntents env desc st args txn evalCtx) ∧
    (roachpb.InternalCommitTrigger.GetMergeTrigger args.InternalCommitTrigger = none →
      resolveLocalIntents.desc desc args = desc) ∧
    (∀ commit : Bool,
      resolveLocalIntents.desc desc { args with Commit := commit } =
        resolveLocalIntents.desc desc args ∧
      resolveLocalIntents env desc st { args with Commit := commit } txn evalCtx =
        resolveLocalIntents env desc st args txn evalCtx) := by
  refine ⟨resolveLocalIntents_on_chosen_descriptor env desc st args txn evalCtx, ?_,
    (resolveLocalIntents_desc_cases desc args).1, fun _ => ⟨rfl, rfl⟩⟩
  intro mt hmt
  refine ⟨(resolveLocalIntents_desc_cases desc args).2 mt hmt, ?_⟩
  intro desc'
  rw [resolveLocalIntents_on_chosen_descriptor env desc',
    resolveLocalIntents_on_chosen_descriptor env desc,
    (resolveLocalIntents_desc_cases desc' args).2 mt hmt,
    (resolveLocalIntents_desc_cases desc args).2 mt hmt]

/-- C31 at the sample requests on the sample range `[10]` to `[20]`: with the
merge trigger whose post-merge LHS is `[10]` to `[30]` the descriptor chosen
is that LHS, for the commit and for the rollback; without a trigger it is
the descriptor of the sample range. The sample commit with the merge trigger
resolves the span `[12]` to `[30]` and the key `[25]` in the batch and
leaves no external intent. -/
theorem locality_descriptor_is_post_merge_lhs_iff_request_has_merge_trigger_witness :
    resolveLocalIntents.desc sample.desc (sample.cArgsTrigger sample.mergeCommitTrigger).Args
      = { sample.desc with EndKey := [30] } ∧
    resolveLocalIntents.desc sample.desc sample.cArgsRollbackMerge.Args
      = { sample.desc with EndKey := [30] } ∧
    resolveLocalIntents.desc sample.desc (sample.request false false) = sample.desc ∧
    (evalEndTransaction (sim.env true)
        (sample.state (sample.batch
          [(sample.txnKey, sample.record roachpb.PENDING 1 ⟨5, 0⟩)]))
        (sample.cArgsTrigger sample.mergeCommitTrigger) ⟨none⟩).map
        (fun out => (out.err, out.st.batch.intents, out.st.batch.writes,
          out.reply.Txn.map (fun t => t.Intents))) =
      .ok (none, [],
        [sim.Write.CopyAbortSpan 2 1,
         sim.Write.ResolveWriteIntent (sample.committedIntent ⟨[11], []⟩),
         sim.Write.ResolveWriteIntentRange (sample.committedIntent ⟨[12], [30]⟩) 499,
         sim.Write.ResolveWriteIntent (sample.committedIntent ⟨[25], []⟩),
         sim.Write.Delete sample.txnKey],
        some []) :=
  ⟨((locality_descriptor_is_post_merge_lhs_iff_request_has_merge_trigger (sim.env true)
      sample.desc (sample.state (sample.batch []))
      (sample.cArgsTrigger sample.mergeCommitTrigger).Args sample.hTxn sample.evalCtx).2.1
      sample.mergeTrigger rfl).1,
   ((locality_descriptor_is_post_merge_lhs_iff_request_has_merge_trigger (sim.env true)
      sample.desc (sample.state (sample.batch []))
      sample.cArgsRollbackMerge.Args sample.hTxn sample.evalCtx).2.1
      sample.mergeTrigger rfl).1,
   (locality_descriptor_is_post_merge_lhs_iff_request_has_merge_trigger (sim.env true)
      sample.desc (sample.state (sample.batch []))
      (sample.request false false) sample.hTxn sample.evalCtx).2.2.1 rfl,
   rfl⟩

/-- C31 fails as stated, at a rollback whose request carries a merge trigger.
The sample range is `[10]` to `[20]` and the post-merge LHS of the trigger is
`[10]` to `[30]`; the key `[25]` is not in the sample range. The rollback
runs no merge trigger, and yet it decides locality against the post-merge
LHS: the intents at `[25]` and in `[20]` to `[30]` are resolved in the batch,
none is returned as external, and the record is deleted; the same rollback
without the trigger leaves the span `[20]` to `[30]` and the key `[25]`
external. -/
theorem rollback_with_merge_trigger_decides_against_post_merge_descriptor :
    sample.cArgsRollbackMerge.Args.Commit = false ∧
    resolveLocalIntents.desc sample.cArgsRollbackMerge.EvalCtx.Desc
        sample.cArgsRollbackMerge.Args =
      { sample.desc with EndKey := [30] } ∧
    sample.cArgsRollbackMerge.EvalCtx.Desc = sample.desc ∧
    sim.ContainsKey sample.desc [25] = false ∧
    evalEndTransaction (sim.env true)
        (sample.state (sample.batch
          [(sample.txnKey, sample.record roachpb.PENDING 1 ⟨5, 0⟩)]))
        sample.cArgsRollbackMerge ⟨none⟩ = .ok sample.mergeRollbackOut ∧
    sample.mergeRollbackOut.st.batch.intents = [] ∧
    sim.Write.ResolveWriteIntent (sample.rolledBackIntent ⟨[25], []⟩) ∈
      sample.mergeRollbackOut.st.batch.writes ∧
    (evalEndTransaction (sim.env true)
        (sample.state (sample.batch
          [(sample.txnKey, sample.record roachpb.PENDING 1 ⟨5, 0⟩)]))
        (sample.cArgs false false) ⟨none⟩).map
        (fun out => (out.st.batch.intents, out.reply.Txn.map (fun t => t.Intents))) =
      .ok ([[25]], some [⟨[20], [30]⟩, ⟨[25], []⟩]) :=
  ⟨rfl, rfl, rfl, rfl, rfl, rfl, by decide, rfl⟩

/-- C32, as the code has it. `RunCommitTrigger` runs at most one trigger,
whichever fields of the commit trigger are set: with the split field set its
outcome is the outcome of `splitTrigger` and of nothing else; with the split
field not set and the replica-change field set it returns the result of
`changeReplicasTrigger` and the state it was given; with neither set it
returns the state it was given, and it never runs the merge trigger.
`evalEndTransaction` runs the merge trigger itself: in a commit on a PENDING
record that passed validation, the retry check and the deadline check, with
the merge field set the merge trigger runs first and, when it and the merge
of its result succeed, the evaluation goes on from the state it left, to
intent resolution, the record writer and `RunCommitTrigger`; with the merge
field not set the evaluation goes on from the state given. So the merge
trigger and the split trigger (or the replica change) both run when both
fields are set. -/
theorem run_commit_trigger_dispatches_once_and_merge_runs_apart {β : Type} (env : Env β) :
    (∀ (rec : EvalContext) (st : State β) (args : roachpb.EndTransactionRequest)
        (txn : roachpb.Transaction) (split : roachpb.SplitTrigger),
      roachpb.InternalCommitTrigger.GetSplitTrigger args.InternalCommitTrigger = some split →
      RunCommitTrigger env rec st args txn =
        match splitTrigger env rec st.batch st.ms split txn.Timestamp with
        | .error crash => .error crash
        | .ok r => .ok ({ st with batch := r.batch, ms := r.ms }, r.res, r.err)) ∧
    (∀ (rec : EvalContext) (st : State β) (args : roachpb.EndTransactionRequest)
        (txn : roachpb.Transaction) (crt : roachpb.ChangeReplicasTrigger),
      roachpb.InternalCommitTrigger.GetSplitTrigger args.InternalCommitTrigger = none →
      roachpb.InternalCommitTrigger.GetChangeReplicasTrigger args.InternalCommitTrigger
        = some crt →
      RunCommitTrigger env rec st args txn =
        .ok (st, changeReplicasTrigger rec st.batch crt, none)) ∧
    (∀ (rec : EvalContext) (st : State β) (args : roachpb.EndTransactionRequest)
        (txn : roachpb.Transaction) (st' : State β) (res : result.Result)
        (err : Option roachpb.Error),
      roachpb.InternalCommitTrigger.GetSplitTrigger args.InternalCommitTrigger = none →
      roachpb.InternalCommitTrigger.GetChangeReplicasTrigger args.InternalCommitTrigger
        = none →
      RunCommitTrigger env rec st args txn = .ok (st', res, err) → st' = st) ∧
    (∀ (st : State β) (cArgs : CommandArgs) (reply : roachpb.EndTransactionResponse)
        (hTxn existingTxn : roachpb.Transaction),
      PassesValidation env st cArgs hTxn existingTxn →
      cArgs.Args.Commit = true →
      (IsEndTransactionTriggeringRetryError (env.Update existingTxn hTxn) cArgs.Args).1
        = false →
      IsEndTransactionExceedingDeadline (env.Update existingTxn hTxn).Timestamp cArgs.Args
        = false →
      (roachpb.InternalCommitTrigger.GetMergeTrigger cArgs.Args.InternalCommitTrigger = none →
        evalEndTransaction env st cArgs reply =
          evalEndTransaction.resolveAndFinish env st cArgs
            (evalEndTransaction.committedTxn env hTxn existingTxn) result.Result.empty) ∧
      (∀ (mt : roachpb.MergeTrigger) (st' : State β) (mergeResult pd : result.Result),
        roachpb.InternalCommitTrigger.GetMergeTrigger cArgs.Args.InternalCommitTrigger
          = some mt →
        mergeTrigger env cArgs.EvalCtx st mt
          (evalEndTransaction.committedTxn env hTxn existingTxn).Timestamp
          = (st', mergeResult, none) →
        env.MergeAndDestroy result.Result.empty mergeResult = .ok pd →
        evalEndTransaction env st cArgs reply =
          evalEndTransaction.resolveAndFinish env st' cArgs
            (evalEndTransaction.committedTxn env hTxn existingTxn) pd)) := by
  refine ⟨?_, ?_, ?_, ?_⟩
  · intro rec st args txn split hsplit
    unfold RunCommitTrigger
    cases hict : args.InternalCommitTrigger with
    | none =>
      rw [hict] at hsplit
      cases hsplit
    | some ct =>
      rw [hict] at hsplit
      cases hs : splitTrigger env rec st.batch st.ms split txn.Timestamp with
      | error crash => simp only [hsplit, hs]
      | ok r => simp only [hsplit, hs]
  · intro rec st args txn crt hsplit hchange
    unfold RunCommitTrigger
    cases hict : args.InternalCommitTrigger with
    | none =>
      rw [hict] at hchange
      cases hchange
    | some ct =>
      rw [hict] at hsplit hchange
      simp only [hsplit, hchange]
  · intro rec st args txn st' res err hsplit hchange h
    unfold RunCommitTrigger at h
    cases hict : args.InternalCommitTrigger with
    | none =>
      simp only [hict] at h
      cases h
      rfl
    | some ct =>
      rw [hict] at hsplit hchange
      simp only [hict, hsplit, hchange] at h
      split at h
      · split at h
        · cases h
          rfl
        · split at h
          · split at h
            · cases h
              rfl
            · cases h
              rfl
          · cases h
            rfl
      · split at h
        · cases h
          rfl
        · cases h
  · intro st cArgs reply hTxn existingTxn hvalid hcommit hretry hdeadline
    rw [evalEndTransaction_of_passesValidation env st cArgs reply hTxn existingTxn hvalid]
    refine ⟨?_, ?_⟩
    · intro hno
      simp [evalEndTransaction.updateAndFinish, hcommit, hretry, hdeadline, hno,
        evalEndTransaction.committedTxn]
    · intro mt st' mergeResult pd hmt hmerge hpd
      unfold evalEndTransaction.committedTxn at hmerge
      simp [evalEndTransaction.updateAndFinish, hcommit, hretry, hdeadline, hmt, hmerge, hpd,
        evalEndTransaction.committedTxn]

/-- C32 at a commit trigger with the split field and the replica-change field
both set: `RunCommitTrigger` returns what the split of the sample range at
`[15]` returns, and the result carries no replica change. -/
theorem run_commit_trigger_dispatches_once_and_merge_runs_apart_witness :
    RunCommitTrigger (sim.env true) sample.evalCtx
        { batch := sample.batch [(sample.txnKey, sample.record roachpb.PENDING 1 ⟨5, 0⟩)]
          ms := { enginepb.MVCCStats.zero with KeyCount := 2, IntentCount := 4 }
          numKeysEvaluated := none }
        { sample.request true false with
          InternalCommitTrigger := some
            { SplitTrigger := some sample.splitTrigger, MergeTrigger := none,
              ChangeReplicasTrigger := some sample.changeReplicasTrigger,
              ModifiedSpanTrigger := none } }
        sample.committedTxn =
      .ok ({ batch := sample.splitOut.batch, ms := sample.splitOut.ms,
             numKeysEvaluated := none },
        sample.splitOut.res, none) ∧
    sample.splitOut.res.Replicated.ChangeReplicas = none :=
  ⟨(run_commit_trigger_dispatches_once_and_merge_runs_apart (sim.env true)).1
      sample.evalCtx
      { batch := sample.batch [(sample.txnKey, sample.record roachpb.PENDING 1 ⟨5, 0⟩)]
        ms := { enginepb.MVCCStats.zero with KeyCount := 2, IntentCount := 4 }
        numKeysEvaluated := none }
      { sample.request true false with
        InternalCommitTrigger := some
          { SplitTrigger := some sample.splitTrigger, MergeTrigger := none,
            ChangeReplicasTrigger := some sample.changeReplicasTrigger,
            ModifiedSpanTrigger := none } }
      sample.committedTxn sample.splitTrigger rfl,
   rfl⟩

/-- C32 fails as stated: the sample commit whose commit trigger has the merge
field and the split field set succeeds, and in this one evaluation the merge
trigger ran (its abort-span copy from range 2 to range 1 is the first write
and its payload is in the result) and the split trigger ran (its three
writes are the last ones and its payload is in the result). -/
theorem commit_with_merge_and_split_runs_both_triggers :
    (evalEndTransaction (sim.env true)
        (sample.state (sample.batch
          [(sample.txnKey, sample.record roachpb.PENDING 1 ⟨5, 0⟩)]))
        (sample.cArgsTrigger sample.mergeAndSplitCommitTrigger) ⟨none⟩).map
        (fun out => (out.err, out.res.Replicated.Merge,
          out.res.Replicated.Split.map (fun s => s.SplitTrigger), out.st.batch.writes)) =
      .ok (none, some { MergeTrigger := sample.mergeTrigger }, some sample.splitTrigger,
        [sim.Write.CopyAbortSpan 2 1,
         sim.Write.ResolveWriteIntent (sample.committedIntent ⟨[11], []⟩),
         sim.Write.ResolveWriteIntentRange (sample.committedIntent ⟨[12], [30]⟩) 499,
         sim.Write.ResolveWriteIntent (sample.committedIntent ⟨[25], []⟩),
         sim.Write.Delete sample.txnKey,
         sim.Write.PutProto [2, 2] (engine.ProtoMessage.timestamp ⟨1, 0⟩),
         sim.Write.CopyAbortSpan 1 2,
         sim.Write.WriteInitialReplicaState sample.splitTrigger.RightDesc
           { Start := ⟨1, 0⟩, Replica := ⟨1, 1, 1⟩, Sequence := 1 }]) :=
  rfl

/-- The retry decision for a transaction with `WriteTooOld` set:
`IsEndTransactionTriggeringRetryError` returns `(true, RETRY_WRITE_TOO_OLD)`
unless the refresh override applies, that is unless the isolation is
SERIALIZABLE, the original timestamp was not observed and the request's
`NoRefreshSpans` is set; when the override applies it returns `false` with
the zero reason. So retry is true exactly when the override does not
apply. -/
theorem write_too_old_retries_unless_refresh_override (txn : roachpb.Transaction)
    (args : roachpb.EndTransactionRequest) (hwto : txn.WriteTooOld = true) :
    IsEndTransactionTriggeringRetryError txn args =
      (if txn.IsSerializable && canForwardSerializableTimestamp txn args.NoRefreshSpans then
        (false, roachpb.TransactionRetryReason.RETRY_REASON_UNKNOWN)
      else
        (true, roachpb.TransactionRetryReason.RETRY_WRITE_TOO_OLD)) ∧
    ((IsEndTransactionTriggeringRetryError txn args).1 = true ↔
      ¬ (txn.Isolation = enginepb.SERIALIZABLE ∧ txn.OrigTimestampWasObserved = false ∧
        args.NoRefreshSpans = true)) := by
  have heq : IsEndTransactionTriggeringRetryError txn args =
      (if txn.IsSerializable && canForwardSerializableTimestamp txn args.NoRefreshSpans then
        (false, roachpb.TransactionRetryReason.RETRY_REASON_UNKNOWN)
      else
        (true, roachpb.TransactionRetryReason.RETRY_WRITE_TOO_OLD)) := by
    simp only [IsEndTransactionTriggeringRetryError, hwto, if_true, Bool.true_and]
  refine ⟨heq, ?_⟩
  rw [heq]
  by_cases hiso : txn.Isolation = enginepb.SERIALIZABLE <;>
    cases hobs : txn.OrigTimestampWasObserved <;>
    cases hnrs : args.NoRefreshSpans <;>
    simp [roachpb.Transaction.IsSerializable, canForwardSerializableTimestamp, hiso, hobs, hnrs]

/-- The sample transaction with write-too-old set: committed by the sample
request, whose `NoRefreshSpans` is false, it must retry; committed with
`NoRefreshSpans` set it does not. -/
theorem write_too_old_retries_unless_refresh_override_witness :
    IsEndTransactionTriggeringRetryError { sample.hTxn with WriteTooOld := true }
        (sample.request true false) =
      (true, roachpb.TransactionRetryReason.RETRY_WRITE_TOO_OLD) ∧
    (IsEndTransactionTriggeringRetryError { sample.hTxn with WriteTooOld := true }
        { sample.request true false with NoRefreshSpans := true }).1 ≠ true :=
  ⟨(write_too_old_retries_unless_refresh_override { sample.hTxn with WriteTooOld := true }
      (sample.request true false) rfl).1,
   fun h => (write_too_old_retries_unless_refresh_override
      { sample.hTxn with WriteTooOld := true }
      { sample.request true false with NoRefreshSpans := true } rfl).2.mp h
      ⟨rfl, rfl, rfl⟩⟩

/-- C33 at the SERIALIZABLE sample transaction with write-too-old set and an
original timestamp that was not observed, committed with `NoRefreshSpans`
set: the write-too-old branch sets the retry (source lines 374-377, "we must
restart"), the refresh override cancels it (source lines 396-399), the
function returns no retry, and the evaluation of that commit over the
PENDING record returns no error and the COMMITTED transaction. -/
theorem write_too_old_transaction_commits_through_refresh_override :
    IsEndTransactionTriggeringRetryError { sample.hTxn with WriteTooOld := true }
        { sample.request true false with NoRefreshSpans := true } =
      (false, roachpb.TransactionRetryReason.RETRY_REASON_UNKNOWN) ∧
    (evalEndTransaction (sim.env true)
        (sample.state (sample.batch
          [(sample.txnKey, sample.record roachpb.PENDING 1 ⟨5, 0⟩)]))
        { EvalCtx := sample.evalCtx
          Header := { RangeID := 1, Txn := some { sample.hTxn with WriteTooOld := true } }
          Args := { sample.request true false with NoRefreshSpans := true } }
        ⟨none⟩).map
        (fun out => (out.err, out.reply.Txn.map (fun t => (t.WriteTooOld, t.Status)))) =
      .ok (none, some (true, roachpb.COMMITTED)) :=
  ⟨rfl, rfl⟩

/-- A deadline that is not below the timestamp is not exceeded. -/
theorem not_exceeding_of_deadline_not_below (t : hlc.Timestamp)
    (args : roachpb.EndTransactionRequest)
    (h : ∀ d, args.Deadline = some d → ¬ d < t) :
    IsEndTransactionExceedingDeadline t args = false := by
  unfold IsEndTransactionExceedingDeadline
  cases hd : args.Deadline with
  | none => rfl
  | some d =>
    simp only
    cases hless : d.Less t
    · rfl
    · exact absurd ((hlc.Timestamp.less_iff_lt d t).mp hless) (h d hd)

/-- The deadline test after the retry check, for a SERIALIZABLE transaction
whose deadline, if any, is not below the maximum of its original and
refreshed timestamps, and for which `IsEndTransactionTriggeringRetryError`
returns no retry: when the refresh override does not apply (the original
timestamp was observed or
`NoRefreshSpans` is not set) the transaction is not pushed, its commit
timestamp is that maximum, and `IsEndTransactionExceedingDeadline` on the
commit timestamp is false; the same holds whenever the commit timestamp is
that maximum. The deadline can be exceeded only by a transaction that is
pushed and got through the retry check by the refresh override. -/
theorem deadline_holds_for_serializable_unless_refresh_override (txn : roachpb.Transaction)
    (args : roachpb.EndTransactionRequest)
    (hiso : txn.Isolation = enginepb.SERIALIZABLE)
    (hdeadline : ∀ d, args.Deadline = some d →
      ¬ d < max txn.OrigTimestamp txn.RefreshedTimestamp)
    (hnoretry : (IsEndTransactionTriggeringRetryError txn args).1 = false) :
    (canForwardSerializableTimestamp txn args.NoRefreshSpans = false →
      txn.Timestamp = max txn.OrigTimestamp txn.RefreshedTimestamp ∧
      IsEndTransactionExceedingDeadline txn.Timestamp args = false) ∧
    (txn.Timestamp = max txn.OrigTimestamp txn.RefreshedTimestamp →
      IsEndTransactionExceedingDeadline txn.Timestamp args = false) ∧
    (IsEndTransactionExceedingDeadline txn.Timestamp args = true →
      txn.Timestamp ≠ max txn.OrigTimestamp txn.RefreshedTimestamp ∧
      txn.OrigTimestampWasObserved = false ∧ args.NoRefreshSpans = true) := by
  have hunpushed : txn.Timestamp = max txn.OrigTimestamp txn.RefreshedTimestamp →
      IsEndTransactionExceedingDeadline txn.Timestamp args = false := by
    intro heq
    rw [heq]
    exact not_exceeding_of_deadline_not_below _ args hdeadline
  have hnooverride : canForwardSerializableTimestamp txn args.NoRefreshSpans = false →
      txn.Timestamp = max txn.OrigTimestamp txn.RefreshedTimestamp := by
    intro hcan
    rw [← hlc.Timestamp.forward_eq_max]
    by_contra hp
    cases hwto : txn.WriteTooOld <;>
      simp [IsEndTransactionTriggeringRetryError, hcan, hiso, hwto, hp] at hnoretry
  refine ⟨fun hcan => ⟨hnooverride hcan, hunpushed (hnooverride hcan)⟩, hunpushed, ?_⟩
  intro hex
  have hpushed : txn.Timestamp ≠ max txn.OrigTimestamp txn.RefreshedTimestamp := by
    intro heq
    rw [hunpushed heq] at hex
    cases hex
  refine ⟨hpushed, ?_⟩
  cases hcan : canForwardSerializableTimestamp txn args.NoRefreshSpans
  · exact absurd (hnooverride hcan) hpushed
  · simpa [canForwardSerializableTimestamp] using hcan

/-- The sample transaction, SERIALIZABLE and not pushed, committed by the
sample request with the deadline 5: the retry check passes without the
override and the deadline is not exceeded. -/
theorem deadline_holds_for_serializable_unless_refresh_override_witness :
    (IsEndTransactionTriggeringRetryError sample.hTxn
        { sample.request true false with Deadline := some ⟨5, 0⟩ }).1 = false ∧
    IsEndTransactionExceedingDeadline sample.hTxn.Timestamp
        { sample.request true false with Deadline := some ⟨5, 0⟩ } = false :=
  ⟨rfl,
   ((deadline_holds_for_serializable_unless_refresh_override sample.hTxn
      { sample.request true false with Deadline := some ⟨5, 0⟩ } rfl
      (fun d hd hlt => by
        cases hd
        rw [← hlc.Timestamp.forward_eq_max] at hlt
        exact absurd ((hlc.Timestamp.less_iff_lt _ _).mpr hlt) (by decide))
      rfl).1 rfl).2⟩

/-- C34 at the SERIALIZABLE sample transaction pushed from 5 to 10, whose
original timestamp was not observed, committed with `NoRefreshSpans` set and
the deadline 7, which is not below its original timestamp 5: the pushed
transaction is not rejected by the retry check, which returns no retry
through the refresh override (source lines 396-399); the deadline test is
no no-op, the deadline is exceeded, and the evaluation of that commit over
the PENDING record fails with the deadline error. -/
theorem pushed_serializable_transaction_exceeds_deadline :
    ({ sample.hTxn with Timestamp := ⟨10, 0⟩ } : roachpb.Transaction).Isolation
      = enginepb.SERIALIZABLE ∧
    ¬ ((⟨7, 0⟩ : hlc.Timestamp) <
      max ({ sample.hTxn with Timestamp := ⟨10, 0⟩ } : roachpb.Transaction).OrigTimestamp
        ({ sample.hTxn with Timestamp := ⟨10, 0⟩ } : roachpb.Transaction).RefreshedTimestamp) ∧
    (IsEndTransactionTriggeringRetryError { sample.hTxn with Timestamp := ⟨10, 0⟩ }
        { sample.request true false with
          NoRefreshSpans := true, Deadline := some ⟨7, 0⟩ }).1 = false ∧
    IsEndTransactionExceedingDeadline
        ({ sample.hTxn with Timestamp := ⟨10, 0⟩ } : roachpb.Transaction).Timestamp
        { sample.request true false with
          NoRefreshSpans := true, Deadline := some ⟨7, 0⟩ } = true ∧
    (evalEndTransaction (sim.env true)
        (sample.state (sample.batch
          [(sample.txnKey, sample.record roachpb.PENDING 1 ⟨5, 0⟩)]))
        { EvalCtx := sample.evalCtx
          Header := { RangeID := 1, Txn := some { sample.hTxn with Timestamp := ⟨10, 0⟩ } }
          Args := { sample.request true false with
                    NoRefreshSpans := true, Deadline := some ⟨7, 0⟩ } }
        ⟨none⟩).map (fun out => out.err) =
      .ok (some (roachpb.Error.TransactionStatusError
        roachpb.StatusMessage.deadlineExceeded)) :=
  ⟨rfl,
   fun hlt => by
    rw [← hlc.Timestamp.forward_eq_max] at hlt
    exact absurd ((hlc.Timestamp.less_iff_lt _ _).mpr hlt) (by decide),
   rfl, rfl, rfl⟩

/-! ### The always-return flag of the result -/

/-- The result the merge trigger returns carries no end-transaction entry. -/
theorem mergeTrigger_endTxns {β : Type} (env : Env β) (rec : EvalContext) (st : State β)
    (merge : roachpb.MergeTrigger) (ts : hlc.Timestamp) :
    (mergeTrigger env rec st merge ts).2.1.Local.EndTxns = none := by
  unfold mergeTrigger
  simp only
  split
  · rfl
  · split
    · rfl
    · split
      · rfl
      · split <;> rfl

/-- Where merging into a result without end-transaction entries yields the
entries of the other side, a commit trigger that returns without error
returns a result without end-transaction entry. -/
theorem RunCommitTrigger_endTxns {β : Type} (env : Env β) (rec : EvalContext)
    (st : State β) (args : roachpb.EndTransactionRequest) (txn : roachpb.Transaction)
    (st' : State β) (res : result.Result)
    (hMerge : ∀ p q c, env.MergeAndDestroy p q = .ok c → p.Local.EndTxns = none →
      c.Local.EndTxns = q.Local.EndTxns)
    (h : RunCommitTrigger env rec st args txn = .ok (st', res, none)) :
    res.Local.EndTxns = none := by
  unfold RunCommitTrigger at h
  cases hict : args.InternalCommitTrigger with
  | none =>
    simp only [hict] at h
    cases h
    rfl
  | some ct =>
    simp only [hict] at h
    split at h
    · rename_i split hsplit
      split at h
      · cases h
      · rename_i r hr
        have hres : r.res = res := by
          have := congrArg (fun x => x.map (fun t => t.2.1)) h
          simpa [Except.map] using this
        have herr : r.err = none := by
          have := congrArg (fun x => x.map (fun t => t.2.2)) h
          simpa [Except.map] using this
        obtain ⟨_, _, _, _, _, _, _, _, _, _, _, _, _, _, _, _, _, _, _, _, hr2⟩ :=
          splitTrigger_ok env rec st.batch st.ms split txn.Timestamp r hr herr
        rw [← hres, hr2]
        rfl
    · split at h
      · cases h
        rfl
      · split at h
        · split at h
          · cases h
          · rename_i pd hg
            have hpd : pd.Local.EndTxns = none := by
              split at hg
              · split at hg
                · exact (hMerge _ _ _ hg rfl).trans rfl
                · cases hg
                  rfl
              · cases hg
                rfl
            split at h
            · split at h
              · cases h
              · rename_i pd2 hm2
                cases h
                exact (hMerge _ _ _ hm2 hpd).trans rfl
            · cases h
              exact hpd
        · split at h
          · cases h
            rfl
          · cases h

/-- Where `FromEndTxn` builds the one end-transaction entry of its arguments
and merging into a result without entries yields the entries of the other
side, a successful assembly on a result without entries returns the
transaction in the reply and a result whose one end-transaction entry is for
that transaction, with `Always = false` and the request's poison flag. -/
theorem assemble_endTxns {β : Type} (env : Env β) (st : State β)
    (args : roachpb.EndTransactionRequest) (txn : roachpb.Transaction) (pd : result.Result)
    (out : EvalOut β)
    (hFrom : ∀ t a p, (env.FromEndTxn t a p).Local.EndTxns
      = some [{ Txn := t, Always := a, Poison := p }])
    (hMerge : ∀ p q c, env.MergeAndDestroy p q = .ok c → p.Local.EndTxns = none →
      c.Local.EndTxns = q.Local.EndTxns)
    (h : evalEndTransaction.assemble env st args txn pd = .ok out) (herr : out.err = none)
    (hpd : pd.Local.EndTxns = none) :
    out.reply = ⟨some txn⟩ ∧
    out.res.Local.EndTxns = some [{ Txn := txn, Always := false, Poison := args.Poison }] := by
  have hm := assemble_ok env st args txn pd out h herr
  refine ⟨?_, ?_⟩
  · unfold evalEndTransaction.assemble at h
    simp only at h
    split at h <;> cases h <;> rfl
  · rw [hMerge _ _ _ hm hpd]
    exact hFrom txn false args.Poison

/-- Under the same two laws, a successful return of the code from intent
resolution on, started with a result without end-transaction entry, carries
a result whose one end-transaction entry has `Always = false`, for the
transaction in the reply, which has the status it was given. -/
theorem resolveAndFinish_endTxns {β : Type} (env : Env β) (st : State β)
    (cArgs : CommandArgs) (txn : roachpb.Transaction) (pd : result.Result)
    (out : EvalOut β)
    (hFrom : ∀ t a p, (env.FromEndTxn t a p).Local.EndTxns
      = some [{ Txn := t, Always := a, Poison := p }])
    (hMerge : ∀ p q c, env.MergeAndDestroy p q = .ok c → p.Local.EndTxns = none →
      c.Local.EndTxns = q.Local.EndTxns)
    (h : evalEndTransaction.resolveAndFinish env st cArgs txn pd = .ok out)
    (herr : out.err = none) (hpd : pd.Local.EndTxns = none) :
    ∃ txn', txn'.Status = txn.Status ∧ out.reply = ⟨some txn'⟩ ∧
      out.res.Local.EndTxns
        = some [{ Txn := txn', Always := false, Poison := cArgs.Args.Poison }] := by
  unfold evalEndTransaction.resolveAndFinish at h
  simp only at h
  split at h
  · cases h
  · cases h
    simp at herr
  · rename_i st1 ext hres
    split at h
    · cases h
      simp at herr
    · split at h
      · split at h
        · cases h
        · cases h
          simp at herr
        · rename_i st2 r hrun
          split at h
          · cases h
            simp at herr
          · rename_i pd' hmerge
            have hpd' : pd'.Local.EndTxns = none := by
              rw [hMerge _ _ _ hmerge hpd]
              exact RunCommitTrigger_endTxns env _ _ _ _ st2 r hMerge hrun
            exact ⟨_, updateTxnWithExternalIntents_status env st1 cArgs.Args txn ext,
              assemble_endTxns env _ _ _ pd' out hFrom hMerge h herr hpd'⟩
      · exact ⟨_, updateTxnWithExternalIntents_status env st1 cArgs.Args txn ext,
          assemble_endTxns env _ _ _ pd out hFrom hMerge h herr hpd⟩

/-- Under the same two laws, a successful return of the code after the status
switch carries a result whose one end-transaction entry has `Always = false`,
for a commit and for a rollback. -/
theorem updateAndFinish_endTxns {β : Type} (env : Env β) (st : State β)
    (cArgs : CommandArgs) (hTxn existingTxn : roachpb.Transaction)
    (out : EvalOut β)
    (hFrom : ∀ t a p, (env.FromEndTxn t a p).Local.EndTxns
      = some [{ Txn := t, Always := a, Poison := p }])
    (hMerge : ∀ p q c, env.MergeAndDestroy p q = .ok c → p.Local.EndTxns = none →
      c.Local.EndTxns = q.Local.EndTxns)
    (h : evalEndTransaction.updateAndFinish env st cArgs hTxn existingTxn = .ok out)
    (herr : out.err = none) :
    ∃ txn,
      txn.Status = (if cArgs.Args.Commit then roachpb.COMMITTED else roachpb.ABORTED) ∧
      out.reply = ⟨some txn⟩ ∧
      out.res.Local.EndTxns
        = some [{ Txn := txn, Always := false, Poison := cArgs.Args.Poison }] := by
  unfold evalEndTransaction.updateAndFinish at h
  simp only at h
  split at h
  · rename_i hcommit
    split at h
    · cases h
      simp at herr
    · split at h
      · cases h
        simp at herr
      · split at h
        · rename_i mt hmt
          split at h
          · cases h
            simp at herr
          · rename_i st' mergeResult hmr
            split at h
            · cases h
              simp at herr
            · rename_i pd hmerge
              have hpd : pd.Local.EndTxns = none := by
                rw [hMerge _ _ _ hmerge rfl]
                have := mergeTrigger_endTxns env cArgs.EvalCtx st mt
                  ({ env.Update existingTxn hTxn with Status := roachpb.COMMITTED } :
                    roachpb.Transaction).Timestamp
                rw [hmr] at this
                exact this
              obtain ⟨txn, hs, hr, he⟩ :=
                resolveAndFinish_endTxns env _ cArgs _ _ out hFrom hMerge h herr hpd
              exact ⟨txn, by simpa [hcommit] using hs, hr, he⟩
        · obtain ⟨txn, hs, hr, he⟩ :=
            resolveAndFinish_endTxns env _ cArgs _ _ out hFrom hMerge h herr rfl
          exact ⟨txn, by simpa [hcommit] using hs, hr, he⟩
  · rename_i hcommit
    obtain ⟨txn, hs, hr, he⟩ :=
      resolveAndFinish_endTxns env _ cArgs _ _ out hFrom hMerge h herr rfl
    exact ⟨txn, by simpa [hcommit] using hs, hr, he⟩

/-- Merging in the reference environment into a result without
end-transaction entries yields the entries of the other side. -/
theorem sim_MergeAndDestroy_endTxns (p q c : result.Result)
    (h : sim.MergeAndDestroy p q = .ok c) (hp : p.Local.EndTxns = none) :
    c.Local.EndTxns = q.Local.EndTxns := by
  unfold sim.MergeAndDestroy at h
  split at h <;> first | (cases h; simp [sim.appendOption, hp]) | cases h

/-- C12, as the code has it. Where `FromEndTxn` builds the one end-transaction
entry of its arguments and merging into a result without end-transaction
entries yields the entries of the other side: a successful evaluation that
went through the status switch on a PENDING record, a commit or a rollback
alike, returns a result whose end-transaction entries are exactly one entry,
with `Always = false` and the request's poison flag, for the transaction in
the reply, which is COMMITTED for a commit and ABORTED for a rollback; no
entry with `Always = true` is in the result. A successful evaluation on an
ABORTED record is a rollback and returns the result `FromEndTxn` builds with
`alwaysReturn = true`, whose one entry has `Always = true`. -/
theorem always_return_true_only_for_aborted_record {β : Type} (env : Env β) (st : State β)
    (cArgs : CommandArgs) (reply : roachpb.EndTransactionResponse)
    (hTxn existingTxn : roachpb.Transaction) (out : EvalOut β)
    (hFrom : ∀ t a p, (env.FromEndTxn t a p).Local.EndTxns
      = some [{ Txn := t, Always := a, Poison := p }])
    (hMerge : ∀ p q c, env.MergeAndDestroy p q = .ok c → p.Local.EndTxns = none →
      c.Local.EndTxns = q.Local.EndTxns)
    (hfinds : FindsRecord env st cArgs hTxn existingTxn)
    (heval : evalEndTransaction env st cArgs reply = .ok out)
    (herr : out.err = none) :
    (PassesValidation env st cArgs hTxn existingTxn →
      ∃ txn,
        txn.Status = (if cArgs.Args.Commit then roachpb.COMMITTED else roachpb.ABORTED) ∧
        out.reply = ⟨some txn⟩ ∧
        out.res.Local.EndTxns
          = some [{ Txn := txn, Always := false, Poison := cArgs.Args.Poison }]) ∧
    (existingTxn.Status = roachpb.ABORTED →
      cArgs.Args.Commit = false ∧
      ∃ txn, txn.Status = roachpb.ABORTED ∧
        out.reply = ⟨some txn⟩ ∧
        out.res = env.FromEndTxn txn true cArgs.Args.Poison ∧
        out.res.Local.EndTxns
          = some [{ Txn := txn, Always := true, Poison := cArgs.Args.Poison }]) := by
  constructor
  · intro hvalid
    rw [evalEndTransaction_of_passesValidation env st cArgs reply hTxn existingTxn hvalid]
      at heval
    exact updateAndFinish_endTxns env st cArgs hTxn existingTxn out hFrom hMerge heval herr
  · intro hstatus
    obtain ⟨hverify, h1pc, htxn, hget⟩ := hfinds
    have hne : (roachpb.ABORTED == roachpb.COMMITTED) = false := by decide
    simp only [evalEndTransaction, hverify, h1pc, htxn, hget, hstatus, hne] at heval
    simp only [Bool.false_eq_true, if_false, beq_self_eq_true, if_true] at heval
    split at heval
    · rename_i hc
      refine ⟨by simpa using hc, ?_⟩
      split at heval
      · cases heval
      · cases heval
        simp at herr
      · rename_i st1 ext hres
        split at heval
        · cases heval
          simp at herr
        · cases heval
          exact ⟨_, (updateTxnWithExternalIntents_status env st1 cArgs.Args existingTxn
            ext).trans hstatus, rfl, rfl, hFrom _ _ _⟩
    · cases heval
      simp at herr

/-- C12 at the sample rollback of the PENDING record in the reference
environment: the one end-transaction entry of its result is for the ABORTED
transaction in the reply and has `Always = false`. -/
theorem always_return_true_only_for_aborted_record_witness :
    ∃ txn,
      txn.Status = roachpb.ABORTED ∧
      sample.pendingRollbackOut.reply = ⟨some txn⟩ ∧
      sample.pendingRollbackOut.res.Local.EndTxns
        = some [{ Txn := txn, Always := false, Poison := false }] :=
  (always_return_true_only_for_aborted_record (sim.env true)
    (sample.state (sample.batch [(sample.txnKey, sample.record roachpb.PENDING 1 ⟨5, 0⟩)]))
    (sample.cArgs false false) ⟨none⟩ sample.hTxn (sample.record roachpb.PENDING 1 ⟨5, 0⟩)
    sample.pendingRollbackOut (fun _ _ _ => rfl) sim_MergeAndDestroy_endTxns
    ⟨rfl, rfl, rfl, rfl⟩ rfl rfl).1
    ⟨⟨rfl, rfl, rfl, rfl⟩, rfl, by decide,
      fun h => absurd ((hlc.Timestamp.less_iff_lt _ _).mpr h.2) (by decide)⟩
